import Mathlib

/-!
Verification of the advocacy-platform ETL pipeline (backend/etl/pipeline.py,
backend/models/raw.py, backend/models/clean.py).

Shallow embedding conventions:
* Python JSON scalars are modelled by the inductive PyVal; Python floats are
  modelled as exact rationals (float NaN/inf and digit-group underscores in
  numeric literals are outside the model).
* uuid values are modelled as natural numbers (the 128-bit integer value a
  Python uuid.UUID carries); uuid4() generation and datetime.now() are
  modelled by explicit supplies (an environment of streams with counters).
* datetime values are modelled by their canonical isoformat strings.
* Fallible Python code is modelled with Except / Option.
-/

namespace AdvocacyEtl

abbrev Uuid := Nat
abbrev Time := Nat

/-- A Python value appearing in the raw JSON records: null, string,
int, or float (modelled as an exact rational). -/
inductive PyVal where
  | none
  | str (s : String)
  | int (n : Int)
  | real (q : ℚ)
deriving DecidableEq, Repr

/-- Characters allowed in the local part of the email regex
[A-Za-z0-9._%+-] in RawAdvocateUser.clean_email. -/
def isLocalChar (c : Char) : Bool :=
  c.isAlphanum || c = '.' || c = '_' || c = '%' || c = '+' || c = '-'

/-- Characters allowed in the domain part of the email regex [A-Za-z0-9.-]. -/
def isDomainChar (c : Char) : Bool :=
  c.isAlphanum || c = '.' || c = '-'

/-- Characters allowed in a social handle, the regex [A-Za-z0-9._] of
clean_instagram / clean_tiktok. -/
def isHandleChar (c : Char) : Bool :=
  c.isAlphanum || c = '.' || c = '_'

/-- The ASCII whitespace characters stripped by Python str.strip(). -/
def pyWhitespace (c : Char) : Bool :=
  c = ' ' || c = '\t' || c = '\n' || c = '\r' || c = '\x0b' || c = '\x0c'

/-- Python str.strip() on a character list. -/
def pyStripList (l : List Char) : List Char :=
  ((l.dropWhile pyWhitespace).reverse.dropWhile pyWhitespace).reverse

/-- Python str.strip(). -/
def pyStrip (s : String) : String :=
  String.mk (pyStripList s.data)

/-- Python str.lower() (the inputs the pipeline lowercases are ASCII). -/
def pyLower (s : String) : String :=
  String.mk (s.data.map Char.toLower)

/-- Python str.replace on character lists: leftmost non-overlapping
occurrences, with an explicit fuel bound (the list length) to keep the
recursion structural. -/
def replaceListAux (pat rep : List Char) : Nat → List Char → List Char
  | 0, l => l
  | _ + 1, [] => []
  | fuel + 1, c :: rest =>
    if pat.isPrefixOf (c :: rest) ∧ pat ≠ [] then
      rep ++ replaceListAux pat rep fuel ((c :: rest).drop pat.length)
    else
      c :: replaceListAux pat rep fuel rest

/-- Python str.replace. -/
def pyReplace (s pat rep : String) : String :=
  String.mk (replaceListAux pat.data rep.data s.data.length s.data)

/-- Exact decimal expansion digits of r / d (r < d), up to the given fuel.
Used to render Python float values; exact for terminating decimals, which
covers every value Python str() renders with a short decimal literal. -/
def decimalDigits : Nat → Nat → Nat → List Char
  | 0, _, _ => []
  | _ + 1, 0, _ => []
  | fuel + 1, r, d =>
    let r10 := r * 10
    Char.ofNat (48 + r10 / d) :: decimalDigits fuel (r10 % d) d

/-- Python str() of a float value, modelled as the exact decimal expansion
of the rational (with a trailing ".0" for integral values, as Python prints). -/
def pyRealStr (q : ℚ) : String :=
  let sign := if q < 0 then "-" else ""
  let na := q.num.natAbs
  let ip := na / q.den
  let r := na % q.den
  let frac := decimalDigits 64 r q.den
  sign ++ toString ip ++ "." ++ (if frac.isEmpty then "0" else String.mk frac)

/-- Python str() applied to a PyVal. -/
def pyStr : PyVal → String
  | .none => "None"
  | .str s => s
  | .int n => toString n
  | .real q => pyRealStr q

/-- The common body of clean_instagram / clean_tiktok on an already
stringified value: str.strip(), then lstrip('@'), then the full-string
regex [A-Za-z0-9._]+, re-prefixing '@' on success. -/
def handleCore (s : String) : Option String :=
  let h := (pyStripList s.data).dropWhile (fun c => c = '@')
  if !h.isEmpty && h.all isHandleChar then some ("@" ++ String.mk h) else none

/-- RawAdvocateUser.clean_instagram: None/'' becomes None; any other value is
stringified with str() and normalized by handleCore. -/
def cleanInstagram (v : PyVal) : Option String :=
  if v = PyVal.none ∨ v = PyVal.str "" then none
  else handleCore (pyStr v)

/-- RawAdvocateUser.clean_tiktok: None, '' and every non-string value become
None; strings are normalized by handleCore. -/
def cleanTiktok (v : PyVal) : Option String :=
  match v with
  | .str s => if s = "" then none else handleCore s
  | _ => none

/-- RawAdvocateUser.clean_name. -/
def cleanName (v : PyVal) : Option String :=
  if v = PyVal.none ∨ v = PyVal.str "" ∨ v = PyVal.str "???" then none
  else some (pyStrip (pyStr v))

/-- Domain-and-tld part of the email regex: [A-Za-z0-9.-]+ then a literal
dot then [A-Za-z]{2,}, anchored at the end.  Because the tld class has no
dot, a match exists iff the split at the last dot works. -/
def matchDomainPart (r : List Char) : Bool :=
  match r.reverse.dropWhile (fun c => c ≠ '.') with
  | '.' :: revBody =>
    decide (2 ≤ (r.reverse.takeWhile (fun c => c ≠ '.')).length)
      && (r.reverse.takeWhile (fun c => c ≠ '.')).all Char.isAlpha
      && !revBody.isEmpty && revBody.all isDomainChar
  | _ => false

/-- Whole-string match of the email regex core
[A-Za-z0-9._%+-]+ '@' [A-Za-z0-9.-]+ '.' [A-Za-z]{2,} . -/
def emailCoreMatch (l : List Char) : Bool :=
  match l.dropWhile isLocalChar with
  | '@' :: rest => !(l.takeWhile isLocalChar).isEmpty && matchDomainPart rest
  | _ => false

/-- Python re.match of the anchored email pattern: the dollar anchor also
matches just before one final newline. -/
def pyEmailMatch (s : String) : Bool :=
  emailCoreMatch s.data
    || (s.data.getLast? = some '\n' && emailCoreMatch s.data.dropLast)

/-- RawAdvocateUser.clean_email: sentinel checks, the isinstance/'@' guard,
then the regex match; on success the value is lowercased (never trimmed). -/
def cleanEmail (v : PyVal) : Option String :=
  if v = PyVal.none ∨ v = PyVal.str "" ∨ v = PyVal.str "invalid-email" then none
  else match v with
    | .str s =>
      if !(s.data.contains '@') then none
      else if pyEmailMatch s then some (pyLower s) else none
    | _ => none

/-- Value of a hexadecimal digit character. -/
def hexDigitVal (c : Char) : Option Nat :=
  if c.isDigit then some (c.toNat - 48)
  else if 'a' ≤ c ∧ c ≤ 'f' then some (c.toNat - 87)
  else if 'A' ≤ c ∧ c ≤ 'F' then some (c.toNat - 55)
  else none

/-- Continuation of Python int(_, 16) after at least one digit: further
digits, each optionally preceded by a single grouping underscore. -/
def hexTail : List Char → Nat → Option Nat
  | [], acc => some acc
  | '_' :: c :: rest, acc =>
    match hexDigitVal c with
    | some d => hexTail rest (acc * 16 + d)
    | none => none
  | ['_'], _ => none
  | c :: rest, acc =>
    match hexDigitVal c with
    | some d => hexTail rest (acc * 16 + d)
    | none => none

/-- Start of a hexadecimal digit sequence: at least one digit, no leading
underscore. -/
def hexStart : List Char → Option Nat
  | [] => none
  | c :: rest =>
    match hexDigitVal c with
    | some d => hexTail rest d
    | none => none

/-- After an explicit 0x/0X base marker Python permits one grouping
underscore before the first digit. -/
def hexAfterBase : List Char → Option Nat
  | '_' :: rest => hexStart rest
  | rest => hexStart rest

/-- Python int(s, 16) for non-negative inputs: surrounding whitespace, an
optional '+' sign, an optional 0x/0X marker, then hex digits. -/
def pyIntHex (l : List Char) : Option Nat :=
  let t := pyStripList l
  let t := match t with | '+' :: r => r | r => r
  match t with
  | '0' :: 'x' :: r => hexAfterBase r
  | '0' :: 'X' :: r => hexAfterBase r
  | r => hexStart r

/-- The normalization uuid.UUID applies to its hex argument: drop every
occurrence of "urn:" and "uuid:", strip braces from both ends, drop dashes. -/
def pyUuidNormalize (s : String) : List Char :=
  let t := pyReplace (pyReplace s "urn:" "") "uuid:" ""
  let t := t.data.dropWhile (fun c => c = '{' ∨ c = '}')
  let t := (t.reverse.dropWhile (fun c => c = '{' ∨ c = '}')).reverse
  t.filter (fun c => c ≠ '-')

/-- Python uuid.UUID(s): normalize, require exactly 32 characters, parse as
a base-16 integer, require the 128-bit range. -/
def pyUuidParse (s : String) : Option Uuid :=
  let h := pyUuidNormalize s
  if h.length ≠ 32 then none
  else match pyIntHex h with
    | some n => if n < 2 ^ 128 then some n else none
    | none => none

/-- RawAdvocateUser.clean_user_id: empty becomes None, otherwise the value
must parse as a uuid (non-strings raise AttributeError, caught to None). -/
def cleanUserId (v : PyVal) : Option String :=
  match v with
  | .str s => if s = "" then none else if (pyUuidParse s).isSome then some s else none
  | _ => none

/-- RawTask.clean_task_id: only null and empty become None; every other
value passes through unvalidated. -/
def cleanTaskId (v : PyVal) : PyVal :=
  if v = PyVal.none ∨ v = PyVal.str "" then PyVal.none else v

/-- RawProgram.clean_program_id: only null and empty become None; every
other value passes through unvalidated. -/
def cleanProgramId (v : PyVal) : PyVal :=
  if v = PyVal.none ∨ v = PyVal.str "" then PyVal.none else v

/-- Value of a decimal digit character. -/
def decDigitVal (c : Char) : Option Nat :=
  if c.isDigit then some (c.toNat - 48) else none

/-- Value of a nonempty all-decimal-digit character list (callers check the
digit property; empty lists yield 0). -/
def natOfDigits (l : List Char) : Nat :=
  l.foldl (fun acc c => acc * 10 + ((decDigitVal c).getD 0)) 0

/-- Python int(s) on a decimal string: surrounding whitespace, an optional
sign, then at least one digit (grouping underscores are outside the model). -/
def pyParseIntDec (s : String) : Option Int :=
  let t := pyStripList s.data
  let sign : Int := match t with | '-' :: _ => -1 | _ => 1
  let t := match t with | '+' :: r => r | '-' :: r => r | r => r
  if t.isEmpty || !(t.all Char.isDigit) then none
  else some (sign * (natOfDigits t : Int))

/-- Exponent suffix of a Python float literal ('e'/'E', optional sign,
at least one digit); empty input leaves the mantissa unchanged. -/
def pyParseFloatExp (base : ℚ) : List Char → Option ℚ
  | [] => some base
  | _ :: er =>
    let esign : Int := match er with | '-' :: _ => -1 | _ => 1
    let er := match er with | '+' :: r => r | '-' :: r => r | r => r
    if er.isEmpty || !(er.all Char.isDigit) then none
    else some (base * (10 : ℚ) ^ (esign * (natOfDigits er : Int)))

/-- Python float(s): surrounding whitespace, optional sign, decimal mantissa
with optional fraction, optional exponent.  inf/nan literals and grouping
underscores are outside the model (they are treated as parse failures). -/
def pyParseFloat (s : String) : Option ℚ :=
  let t := pyStripList s.data
  let sign : ℚ := match t with | '-' :: _ => -1 | _ => 1
  let t := match t with | '+' :: r => r | '-' :: r => r | r => r
  let mant := t.takeWhile (fun c => c ≠ 'e' ∧ c ≠ 'E')
  let rest := t.drop mant.length
  let ip := mant.takeWhile (fun c => c ≠ '.')
  match mant.drop ip.length with
  | '.' :: fp =>
    if ip.isEmpty && fp.isEmpty then none
    else if !(ip.all Char.isDigit && fp.all Char.isDigit) then none
    else pyParseFloatExp (sign * ((natOfDigits ip : ℚ)
      + (natOfDigits fp : ℚ) / (10 : ℚ) ^ fp.length)) rest
  | [] =>
    if ip.isEmpty || !(ip.all Char.isDigit) then none
    else pyParseFloatExp (sign * (natOfDigits ip : ℚ)) rest
  | _ => none

/-- Python int() applied to a float value: truncation toward zero. -/
def pyTrunc (q : ℚ) : Int :=
  if 0 ≤ q then ⌊q⌋ else -⌊-q⌋

/-- RawSocialAnalytics.clean_likes: None/''/'NaN' become None; strings are
parsed with int() (unparsable becomes None); numbers pass through unchanged
(no flooring here). -/
def cleanLikes (v : PyVal) : PyVal :=
  if v = PyVal.none ∨ v = PyVal.str "" ∨ v = PyVal.str "NaN" then PyVal.none
  else match v with
    | .str s => match pyParseIntDec s with | some n => PyVal.int n | none => PyVal.none
    | w => w

/-- RawSocialAnalytics.clean_reach: numbers are floored at zero after int()
truncation; every string (even a numeric one) becomes None. -/
def cleanReach (v : PyVal) : Option Int :=
  match v with
  | .int n => some (max 0 n)
  | .real q => some (max 0 (pyTrunc q))
  | _ => none

/-- RawSocialAnalytics.clean_impressions: None/''/'NaN' become None; strings
are parsed with int() without flooring; numbers are floored at zero. -/
def cleanImpressions (v : PyVal) : Option Int :=
  if v = PyVal.none ∨ v = PyVal.str "" ∨ v = PyVal.str "NaN" then none
  else match v with
    | .str s => pyParseIntDec s
    | .int n => some (max 0 n)
    | .real q => some (max 0 (pyTrunc q))
    | .none => none

/-- RawSocialAnalytics.clean_engagement_rate. -/
def cleanEngagementRate (v : PyVal) : Option ℚ :=
  if v = PyVal.none ∨ v = PyVal.str "" ∨ v = PyVal.str "NaN" then none
  else match v with
    | .str s => pyParseFloat s
    | .int n => some (n : ℚ)
    | .real q => some q
    | .none => none

/-- RawProgram.clean_sales: None/''/'no-data' become None; numbers become
floats; strings are parsed after removing every ',' and '$'. -/
def cleanSales (v : PyVal) : Option ℚ :=
  if v = PyVal.none ∨ v = PyVal.str "" ∨ v = PyVal.str "no-data" then none
  else match v with
    | .int n => some (n : ℚ)
    | .real q => some q
    | .str s => pyParseFloat (String.mk (s.data.filter (fun c => c ≠ ',' ∧ c ≠ '$')))
    | .none => none

/-- RawProgram.clean_brand: null/empty and numeric values become None;
strings are trimmed with case preserved. -/
def cleanBrand (v : PyVal) : Option String :=
  if v = PyVal.none ∨ v = PyVal.str "" then none
  else match v with
    | .str s => some (pyStrip s)
    | _ => none

/-- The fixed canonicalization table of RawTask.clean_platform. -/
def platformMap (s : String) : Option String :=
  if s = "tiktok" then some "TikTok"
  else if s = "instagram" then some "Instagram"
  else if s = "facebook" then some "Facebook"
  else if s = "youtube" then some "YouTube"
  else if s = "twitter" then some "Twitter"
  else if s = "unknown" then some "Unknown"
  else none

/-- RawTask.clean_platform: numbers become None; strings are stripped,
lowercased and looked up in the canonicalization table. -/
def cleanPlatform (v : PyVal) : Option String :=
  match v with
  | .str s => platformMap (pyLower (pyStrip s))
  | _ => none

/-- RawTask.clean_post_url: None/''/'broken_link' become None; other values
must be strings starting with a recognized scheme. -/
def cleanPostUrl (v : PyVal) : Option String :=
  if v = PyVal.none ∨ v = PyVal.str "" ∨ v = PyVal.str "broken_link" then none
  else match v with
    | .str s =>
      if "http://".data.isPrefixOf s.data || "https://".data.isPrefixOf s.data then some s
      else none
    | _ => none

/-- Parse exactly k decimal digits. -/
def parseDigits : Nat → List Char → Option (Nat × List Char)
  | 0, l => some (0, l)
  | _ + 1, [] => none
  | k + 1, c :: l =>
    match decDigitVal c with
    | some d =>
      match parseDigits k l with
      | some (v, rest) => some (d * 10 ^ k + v, rest)
      | none => none
    | none => none

/-- Parse one or two decimal digits (the strptime %m/%d fields). -/
def parse1or2 : List Char → Option (Nat × List Char)
  | [] => none
  | c :: l =>
    match decDigitVal c with
    | some d =>
      match l with
      | c2 :: l2 =>
        match decDigitVal c2 with
        | some d2 => some (d * 10 + d2, l2)
        | none => some (d, l)
      | [] => some (d, [])
    | none => none

/-- Gregorian leap-year rule, as datetime validates. -/
def isLeap (y : Nat) : Bool :=
  (y % 4 = 0 && y % 100 ≠ 0) || y % 400 = 0

def daysInMonth (y m : Nat) : Nat :=
  if m = 2 then (if isLeap y then 29 else 28)
  else if m = 4 ∨ m = 6 ∨ m = 9 ∨ m = 11 then 30
  else 31

def validDate (y m d : Nat) : Bool :=
  1 ≤ y && y ≤ 9999 && 1 ≤ m && m ≤ 12 && 1 ≤ d && d ≤ daysInMonth y m

def pad2 (n : Nat) : String :=
  if n < 10 then "0" ++ toString n else toString n

def pad4 (n : Nat) : String :=
  if n < 10 then "000" ++ toString n
  else if n < 100 then "00" ++ toString n
  else if n < 1000 then "0" ++ toString n
  else toString n

def pad6 (n : Nat) : String :=
  let s := toString n
  String.mk (List.replicate (6 - s.length) '0') ++ s

/-- datetime.isoformat() of the parsed instant: microseconds are printed
only when nonzero, a utc designator becomes the +00:00 offset. -/
def isoOut (y mo d h mi s micros : Nat) (tz : Option String) : String :=
  pad4 y ++ "-" ++ pad2 mo ++ "-" ++ pad2 d ++ "T" ++ pad2 h ++ ":" ++ pad2 mi
    ++ ":" ++ pad2 s ++ (if micros = 0 then "" else "." ++ pad6 micros)
    ++ tz.getD ""

/-- Timezone suffix: nothing, 'Z', or a ±HH:MM offset. -/
def parseTz : List Char → Option (Option String)
  | [] => some none
  | ['Z'] => some (some "+00:00")
  | c :: l =>
    if c = '+' ∨ c = '-' then
      match parseDigits 2 l with
      | some (h, ':' :: l2) =>
        match parseDigits 2 l2 with
        | some (m, []) =>
          if h ≤ 23 && m ≤ 59 then
            some (some (String.mk [c] ++ pad2 h ++ ":" ++ pad2 m))
          else none
        | _ => none
      | _ => none
    else none

/-- Fractional-second suffix (1 to 6 digits) followed by a timezone. -/
def parseFrac (l : List Char) : Option (Nat × Option String) :=
  let digs := l.takeWhile Char.isDigit
  if digs.isEmpty ∨ 6 < digs.length then none
  else match parseTz (l.drop digs.length) with
    | some tz => some (natOfDigits digs * 10 ^ (6 - digs.length), tz)
    | none => none

/-- Time-of-day part HH[:MM[:SS[.ffffff]]] with optional timezone, as
accepted by the iso parse of the date normalizers. -/
def parseTimePart (y mo d : Nat) (l : List Char) : Option String :=
  match parseDigits 2 l with
  | some (h, rest) =>
    if 23 < h then none
    else match rest with
      | [] => some (isoOut y mo d h 0 0 0 none)
      | ':' :: l2 =>
        match parseDigits 2 l2 with
        | some (mi, rest2) =>
          if 59 < mi then none
          else match rest2 with
            | [] => some (isoOut y mo d h mi 0 0 none)
            | ':' :: l3 =>
              match parseDigits 2 l3 with
              | some (s, rest3) =>
                if 59 < s then none
                else match rest3 with
                  | [] => some (isoOut y mo d h mi s 0 none)
                  | '.' :: l4 =>
                    match parseFrac l4 with
                    | some (micros, tz) => some (isoOut y mo d h mi s micros tz)
                    | none => none
                  | other =>
                    match parseTz other with
                    | some tz => some (isoOut y mo d h mi s 0 tz)
                    | none => none
              | none => none
            | other =>
              match parseTz other with
              | some tz => some (isoOut y mo d h mi 0 0 tz)
              | none => none
        | none => none
      | other =>
        match parseTz other with
        | some tz => some (isoOut y mo d h 0 0 0 tz)
        | none => none
  | none => none

/-- The strptime fallbacks '%m/%d/%Y' then '%d/%m/%Y', tried in order. -/
def tryUsDates (l : List Char) : Option String :=
  match parse1or2 l with
  | some (a, '/' :: l2) =>
    match parse1or2 l2 with
    | some (b, '/' :: l3) =>
      match parseDigits 4 l3 with
      | some (y, []) =>
        if validDate y a b then some (isoOut y a b 0 0 0 0 none)
        else if validDate y b a then some (isoOut y b a 0 0 0 0 none)
        else none
      | _ => none
    | _ => none
  | _ => none

/-- The date-string parse shared by the clean_*_at validators: an iso
date YYYY-MM-DD with an optional 'T'- or space-separated time (the union of
the iso parse and the explicit strptime fallback formats of the source),
then the slash formats.  The result is the datetime isoformat string. -/
def pyParseDate (s : String) : Option String :=
  let l := s.data
  match parseDigits 4 l with
  | some (y, '-' :: l2) =>
    match parseDigits 2 l2 with
    | some (mo, '-' :: l3) =>
      match parseDigits 2 l3 with
      | some (d, rest) =>
        if !validDate y mo d then none
        else match rest with
          | [] => some (isoOut y mo d 0 0 0 0 none)
          | sep :: tr =>
            if sep = 'T' ∨ sep = ' ' then parseTimePart y mo d tr else none
      | _ => none
    | _ => none
  | _ => tryUsDates l

/-- The clean_posted_at / clean_started_at / clean_completed_at /
clean_joined_at validators: sentinel and empty values become None,
non-strings become None, strings go through the date parse. -/
def cleanDateVal (v : PyVal) : Option String :=
  if v = PyVal.none ∨ v = PyVal.str "" ∨ v = PyVal.str "not-a-date" then none
  else match v with
    | .str s => pyParseDate s
    | _ => none

/-- A value of the Optional[int|str] union fields. -/
inductive IntOrStr where
  | int (n : Int)
  | str (s : String)
deriving DecidableEq, Repr

/-- Pydantic coercion to Optional[str]: numbers are rejected. -/
def coerceOptStr : PyVal → Except String (Option String)
  | .none => .ok none
  | .str s => .ok (some s)
  | _ => .error "Input should be a valid string"

/-- Pydantic lax coercion to Optional[int]: numeric strings and integral
floats are accepted, everything else is a validation error. -/
def pyLaxOptInt : PyVal → Except String (Option Int)
  | .none => .ok none
  | .int n => .ok (some n)
  | .str s =>
    match pyParseIntDec s with
    | some n => .ok (some n)
    | none => .error "Input should be a valid integer"
  | .real q =>
    if q.den = 1 then .ok (some q.num) else .error "Input should be a valid integer"

/-- Pydantic coercion to Optional[int|str]: exact matches win; a float is
accepted only when integral (through the int member). -/
def coerceOptIntStr : PyVal → Except String (Option IntOrStr)
  | .none => .ok none
  | .int n => .ok (some (.int n))
  | .str s => .ok (some (.str s))
  | .real q =>
    if q.den = 1 then .ok (some (.int q.num)) else .error "Input should be a valid integer"

/-- The coercion of the likes/impressions analytics fields after their
before-validators: those validators only produce None, ints, or pass a
float through, so the int|str union reduces to an optional int (the float
must be integral). -/
def coerceCounter : PyVal → Except String (Option Int)
  | .none => .ok none
  | .int n => .ok (some n)
  | .real q =>
    if q.den = 1 then .ok (some q.num) else .error "Input should be a valid integer"
  | .str _ => .error "unreachable: the before-validator never returns a string"

/-- One analytics object as it appears in the JSON wire format (either
nested under an analytics key or synthesized from flat task fields). -/
structure JsonAnalytics where
  likes : PyVal := PyVal.none
  comments : PyVal := PyVal.none
  shares : PyVal := PyVal.none
  reach : PyVal := PyVal.none
  impressions : PyVal := PyVal.none
  engagement_rate : PyVal := PyVal.none
deriving DecidableEq, Repr

/-- One task object from the JSON wire format.  For the fields involved in
the flat-to-nested analytics shim, an outer Option models key presence
(none means the key is absent from the dict). -/
structure JsonTask where
  task_id : PyVal := PyVal.none
  platform : PyVal := PyVal.none
  post_url : PyVal := PyVal.none
  posted_at : PyVal := PyVal.none
  analytics : Option (Option JsonAnalytics) := none
  likes : Option PyVal := none
  comments : Option PyVal := none
  shares : Option PyVal := none
  reach : Option PyVal := none
  impressions : Option PyVal := none
  engagement_rate : Option PyVal := none
deriving DecidableEq, Repr

/-- One program object from the JSON wire format (sales_attributed aliases
the total_sales_attributed wire field, tasks aliases tasks_completed). -/
structure JsonProgram where
  program_id : PyVal := PyVal.none
  brand : PyVal := PyVal.none
  sales_attributed : PyVal := PyVal.none
  tasks : List JsonTask := []
  started_at : PyVal := PyVal.none
  completed_at : PyVal := PyVal.none
deriving DecidableEq, Repr

/-- One participant record from the JSON wire format. -/
structure JsonUser where
  user_id : PyVal := PyVal.none
  name : PyVal := PyVal.none
  email : PyVal := PyVal.none
  instagram_handle : PyVal := PyVal.none
  tiktok_handle : PyVal := PyVal.none
  joined_at : PyVal := PyVal.none
  advocacy_programs : List JsonProgram := []
deriving DecidableEq, Repr

/-- RawSocialAnalytics after validation. -/
structure RawSocialAnalytics where
  likes : Option Int
  comments : Option Int
  shares : Option Int
  reach : Option Int
  impressions : Option Int
  engagement_rate : Option ℚ
deriving DecidableEq, Repr

/-- RawTask after validation (the flat compatibility fields are dropped
here because Transform never reads them; their type coercion is still
checked during parsing). -/
structure RawTask where
  task_id : Option String
  platform : Option String
  post_url : Option String
  posted_at : Option String
  analytics : Option RawSocialAnalytics
deriving DecidableEq, Repr

/-- RawProgram after validation. -/
structure RawProgram where
  program_id : Option String
  brand : Option String
  sales_attributed : Option ℚ
  tasks : List RawTask
  started_at : Option String
  completed_at : Option String
deriving DecidableEq, Repr

/-- RawAdvocateUser after validation. -/
structure RawAdvocateUser where
  user_id : Option String
  name : Option String
  email : Option String
  instagram_handle : Option String
  tiktok_handle : Option String
  joined_at : Option String
  advocacy_programs : List RawProgram
deriving DecidableEq, Repr

/-- RawTask.build_analytics: when no analytics key exists but at least one
flat analytics field key is present, synthesize the nested object from the
flat fields (absent keys contribute null values). -/
def buildAnalytics (t : JsonTask) : Option (Option JsonAnalytics) :=
  if t.analytics.isNone &&
      (t.likes.isSome || t.comments.isSome || t.shares.isSome || t.reach.isSome
        || t.impressions.isSome || t.engagement_rate.isSome) then
    some (some {
      likes := t.likes.getD PyVal.none
      comments := t.comments.getD PyVal.none
      shares := t.shares.getD PyVal.none
      reach := t.reach.getD PyVal.none
      impressions := t.impressions.getD PyVal.none
      engagement_rate := t.engagement_rate.getD PyVal.none })
  else t.analytics

/-- Pydantic construction of RawSocialAnalytics: before-validators then
field-type coercion. -/
def parseAnalytics (j : JsonAnalytics) : Except String RawSocialAnalytics := do
  let likes ← coerceCounter (cleanLikes j.likes)
  let comments ← pyLaxOptInt j.comments
  let shares ← pyLaxOptInt j.shares
  let reach := cleanReach j.reach
  let impressions := cleanImpressions j.impressions
  let engagement_rate := cleanEngagementRate j.engagement_rate
  pure ⟨likes, comments, shares, reach, impressions, engagement_rate⟩

/-- Pydantic construction of RawTask: the flat-to-nested shim, the field
validators, then type coercion (including of the unused flat fields, whose
type errors still abort the record). -/
def parseTask (j : JsonTask) : Except String RawTask := do
  let tid ← coerceOptStr (cleanTaskId j.task_id)
  let an ← match buildAnalytics j with
    | none => pure none
    | some none => pure none
    | some (some ja) => Except.map some (parseAnalytics ja)
  let _ ← coerceOptIntStr ((j.likes.getD PyVal.none))
  let _ ← pyLaxOptInt ((j.comments.getD PyVal.none))
  let _ ← pyLaxOptInt ((j.shares.getD PyVal.none))
  let _ ← pyLaxOptInt ((j.reach.getD PyVal.none))
  pure ⟨tid, cleanPlatform j.platform, cleanPostUrl j.post_url,
    cleanDateVal j.posted_at, an⟩

/-- Pydantic construction of RawProgram. -/
def parseProgram (j : JsonProgram) : Except String RawProgram := do
  let pid ← coerceOptStr (cleanProgramId j.program_id)
  let tasks ← j.tasks.mapM parseTask
  pure ⟨pid, cleanBrand j.brand, cleanSales j.sales_attributed, tasks,
    cleanDateVal j.started_at, cleanDateVal j.completed_at⟩

/-- Pydantic construction of RawAdvocateUser, the entry point of the
tolerant raw parse. -/
def parseUser (j : JsonUser) : Except String RawAdvocateUser := do
  let programs ← j.advocacy_programs.mapM parseProgram
  pure ⟨cleanUserId j.user_id, cleanName j.name, cleanEmail j.email,
    cleanInstagram j.instagram_handle, cleanTiktok j.tiktok_handle,
    cleanDateVal j.joined_at, programs⟩

/-- models/clean.py CleanAdvocateAccount (metadata is an opaque bag). -/
structure CleanAdvocateAccount where
  account_id : Uuid
  email : String
  metadata : List (String × String) := []
deriving DecidableEq, Repr

/-- models/clean.py CleanAdvocateUser. -/
structure CleanAdvocateUser where
  user_id : Uuid
  account_id : Uuid
  name : Option String := none
  instagram_handle : Option String := none
  tiktok_handle : Option String := none
  joined_at : Option String := none
  metadata : List (String × String) := []
deriving DecidableEq, Repr

/-- models/clean.py CleanProgram. -/
structure CleanProgram where
  program_id : Uuid
  user_id : Uuid
  brand : String
  program_data : List (String × String) := []
  started_at : Option String := none
  completed_at : Option String := none
deriving DecidableEq, Repr

/-- models/clean.py CleanTask (validate_platform accepts any string, so no
constraint is modelled). -/
structure CleanTask where
  task_id : Uuid
  program_id : Uuid
  platform : String
  post_url : Option String := none
  posted_at : Option String := none
  platform_data : List (String × String) := []
deriving DecidableEq, Repr

/-- models/clean.py CleanSocialAnalytics; measured_at defaults to
datetime.now() at construction. -/
structure CleanSocialAnalytics where
  analytics_id : Uuid
  task_id : Uuid
  likes : Option Int := none
  comments : Option Int := none
  shares : Option Int := none
  reach : Option Int := none
  impressions : Option Int := none
  engagement_rate : Option ℚ := none
  additional_metrics : List (String × String) := []
  measured_at : Time
deriving DecidableEq, Repr

/-- models/clean.py CleanSalesAttribution; attributed_at defaults to
datetime.now() at construction. -/
structure CleanSalesAttribution where
  attribution_id : Uuid
  program_id : Uuid
  amount : ℚ
  currency : String := "USD"
  attributed_at : Time
  attribution_data : List (String × String) := []
deriving DecidableEq, Repr

/-- The problematic_value payloads the pipeline attaches to issues. -/
inductive ProblemVal where
  | rawSales (q : ℚ)
  | originalUnavailable
  | rawData (j : JsonUser)
deriving DecidableEq, Repr

/-- models/clean.py DataQualityIssue (validate_severity holds at every call
site, which only uses the four allowed literals). -/
structure DataQualityIssue where
  issue_id : Uuid
  import_id : Option Uuid := none
  severity : String
  issue_type : String
  issue_description : String
  affected_record_id : Option String := none
  affected_field : Option String := none
  problematic_value : Option ProblemVal := none
deriving DecidableEq, Repr

/-- CleanSocialAnalytics.validate_non_negative on one counter: negative
values are floored at zero, None passes through. -/
def floorCounter : Option Int → Option Int
  | none => none
  | some n => some (if n < 0 then 0 else n)

/-- The uuid4() and datetime.now() supplies of one execution. -/
structure Env where
  uuid : Nat → Uuid
  now : Nat → Time

/-- The mutable pipeline state of AdvocacyETL: the supply counters, the
accumulated quality issues, the in-memory account cache keyed by lowercase
email, and the statistics counters Transform touches. -/
structure EtlState where
  uctr : Nat := 0
  tctr : Nat := 0
  issues : List DataQualityIssue := []
  accounts : List (String × CleanAdvocateAccount) := []
  accountsCreated : Nat := 0
  qualityIssues : Nat := 0
deriving Repr

def freshUuid (env : Env) (st : EtlState) : Uuid × EtlState :=
  (env.uuid st.uctr, { st with uctr := st.uctr + 1 })

def freshNow (env : Env) (st : EtlState) : Time × EtlState :=
  (env.now st.tctr, { st with tctr := st.tctr + 1 })

def toHexChar (n : Nat) : Char :=
  if n < 10 then Char.ofNat (48 + n) else Char.ofNat (87 + n)

/-- The 32 lowercase hex digits of a 128-bit value. -/
def natToHex32 (n : Nat) : List Char :=
  (List.range 32).map (fun i => toHexChar (n / 16 ^ (31 - i) % 16))

/-- Python str() of a uuid value: 8-4-4-4-12 lowercase hex groups. -/
def uuidStr (u : Uuid) : String :=
  let h := natToHex32 u
  String.mk (h.take 8) ++ "-" ++ String.mk ((h.drop 8).take 4) ++ "-"
    ++ String.mk ((h.drop 12).take 4) ++ "-" ++ String.mk ((h.drop 16).take 4)
    ++ "-" ++ String.mk (h.drop 20)

/-- AdvocacyETL.log_quality_issue: construct a DataQualityIssue (its
issue_id default draws a fresh uuid), append it, bump the counter. -/
def logQualityIssue (env : Env) (st : EtlState) (iid : Uuid)
    (severity issueType desc : String) (rid fld : Option String)
    (val : Option ProblemVal) : EtlState :=
  let (u, st) := freshUuid env st
  { st with
    issues := st.issues ++ [⟨u, some iid, severity, issueType, desc, rid, fld, val⟩]
    qualityIssues := st.qualityIssues + 1 }

/-- Lookup in the in-memory account cache (a Python dict keyed by
lowercase email). -/
def cacheLookup (cache : List (String × CleanAdvocateAccount)) (e : String) :
    Option CleanAdvocateAccount :=
  (cache.find? (fun p => p.1 = e)).map Prod.snd

/-- AdvocacyETL.get_or_create_advocate_account: falsy email (None or the
empty string) yields None; otherwise lowercase, consult the run-scoped
cache, and on a miss create a fresh account, cache it and bump the
accounts_created counter.  The operation is total. -/
def getOrCreateAdvocateAccount (env : Env) (st : EtlState)
    (email : Option String) : Option CleanAdvocateAccount × EtlState :=
  match email with
  | none => (none, st)
  | some e =>
    if e = "" then (none, st)
    else
      let el := pyLower e
      match cacheLookup st.accounts el with
      | some a => (some a, st)
      | none =>
        let (u, st) := freshUuid env st
        let a : CleanAdvocateAccount := ⟨u, el, []⟩
        (some a, { st with accounts := (el, a) :: st.accounts
                           accountsCreated := st.accountsCreated + 1 })

/-- Construction of a CleanSocialAnalytics in Transform: fresh analytics_id
and measured_at defaults, counters floored by validate_non_negative. -/
def mkCleanSocialAnalytics (env : Env) (st : EtlState) (taskId : Uuid)
    (ra : RawSocialAnalytics) : CleanSocialAnalytics × EtlState :=
  let (aid, st) := freshUuid env st
  let (t, st) := freshNow env st
  (⟨aid, taskId, floorCounter ra.likes, floorCounter ra.comments,
    floorCounter ra.shares, floorCounter ra.reach, floorCounter ra.impressions,
    ra.engagement_rate, [], t⟩, st)

/-- Construction of a CleanSalesAttribution: fresh attribution_id and
attributed_at defaults, then validate_positive_amount, which rejects any
non-positive amount with a validation error (never clamps). -/
def mkCleanSalesAttribution (env : Env) (st : EtlState) (programId : Uuid)
    (amount : ℚ) : Except String CleanSalesAttribution × EtlState :=
  let (aid, st) := freshUuid env st
  let (t, st) := freshNow env st
  if amount ≤ 0 then (.error "Amount must be positive", st)
  else (.ok ⟨aid, programId, amount, "USD", t, []⟩, st)

abbrev TaskTuple := CleanTask × Option CleanSocialAnalytics

abbrev ProgramTuple := CleanProgram × List TaskTuple × Option CleanSalesAttribution

abbrev CleanTuple := CleanAdvocateUser × List ProgramTuple × CleanAdvocateAccount

instance : DecidableEq ProgramTuple := inferInstance

instance : DecidableEq CleanTuple := inferInstance

/-- One counter is absent or non-negative. -/
def counterNonNeg : Option Int → Bool
  | none => true
  | some n => 0 ≤ n

/-- The non-negativity invariant of one analytics record: each of likes,
comments, shares, reach and impressions is absent or non-negative. -/
def analyticsNonNeg (a : CleanSocialAnalytics) : Bool :=
  counterNonNeg a.likes && counterNonNeg a.comments && counterNonNeg a.shares
    && counterNonNeg a.reach && counterNonNeg a.impressions

/-- Tail of the per-task block of transform_user_data once the task id is
settled: build the CleanTask and, when nested analytics exist, the floored
CleanSocialAnalytics. -/
def finishTask (env : Env) (st : EtlState) (tid programId : Uuid)
    (platform : String) (rt : RawTask) : TaskTuple × EtlState :=
  let task : CleanTask := ⟨tid, programId, platform, rt.post_url, rt.posted_at, []⟩
  match rt.analytics with
  | none => ((task, none), st)
  | some ra =>
    let (an, st) := mkCleanSocialAnalytics env st tid ra
    ((task, some an), st)

/-- The per-task block of transform_user_data: platform fallback with its
invalid_platform issue, then the task id (a present key is parsed with
uuid.UUID and raises on failure, aborting the record; an absent key draws a
fresh uuid), then the task and analytics construction.  An error carries
the state mutated so far, as Python exceptions leave self intact. -/
def processTask (env : Env) (iid programId : Uuid) (st : EtlState)
    (rt : RawTask) : Except (String × EtlState) (TaskTuple × EtlState) :=
  let ps :=
    match rt.platform with
    | some p => (p, st)
    | none =>
      ("Unknown", logQualityIssue env st iid "high" "invalid_platform"
        "Task platform was null or invalid, using fallback: Unknown"
        (some (uuidStr programId)) (some "platform")
        (some ProblemVal.originalUnavailable))
  match rt.task_id with
  | some s =>
    match pyUuidParse s with
    | none => .error ("badly formed hexadecimal UUID string", ps.2)
    | some tid => .ok (finishTask env ps.2 tid programId ps.1 rt)
  | none =>
    let (tid, st2) := freshUuid env ps.2
    .ok (finishTask env st2 tid programId ps.1 rt)

/-- The task loop of one program. -/
def processTasks (env : Env) (iid programId : Uuid) (st : EtlState) :
    List RawTask → Except (String × EtlState) (List TaskTuple × EtlState)
  | [] => .ok ([], st)
  | rt :: rest =>
    match processTask env iid programId st rt with
    | .error e => .error e
    | .ok (ta, st') =>
      match processTasks env iid programId st' rest with
      | .error e => .error e
      | .ok (tas, st'') => .ok (ta :: tas, st'')

/-- Tail of the per-program block once the program id is settled: build the
CleanProgram (started_at is not forwarded by the source), attempt the sales
attribution inside its own try/except (a failure logs one medium
invalid_sales_amount issue carrying the raw value and leaves sales absent),
then process the tasks. -/
def finishProgram (env : Env) (iid : Uuid) (st : EtlState) (pid userId : Uuid)
    (brand : String) (rp : RawProgram) :
    Except (String × EtlState) (ProgramTuple × EtlState) :=
  let program : CleanProgram := ⟨pid, userId, brand, [], none, none⟩
  let ss :=
    match rp.sales_attributed with
    | none => ((none : Option CleanSalesAttribution), st)
    | some q =>
      match mkCleanSalesAttribution env st pid q with
      | (.ok sa, st') => (some sa, st')
      | (.error e, st') =>
        (none, logQualityIssue env st' iid "medium" "invalid_sales_amount"
          ("Failed to parse sales amount: " ++ e) (some (uuidStr pid))
          (some "sales_attributed") (some (ProblemVal.rawSales q)))
  match processTasks env iid pid ss.2 rp.tasks with
  | .error e => .error e
  | .ok (tasks, st') => .ok ((program, tasks, ss.1), st')

/-- The per-program block of transform_user_data: brand fallback with its
missing_brand issue, then the program id (present keys go through
uuid.UUID, raising on failure and aborting the record), then the rest. -/
def processProgram (env : Env) (iid userId : Uuid) (st : EtlState)
    (rp : RawProgram) : Except (String × EtlState) (ProgramTuple × EtlState) :=
  let bs :=
    match rp.brand with
    | some b => (b, st)
    | none =>
      ("Unknown", logQualityIssue env st iid "medium" "missing_brand"
        "Program brand was null, empty, or numeric value - using fallback: Unknown"
        (some (uuidStr userId)) (some "brand") none)
  match rp.program_id with
  | some s =>
    match pyUuidParse s with
    | none => .error ("badly formed hexadecimal UUID string", bs.2)
    | some pid => finishProgram env iid bs.2 pid userId bs.1 rp
  | none =>
    let (pid, st2) := freshUuid env bs.2
    finishProgram env iid st2 pid userId bs.1 rp

/-- The program loop of one record. -/
def processPrograms (env : Env) (iid userId : Uuid) (st : EtlState) :
    List RawProgram → Except (String × EtlState) (List ProgramTuple × EtlState)
  | [] => .ok ([], st)
  | rp :: rest =>
    match processProgram env iid userId st rp with
    | .error e => .error e
    | .ok (pt, st') =>
      match processPrograms env iid userId st' rest with
      | .error e => .error e
      | .ok (pts, st'') => .ok (pt :: pts, st'')

/-- Account resolution of one record: get_or_create on the cleaned email,
or the placeholder-account path (fresh placeholder email and account id,
cache insertion, accounts_created bump, high missing_email issue). -/
def resolveAccount (env : Env) (iid : Uuid) (st : EtlState)
    (ru : RawAdvocateUser) : CleanAdvocateAccount × EtlState :=
  match getOrCreateAdvocateAccount env st ru.email with
  | (some a, st') => (a, st')
  | (none, st') =>
    let (pu, st2) := freshUuid env st'
    let placeholder := "noemail_" ++ uuidStr pu ++ "@placeholder.local"
    let (au, st3) := freshUuid env st2
    let account : CleanAdvocateAccount := ⟨au, placeholder, []⟩
    let st4 := { st3 with accounts := (placeholder, account) :: st3.accounts
                          accountsCreated := st3.accountsCreated + 1 }
    (account, logQualityIssue env st4 iid "high" "missing_email"
      "User has no valid email, created placeholder advocate account"
      (some (match ru.user_id with | some s => s | none => "unknown"))
      (some "email") none)

/-- The user-id expression of one record: a present raw key goes through
uuid.UUID (raising on failure), an absent one draws a fresh uuid. -/
def userIdStep (env : Env) (st : EtlState) (ru : RawAdvocateUser) :
    Except (String × EtlState) (Uuid × EtlState) :=
  match ru.user_id with
  | some s =>
    match pyUuidParse s with
    | some v => .ok (v, st)
    | none => .error ("badly formed hexadecimal UUID string", st)
  | none =>
    let (u, st2) := freshUuid env st
    .ok (u, st2)

/-- The three per-user quality issues (missing_user_id, missing_name,
invalid_email), logged in source order. -/
def logUserIssues (env : Env) (iid : Uuid) (st : EtlState)
    (ru : RawAdvocateUser) (uid : Uuid) : EtlState :=
  let st := if ru.user_id = none then
      logQualityIssue env st iid "medium" "missing_user_id"
        "User ID was null or invalid, generated new UUID"
        (some (uuidStr uid)) (some "user_id") none
    else st
  let st := if ru.name = none then
      logQualityIssue env st iid "low" "missing_name"
        "User name was null or placeholder" (some (uuidStr uid)) (some "name") none
    else st
  if ru.email = none then
    logQualityIssue env st iid "medium" "invalid_email"
      "Email was null or invalid format" (some (uuidStr uid)) (some "email") none
  else st

/-- The body of one transform_user_data iteration after the raw parse:
account resolution, the clean user, the per-user quality issues, and the
program loop. -/
def processParsed (env : Env) (iid : Uuid) (st : EtlState)
    (ru : RawAdvocateUser) : Except (String × EtlState) (CleanTuple × EtlState) :=
  let accS := resolveAccount env iid st ru
  match userIdStep env accS.2 ru with
  | .error e => .error e
  | .ok (uid, st1) =>
    let user : CleanAdvocateUser :=
      ⟨uid, accS.1.account_id, ru.name, ru.instagram_handle, ru.tiktok_handle,
        ru.joined_at, []⟩
    match processPrograms env iid uid (logUserIssues env iid st1 ru uid)
        ru.advocacy_programs with
    | .error e => .error e
    | .ok (programs, st') => .ok ((user, programs, accS.1), st')

/-- One iteration of the transform_user_data loop: parse the raw record and
run the body; any exception logs a critical transformation_error carrying
the raw payload and skips the record, keeping all state mutations made
before the exception. -/
def processRecord (env : Env) (iid : Uuid) (st : EtlState) (j : JsonUser) :
    Option CleanTuple × EtlState :=
  match parseUser j with
  | .error e =>
    (none, logQualityIssue env st iid "critical" "transformation_error"
      ("Failed to transform user record: " ++ e) none none
      (some (ProblemVal.rawData j)))
  | .ok ru =>
    match processParsed env iid st ru with
    | .ok (t, st') => (some t, st')
    | .error (e, st') =>
      (none, logQualityIssue env st' iid "critical" "transformation_error"
        ("Failed to transform user record: " ++ e) none none
        (some (ProblemVal.rawData j)))

/-- The transform_user_data loop over the whole batch. -/
def transformLoop (env : Env) (iid : Uuid) (st : EtlState) :
    List JsonUser → List CleanTuple × EtlState
  | [] => ([], st)
  | j :: rest =>
    match processRecord env iid st j with
    | (some t, st') =>
      let r := transformLoop env iid st' rest
      (t :: r.1, r.2)
    | (none, st') => transformLoop env iid st' rest

/-- AdvocacyETL.transform_user_data run on a freshly initialized pipeline:
__init__ draws the import id first, then the batch is transformed. -/
def runTransform (env : Env) (input : List JsonUser) :
    Uuid × List CleanTuple × EtlState :=
  let (iid, st) := freshUuid env {}
  let r := transformLoop env iid st input
  (iid, r.1, r.2)

/-- A row of the advocate_accounts table (unique email constraint). -/
structure AccountRow where
  account_id : Uuid
  email : String
  metadata : List (String × String)
deriving DecidableEq, Repr

/-- A row of the advocate_users table. -/
structure UserRow where
  user_id : Uuid
  account_id : Uuid
  name : Option String
  instagram_handle : Option String
  tiktok_handle : Option String
  joined_at : Option String
  metadata : List (String × String)
deriving DecidableEq, Repr

/-- A row of the programs table (the columns the pipeline writes). -/
structure ProgramRow where
  program_id : Uuid
  user_id : Uuid
  brand : String
  program_data : List (String × String)
  started_at : Option String
deriving DecidableEq, Repr

/-- A row of the sales_attribution table. -/
structure SalesRow where
  attribution_id : Uuid
  program_id : Uuid
  amount : ℚ
  currency : String
  attributed_at : Time
  attribution_data : List (String × String)
deriving DecidableEq, Repr

/-- A row of the tasks table. -/
structure TaskRow where
  task_id : Uuid
  program_id : Uuid
  platform : String
  post_url : Option String
  posted_at : Option String
  platform_data : List (String × String)
deriving DecidableEq, Repr

/-- A row of the social_analytics table; the pipeline's insert carries no
impressions or engagement_rate column. -/
structure AnalyticsRow where
  analytics_id : Uuid
  task_id : Uuid
  likes : Option Int
  comments : Option Int
  shares : Option Int
  reach : Option Int
  additional_metrics : List (String × String)
  measured_at : Time
deriving DecidableEq, Repr

/-- A row of the raw_imports run-metadata table (the columns the pipeline
reads back or updates). -/
structure ImportRow where
  import_id : Uuid
  status : String
  records_count : Option Nat
deriving DecidableEq, Repr

/-- The relational store the Load stage writes. -/
structure DB where
  imports : List ImportRow := []
  accounts : List AccountRow := []
  users : List UserRow := []
  programs : List ProgramRow := []
  sales : List SalesRow := []
  tasks : List TaskRow := []
  analytics : List AnalyticsRow := []
  issues : List DataQualityIssue := []
deriving DecidableEq, Repr

/-- raw_imports insert with ON CONFLICT (import_id) DO NOTHING. -/
def insertImport (db : DB) (iid : Uuid) : DB :=
  if db.imports.any (fun r => r.import_id = iid) then db
  else { db with imports := db.imports ++ [⟨iid, "processing", none⟩] }

/-- advocate_accounts insert with ON CONFLICT (email) DO UPDATE SET
metadata, RETURNING account_id: the storage-assigned id of a pre-existing
row is returned unchanged; a fresh row keeps the locally generated id. -/
def upsertAccount (db : DB) (a : CleanAdvocateAccount) : DB × Uuid :=
  match db.accounts.find? (fun r => r.email = a.email) with
  | some r =>
    let upd := db.accounts.map
      (fun x => if x.email = a.email then { x with metadata := a.metadata } else x)
    ({ db with accounts := upd }, r.account_id)
  | none =>
    ({ db with accounts := db.accounts ++ [⟨a.account_id, a.email, a.metadata⟩] },
      a.account_id)

/-- advocate_users insert with ON CONFLICT (user_id) DO UPDATE SET
account_id, name, handles, joined_at (metadata is only set on insert). -/
def upsertUser (db : DB) (u : CleanAdvocateUser) (aid : Uuid) : DB :=
  if db.users.any (fun r => r.user_id = u.user_id) then
    { db with users := db.users.map (fun r =>
        if r.user_id = u.user_id then
          ⟨u.user_id, aid, u.name, u.instagram_handle, u.tiktok_handle,
            u.joined_at, r.metadata⟩
        else r) }
  else
    { db with users := db.users ++ [⟨u.user_id, aid, u.name, u.instagram_handle,
        u.tiktok_handle, u.joined_at, u.metadata⟩] }

/-- programs insert with ON CONFLICT (program_id) DO UPDATE SET brand. -/
def upsertProgram (db : DB) (p : CleanProgram) : DB :=
  if db.programs.any (fun r => r.program_id = p.program_id) then
    { db with programs := db.programs.map (fun r =>
        if r.program_id = p.program_id then { r with brand := p.brand } else r) }
  else
    { db with programs := db.programs ++
        [⟨p.program_id, p.user_id, p.brand, p.program_data, p.started_at⟩] }

/-- sales_attribution insert with ON CONFLICT (attribution_id) DO UPDATE
SET amount. -/
def upsertSales (db : DB) (s : CleanSalesAttribution) : DB :=
  if db.sales.any (fun r => r.attribution_id = s.attribution_id) then
    { db with sales := db.sales.map (fun r =>
        if r.attribution_id = s.attribution_id then { r with amount := s.amount } else r) }
  else
    { db with sales := db.sales ++ [⟨s.attribution_id, s.program_id, s.amount,
        s.currency, s.attributed_at, s.attribution_data⟩] }

/-- tasks insert with ON CONFLICT (task_id) DO UPDATE SET platform,
post_url, posted_at. -/
def upsertTask (db : DB) (t : CleanTask) : DB :=
  if db.tasks.any (fun r => r.task_id = t.task_id) then
    { db with tasks := db.tasks.map (fun r =>
        if r.task_id = t.task_id then
          { r with platform := t.platform, post_url := t.post_url, posted_at := t.posted_at }
        else r) }
  else
    { db with tasks := db.tasks ++ [⟨t.task_id, t.program_id, t.platform,
        t.post_url, t.posted_at, t.platform_data⟩] }

/-- social_analytics insert with ON CONFLICT (task_id, measured_at) DO
UPDATE SET likes, comments, shares, reach. -/
def upsertAnalytics (db : DB) (a : CleanSocialAnalytics) : DB :=
  if db.analytics.any (fun r => r.task_id = a.task_id ∧ r.measured_at = a.measured_at) then
    { db with analytics := db.analytics.map (fun r =>
        if r.task_id = a.task_id ∧ r.measured_at = a.measured_at then
          { r with likes := a.likes, comments := a.comments, shares := a.shares, reach := a.reach }
        else r) }
  else
    { db with analytics := db.analytics ++ [⟨a.analytics_id, a.task_id, a.likes,
        a.comments, a.shares, a.reach, a.additional_metrics, a.measured_at⟩] }

/-- Plain insert into data_quality_issues. -/
def insertIssue (db : DB) (i : DataQualityIssue) : DB :=
  { db with issues := db.issues ++ [i] }

/-- UPDATE raw_imports SET processing_status = completed, records_count. -/
def updateImportCompleted (db : DB) (iid : Uuid) (n : Nat) : DB :=
  { db with imports := db.imports.map (fun r =>
      if r.import_id = iid then { r with status := "completed", records_count := some n }
      else r) }

/-- The in-transaction state of one load_to_database call: the pending
(uncommitted) database, the statement counter consulted by the failure
oracle, the email-to-storage-account-id map and processed-email set of
step 1, plus instrumentation: how many account upserts were executed and
which (user_id, account email, account_id foreign key) triples were written
to advocate_users. -/
structure LoadSt where
  pending : DB
  k : Nat := 0
  emailMap : List (String × Uuid) := []
  processed : List String := []
  accUpserts : Nat := 0
  userWrites : List (Uuid × String × Uuid) := []
deriving Repr

/-- Lookup in the email-to-storage-account-id dict of load step 1. -/
def mapLookup (m : List (String × Uuid)) (e : String) : Option Uuid :=
  (m.find? (fun p => p.1 = e)).map Prod.snd

/-- One cursor.execute call: the oracle decides whether this statement
raises; otherwise the write is applied to the pending transaction. -/
def execStep (die : Nat → Bool) (f : DB → DB) (ls : LoadSt) : Except Unit LoadSt :=
  if die ls.k then .error ()
  else .ok { ls with pending := f ls.pending, k := ls.k + 1 }

/-- The account-upsert execute of step 1, which also fetches the
storage-assigned account id and records the email mapping. -/
def execAccount (die : Nat → Bool) (a : CleanAdvocateAccount) (ls : LoadSt) :
    Except Unit LoadSt :=
  if die ls.k then .error ()
  else
    let r := upsertAccount ls.pending a
    .ok { ls with
          pending := r.1
          k := ls.k + 1
          emailMap := ls.emailMap ++ [(a.email, r.2)]
          processed := ls.processed ++ [a.email]
          accUpserts := ls.accUpserts + 1 }

/-- Step 1: upsert each distinct account email once, in batch order. -/
def loadAccounts (die : Nat → Bool) (ls : LoadSt) :
    List CleanTuple → Except Unit LoadSt
  | [] => .ok ls
  | t :: rest =>
    if t.2.2.email ∈ ls.processed then loadAccounts die ls rest
    else match execAccount die t.2.2 ls with
      | .error e => .error e
      | .ok ls' => loadAccounts die ls' rest

/-- The analytics insert of one task, when present. -/
def loadAnalyticsStep (die : Nat → Bool) (ls : LoadSt) :
    Option CleanSocialAnalytics → Except Unit LoadSt
  | none => .ok ls
  | some an => execStep die (fun db => upsertAnalytics db an) ls

/-- One task upsert followed by its optional analytics insert. -/
def loadTask (die : Nat → Bool) (ls : LoadSt) (tt : TaskTuple) :
    Except Unit LoadSt :=
  match execStep die (fun db => upsertTask db tt.1) ls with
  | .error e => .error e
  | .ok ls' => loadAnalyticsStep die ls' tt.2

def loadTasks (die : Nat → Bool) (ls : LoadSt) :
    List TaskTuple → Except Unit LoadSt
  | [] => .ok ls
  | tt :: rest =>
    match loadTask die ls tt with
    | .error e => .error e
    | .ok ls' => loadTasks die ls' rest

/-- The optional sales insert of one program. -/
def loadSalesStep (die : Nat → Bool) (ls : LoadSt) :
    Option CleanSalesAttribution → Except Unit LoadSt
  | none => .ok ls
  | some s => execStep die (fun db => upsertSales db s) ls

/-- One program upsert, its optional sales insert, then its tasks. -/
def loadProgram (die : Nat → Bool) (ls : LoadSt) (pt : ProgramTuple) :
    Except Unit LoadSt :=
  match execStep die (fun db => upsertProgram db pt.1) ls with
  | .error e => .error e
  | .ok ls' =>
    match loadSalesStep die ls' pt.2.2 with
    | .error e => .error e
    | .ok ls'' => loadTasks die ls'' pt.2.1

def loadPrograms (die : Nat → Bool) (ls : LoadSt) :
    List ProgramTuple → Except Unit LoadSt
  | [] => .ok ls
  | pt :: rest =>
    match loadProgram die ls pt with
    | .error e => .error e
    | .ok ls' => loadPrograms die ls' rest

/-- Steps 2-3 for one tuple: look up the storage-assigned account id for
the tuple's account email (a missing key would be a KeyError, handled by
the same rollback path), upsert the user with that id as foreign key, then
load the user's programs. -/
def loadUser (die : Nat → Bool) (ls : LoadSt) (t : CleanTuple) :
    Except Unit LoadSt :=
  match mapLookup ls.emailMap t.2.2.email with
  | none => .error ()
  | some aid =>
    match execStep die (fun db => upsertUser db t.1 aid) ls with
    | .error e => .error e
    | .ok ls' =>
      loadPrograms die
        { ls' with userWrites := ls'.userWrites ++ [(t.1.user_id, t.2.2.email, aid)] }
        t.2.1

def loadUsers (die : Nat → Bool) (ls : LoadSt) :
    List CleanTuple → Except Unit LoadSt
  | [] => .ok ls
  | t :: rest =>
    match loadUser die ls t with
    | .error e => .error e
    | .ok ls' => loadUsers die ls' rest

/-- Step 4: the quality-issue bulk insert. -/
def loadIssues (die : Nat → Bool) (ls : LoadSt) :
    List DataQualityIssue → Except Unit LoadSt
  | [] => .ok ls
  | i :: rest =>
    match execStep die (fun db => insertIssue db i) ls with
    | .error e => .error e
    | .ok ls' => loadIssues die ls' rest

/-- The transaction body of load_to_database: BEGIN, the import-metadata
insert, accounts, users with their nested entities, issues, and the final
import-status update, in source order. -/
def loadBody (die : Nat → Bool) (db : DB) (clean : List CleanTuple)
    (issues : List DataQualityIssue) (iid : Uuid) : Except Unit LoadSt := do
  let ls ← execStep die id { pending := db }
  let ls ← execStep die (fun d => insertImport d iid) ls
  let ls ← loadAccounts die ls clean
  let ls ← loadUsers die ls clean
  let ls ← loadIssues die ls issues
  execStep die (fun d => updateImportCompleted d iid clean.length) ls

/-- AdvocacyETL.load_to_database: run the transaction body; on any
exception roll back (the durable database is left untouched) and re-raise
(the Bool result records the propagated exception); otherwise commit
(which may itself raise, also rolling back).  The post-commit
materialized-view refresh is swallowed on failure and writes nothing
durable, so it is not modelled.  The second component is the durable
database after the call. -/
def loadToDatabase (die : Nat → Bool) (db : DB) (clean : List CleanTuple)
    (issues : List DataQualityIssue) (iid : Uuid) : Bool × DB :=
  match loadBody die db clean issues iid with
  | .error _ => (true, db)
  | .ok ls => if die ls.k then (true, db) else (false, ls.pending)

/-- The same call with the instrumentation trace exposed (failure-free
runs only, used to state per-write properties). -/
def loadTrace (db : DB) (clean : List CleanTuple)
    (issues : List DataQualityIssue) (iid : Uuid) : Except Unit LoadSt :=
  loadBody (fun _ => false) db clean issues iid

/-- The issues list of st' extends that of st with entries satisfying p. -/
def IssuesDelta (st st' : EtlState) (p : DataQualityIssue → Prop) : Prop :=
  ∃ d, st'.issues = st.issues ++ d ∧ ∀ i ∈ d, p i

def c6env : Env := ⟨fun n => n, fun n => n⟩

def c6j : JsonUser :=
  { email := PyVal.str "a@b.co",
    advocacy_programs := [{ program_id := PyVal.str "not-a-uuid",
                            brand := PyVal.str "X" }] }

def c6ru : RawAdvocateUser :=
  ⟨none, none, some "a@b.co", none, none, none,
    [⟨some "not-a-uuid", some "X", none, [], none, none⟩]⟩

def c6rp : RawProgram := ⟨some "not-a-uuid", some "X", none, [], none, none⟩

def c8env : Env := ⟨fun n => n, fun n => 1000 + n⟩

def c8task : JsonTask :=
  { platform := PyVal.str "instagram",
    analytics := some (some { likes := PyVal.int (-5), reach := PyVal.int 10 }) }

def c8j : JsonUser :=
  { name := PyVal.str "N", email := PyVal.str "a@b.co",
    advocacy_programs := [{ brand := PyVal.str "B", tasks := [c8task] }] }

def c8a : CleanSocialAnalytics :=
  { analytics_id := 6, task_id := 5, likes := some 0, reach := some 10,
    measured_at := 1000 }

def c8tt : TaskTuple :=
  ({ task_id := 5, program_id := 4, platform := "Instagram", post_url := none,
     posted_at := none, platform_data := [] }, some c8a)

def c8pt : ProgramTuple :=
  ({ program_id := 4, user_id := 2, brand := "B", program_data := [],
     started_at := none, completed_at := none }, [c8tt], none)

def c8t : CleanTuple :=
  ({ user_id := 2, account_id := 1, name := some "N", instagram_handle := none,
     tiktok_handle := none, joined_at := none, metadata := [] }, [c8pt],
   { account_id := 1, email := "a@b.co", metadata := [] })

/-- A present key whose raw value uuid.UUID cannot parse (the condition
under which Transform raises and skips the record). -/
def badKeyO : Option String → Bool
  | some s => (pyUuidParse s).isNone
  | none => false

/-- One program aborts the record iff its own key or one of its task keys
is present but unparsable. -/
def progFails (rp : RawProgram) : Bool :=
  badKeyO rp.program_id || rp.tasks.any (fun rt => badKeyO rt.task_id)

/-- One parsed record is skipped by Transform iff its user key or one of
its program or task keys is present but unparsable. -/
def ruFails (ru : RawAdvocateUser) : Bool :=
  badKeyO ru.user_id || ru.advocacy_programs.any progFails

/-- The shape of the placeholder emails Transform fabricates for records
without a valid address. -/
def isPlaceholderEmail (s : String) : Bool :=
  "noemail_".data.isPrefixOf s.data && "@placeholder.local".data.isSuffixOf s.data

/-- Mask placeholder-shaped emails (they embed a fresh uuid4). -/
def maskEmail (e : String) : Option String :=
  if isPlaceholderEmail e then none else some e

/-- The non-identity fields of one analytics record (analytics_id, task_id
and measured_at dropped). -/
def projAnalytics (a : CleanSocialAnalytics) :
    Option Int × Option Int × Option Int × Option Int × Option Int × Option ℚ :=
  (a.likes, a.comments, a.shares, a.reach, a.impressions, a.engagement_rate)

/-- The non-identity fields of one task tuple. -/
def projTask (tt : TaskTuple) :
    String × Option String × Option String
      × Option (Option Int × Option Int × Option Int × Option Int × Option Int
        × Option ℚ) :=
  (tt.1.platform, tt.1.post_url, tt.1.posted_at, tt.2.map projAnalytics)

/-- The non-identity fields of one sales attribution (attribution_id,
program_id and attributed_at dropped). -/
def projSales (s : CleanSalesAttribution) : ℚ × String := (s.amount, s.currency)

/-- The non-identity fields of one program tuple. -/
def projProgram (pt : ProgramTuple) :
    String × List (String × Option String × Option String
      × Option (Option Int × Option Int × Option Int × Option Int × Option Int
        × Option ℚ)) × Option (ℚ × String) :=
  (pt.1.brand, pt.2.1.map projTask, pt.2.2.map projSales)

/-- The non-identity fields of one clean user. -/
def projUser (u : CleanAdvocateUser) :
    Option String × Option String × Option String × Option String :=
  (u.name, u.instagram_handle, u.tiktok_handle, u.joined_at)

/-- The non-identity observable of one output tuple: the user fields, the
program observables, and the account email with placeholder-shaped
addresses masked. -/
def projTuple (t : CleanTuple) :=
  (projUser t.1, t.2.1.map projProgram, maskEmail t.2.2.email)

/-- The observable Transform assigns to one validated analytics record:
every counter floored at zero. -/
def obsRawAnalytics (ra : RawSocialAnalytics) :
    Option Int × Option Int × Option Int × Option Int × Option Int × Option ℚ :=
  (floorCounter ra.likes, floorCounter ra.comments, floorCounter ra.shares,
    floorCounter ra.reach, floorCounter ra.impressions, ra.engagement_rate)

/-- The observable of one validated task: platform fallback Unknown. -/
def obsTaskP (rt : RawTask) :
    String × Option String × Option String
      × Option (Option Int × Option Int × Option Int × Option Int × Option Int
        × Option ℚ) :=
  (rt.platform.getD "Unknown", rt.post_url, rt.posted_at,
    rt.analytics.map obsRawAnalytics)

/-- The observable of one sales amount: validate_positive_amount rejects
non-positive amounts, leaving the attribution absent. -/
def obsSalesP (q : ℚ) : Option (ℚ × String) :=
  if q ≤ 0 then none else some (q, "USD")

/-- The observable of one validated program: brand fallback Unknown. -/
def obsProgramP (rp : RawProgram) :
    String × List (String × Option String × Option String
      × Option (Option Int × Option Int × Option Int × Option Int × Option Int
        × Option ℚ)) × Option (ℚ × String) :=
  (rp.brand.getD "Unknown", rp.tasks.map obsTaskP,
    rp.sales_attributed.bind obsSalesP)

/-- The observable account email of one record: absent or empty raw emails
lead to a placeholder (masked), every other address is lowercased. -/
def emailObs : Option String → Option String
  | none => none
  | some e => if e = "" then none else maskEmail (pyLower e)

/-- The observable of one validated record. -/
def obsUserP (ru : RawAdvocateUser) :=
  ((ru.name, ru.instagram_handle, ru.tiktok_handle, ru.joined_at),
    ru.advocacy_programs.map obsProgramP, emailObs ru.email)

/-- The observable of one wire record: none when the record is skipped
(parse failure or an unparsable present key). -/
def obsRecord (j : JsonUser) :=
  match parseUser j with
  | .error _ => none
  | .ok ru => if ruFails ru then none else some (obsUserP ru)

/-- The account cache stores each account under its own email. -/
def cacheInv (st : EtlState) : Prop :=
  ∀ p ∈ st.accounts, (Prod.snd p).email = p.1

def c3env1 : Env := ⟨fun n => 100 + n, fun _ => 5⟩

def c3env2 : Env := ⟨fun n => 100 + n, fun _ => 7⟩

def c3task : JsonTask :=
  { platform := PyVal.str "instagram",
    analytics := some (some { likes := PyVal.int 3 }) }

def c3j : JsonUser :=
  { name := PyVal.str "M", email := PyVal.str "c@d.co",
    advocacy_programs := [{ brand := PyVal.str "Y", tasks := [c3task] }] }

/-- The storage-assigned account id stored under an email, if any. -/
def accountIdOf (db : DB) (e : String) : Option Uuid :=
  (db.accounts.find? (fun r => r.email = e)).map (fun r => r.account_id)

/-- Frame facts preserved by the nested entity loads of one user. -/
def LoadFrame (ls ls' : LoadSt) : Prop :=
  ls'.pending.accounts = ls.pending.accounts ∧
  ls'.emailMap = ls.emailMap ∧
  ls'.processed = ls.processed ∧
  ls'.accUpserts = ls.accUpserts ∧
  ls'.userWrites = ls.userWrites

def c2db : DB := { accounts := [⟨77, "john@example.com", []⟩] }

def c2t1 : CleanTuple :=
  ({ user_id := 1002, account_id := 500 }, [],
    { account_id := 500, email := "john@example.com" })

def c2t2 : CleanTuple :=
  ({ user_id := 1008, account_id := 500 }, [],
    { account_id := 500, email := "john@example.com" })

section Theorems


theorem cacheLookup_cons_self (e : String) (a : CleanAdvocateAccount)
    (rest : List (String × CleanAdvocateAccount)) :
    cacheLookup ((e, a) :: rest) e = some a := by
  simp [cacheLookup]

/-- C5: Within one pipeline run, two present (nonempty) email values equal
up to letter case resolve through get_or_create_advocate_account to the
same Account: the second call is a cache hit that changes nothing.  A cache
miss increments the accounts_created counter by exactly one, and a cache
hit leaves the whole state untouched.  (The operation is modelled as a
total function: it has no failing branch.) -/
theorem get_or_create_advocate_account_dedup (env : Env) (st : EtlState)
    (e1 e2 : String) (h1 : e1 ≠ "") (h2 : e2 ≠ "")
    (hlow : pyLower e1 = pyLower e2) :
    (∃ a, (getOrCreateAdvocateAccount env st (some e1)).1 = some a ∧
      (getOrCreateAdvocateAccount env
        (getOrCreateAdvocateAccount env st (some e1)).2 (some e2)).1 = some a) ∧
    (getOrCreateAdvocateAccount env
      (getOrCreateAdvocateAccount env st (some e1)).2 (some e2)).2
      = (getOrCreateAdvocateAccount env st (some e1)).2 ∧
    (cacheLookup st.accounts (pyLower e1) = none →
      (getOrCreateAdvocateAccount env st (some e1)).2.accountsCreated
        = st.accountsCreated + 1) ∧
    (∀ a, cacheLookup st.accounts (pyLower e1) = some a →
      (getOrCreateAdvocateAccount env st (some e1)).2 = st ∧
      (getOrCreateAdvocateAccount env st (some e1)).1 = some a) := by
  simp only [getOrCreateAdvocateAccount, if_neg h1, if_neg h2, ← hlow]
  cases hc : cacheLookup st.accounts (pyLower e1) with
  | some a =>
    refine ⟨⟨a, rfl, by simp [hc]⟩, by simp [hc], by simp [hc], by simp⟩
  | none =>
    refine ⟨⟨_, rfl, ?_⟩, ?_, by simp [freshUuid], by simp [hc]⟩
    · simp [cacheLookup_cons_self]
    · simp [cacheLookup_cons_self]

/-- C5 witness: a concrete miss-then-hit pair on one state. -/
theorem get_or_create_advocate_account_dedup_witness :
    (∃ a, (getOrCreateAdvocateAccount ⟨fun n => n, fun n => n⟩ {}
        (some "John@Example.com")).1 = some a ∧
      (getOrCreateAdvocateAccount ⟨fun n => n, fun n => n⟩
        (getOrCreateAdvocateAccount ⟨fun n => n, fun n => n⟩ {}
          (some "John@Example.com")).2 (some "john@example.COM")).1 = some a) ∧
    (getOrCreateAdvocateAccount ⟨fun n => n, fun n => n⟩
      (getOrCreateAdvocateAccount ⟨fun n => n, fun n => n⟩ {}
        (some "John@Example.com")).2 (some "john@example.COM")).2
      = (getOrCreateAdvocateAccount ⟨fun n => n, fun n => n⟩ {}
        (some "John@Example.com")).2 ∧
    (cacheLookup (EtlState.accounts {}) (pyLower "John@Example.com") = none →
      (getOrCreateAdvocateAccount ⟨fun n => n, fun n => n⟩ {}
        (some "John@Example.com")).2.accountsCreated
        = EtlState.accountsCreated {} + 1) ∧
    (∀ a, cacheLookup (EtlState.accounts {}) (pyLower "John@Example.com") = some a →
      (getOrCreateAdvocateAccount ⟨fun n => n, fun n => n⟩ {}
        (some "John@Example.com")).2 = {} ∧
      (getOrCreateAdvocateAccount ⟨fun n => n, fun n => n⟩ {}
        (some "John@Example.com")).1 = some a) :=
  get_or_create_advocate_account_dedup ⟨fun n => n, fun n => n⟩ {}
    "John@Example.com" "john@example.COM" (by decide) (by decide) (by decide)

/-- C10 counterexample: on the string input " abc" (leading whitespace,
no leading '@', not matching the alphanumeric/dot/underscore pattern as
stated), both handle normalizers accept after silently trimming the
whitespace instead of returning absent. -/
theorem handle_normalizer_counterexample :
    cleanInstagram (PyVal.str " abc") = some "@abc" ∧
    cleanTiktok (PyVal.str " abc") = some "@abc" := by
  constructor <;> rfl

/-- C10 amended: the two handle normalizers are asymmetric on numeric
input (tiktok rejects every non-string, instagram stringifies with str()
and accepts when the rendering matches, e.g. 12345); on string input they
agree: both first trim surrounding whitespace, then strip all leading '@'
characters, accept exactly the nonempty alphanumeric/dot/underscore
pattern re-prefixed with a single '@', and return absent otherwise. -/
theorem handle_normalizer_amended :
    (∀ m : Int, cleanTiktok (PyVal.int m) = none) ∧
    (∀ m : Int, cleanInstagram (PyVal.int m) = handleCore (toString m)) ∧
    cleanInstagram (PyVal.int 12345) = some "@12345" ∧
    (∀ s : String, cleanInstagram (PyVal.str s) = cleanTiktok (PyVal.str s)) ∧
    (∀ s : String, s ≠ "" → cleanTiktok (PyVal.str s) = handleCore s) ∧
    (∀ s : String,
      handleCore s =
        (if !((pyStripList s.data).dropWhile (fun c => c = '@')).isEmpty
            && ((pyStripList s.data).dropWhile (fun c => c = '@')).all isHandleChar
         then some ("@" ++ String.mk ((pyStripList s.data).dropWhile (fun c => c = '@')))
         else none)) := by
  refine ⟨fun m => rfl, fun m => rfl, by decide, ?_, ?_, fun s => rfl⟩
  · intro s
    by_cases h : s = ""
    · subst h; rfl
    · simp [cleanInstagram, cleanTiktok, h, pyStr]
  · intro s h
    simp [cleanTiktok, h]

theorem handle_normalizer_amended_witness :
    cleanTiktok (PyVal.int 7) = none ∧
    ((" abc" : String) ≠ "" ∧ cleanTiktok (PyVal.str " abc") = handleCore " abc") :=
  ⟨handle_normalizer_amended.1 7,
    by decide, handle_normalizer_amended.2.2.2.2.1 " abc" (by decide)⟩

/-- C6 counterexample: the program-key normalizer passes the unparsable
key "not-a-uuid" through instead of mapping it to absent, and a record
carrying that program key is rejected wholesale by Transform (uuid.UUID
raises, the record is skipped with a critical transformation_error) rather
than transformed into a clean entity. -/
theorem identifier_normalizer_counterexample :
    cleanProgramId (PyVal.str "not-a-uuid") = PyVal.str "not-a-uuid" ∧
    (runTransform ⟨fun n => n, fun n => n⟩
      [{ email := PyVal.str "a@b.co",
         advocacy_programs := [{ program_id := PyVal.str "not-a-uuid",
                                 brand := PyVal.str "X" }] }]).2.1 = [] ∧
    ((runTransform ⟨fun n => n, fun n => n⟩
      [{ email := PyVal.str "a@b.co",
         advocacy_programs := [{ program_id := PyVal.str "not-a-uuid",
                                 brand := PyVal.str "X" }] }]).2.2.issues.map
        (fun i => (i.issue_type, i.severity)))
      = [("missing_user_id", "medium"), ("missing_name", "low"),
         ("transformation_error", "critical")] := by
  refine ⟨rfl, ?_, ?_⟩ <;> decide

/-- C7 counterexample: a valid address surrounded by whitespace is
rejected outright by the email normalizer (no trimming happens), even
though the same address without the whitespace is accepted. -/
theorem email_normalizer_counterexample :
    cleanEmail (PyVal.str " jane@example.com ") = none ∧
    cleanEmail (PyVal.str "jane@example.com") = some "jane@example.com" := by
  constructor <;> decide

theorem emailCoreMatch_elim {l : List Char} (h : emailCoreMatch l = true) :
    l.takeWhile isLocalChar ≠ [] ∧
    ∃ rest, l.dropWhile isLocalChar = '@' :: rest ∧ matchDomainPart rest = true := by
  unfold emailCoreMatch at h
  split at h
  next rest heq =>
    rcases (Bool.and_eq_true _ _).mp h with ⟨h1, h2⟩
    exact ⟨by simpa using h1, rest, heq, h2⟩
  next => exact absurd h (by simp)

theorem matchDomainPart_elim {r : List Char} (h : matchDomainPart r = true) :
    ∃ revBody, r.reverse.dropWhile (fun c => c ≠ '.') = '.' :: revBody ∧
      2 ≤ (r.reverse.takeWhile (fun c => c ≠ '.')).length ∧
      (r.reverse.takeWhile (fun c => c ≠ '.')).all Char.isAlpha = true := by
  unfold matchDomainPart at h
  split at h
  next revBody heq =>
    rcases (Bool.and_eq_true _ _).mp h with ⟨h1, _⟩
    rcases (Bool.and_eq_true _ _).mp h1 with ⟨h2, _⟩
    rcases (Bool.and_eq_true _ _).mp h2 with ⟨h3, h4⟩
    exact ⟨revBody, heq, by simpa using h3, h4⟩
  next => exact absurd h (by simp)

/-- A matching email string starts with a local-part character. -/
theorem emailCoreMatch_head {l : List Char} (h : emailCoreMatch l = true) :
    ∃ c l', l = c :: l' ∧ isLocalChar c = true := by
  obtain ⟨hloc, _⟩ := emailCoreMatch_elim h
  cases hl : l with
  | nil => subst hl; simp at hloc
  | cons c l' =>
    subst hl
    rw [List.takeWhile_cons] at hloc
    by_cases hc : isLocalChar c
    · exact ⟨c, l', rfl, hc⟩
    · simp [hc] at hloc

/-- A matching email string ends with an alphabetic (tld) character. -/
theorem emailCoreMatch_getLast {l : List Char} (h : emailCoreMatch l = true) :
    ∃ c, l.getLast? = some c ∧ c.isAlpha = true := by
  obtain ⟨hloc, rest, hdrop, hdom⟩ := emailCoreMatch_elim h
  obtain ⟨revBody, hdrop2, hlen, halpha⟩ := matchDomainPart_elim hdom
  have hsplit : l = l.takeWhile isLocalChar ++ ('@' :: rest) := by
    conv_lhs => rw [← List.takeWhile_append_dropWhile (p := isLocalChar) (l := l)]
    rw [hdrop]
  have hrevsplit : rest.reverse
      = rest.reverse.takeWhile (fun c => c ≠ '.') ++ ('.' :: revBody) := by
    conv_lhs => rw [← List.takeWhile_append_dropWhile
      (p := fun c => c ≠ '.') (l := rest.reverse)]
    rw [hdrop2]
  obtain ⟨c, tl, htl⟩ : ∃ c tl, rest.reverse.takeWhile (fun c => c ≠ '.') = c :: tl := by
    cases hx : rest.reverse.takeWhile (fun c => c ≠ '.') with
    | nil => rw [hx] at hlen; simp at hlen
    | cons c tl => exact ⟨c, tl, rfl⟩
  have hrest_ne : rest ≠ [] := by
    intro hr
    rw [hr] at hrevsplit
    simp [htl] at hrevsplit
  refine ⟨c, ?_, ?_⟩
  · rw [hsplit, List.getLast?_append_of_ne_nil _ (by simp)]
    have : ('@' :: rest).getLast? = rest.getLast? := by
      have : ('@' :: rest) = ['@'] ++ rest := rfl
      rw [this, List.getLast?_append_of_ne_nil _ hrest_ne]
    rw [this, ← List.head?_reverse, hrevsplit, htl]
    rfl
  · have hc_mem : c ∈ rest.reverse.takeWhile (fun c => c ≠ '.') := by
      rw [htl]; exact List.mem_cons_self c tl
    exact List.all_eq_true.mp halpha c hc_mem

/-- A matching email string contains an '@'. -/
theorem emailCoreMatch_at {l : List Char} (h : emailCoreMatch l = true) :
    '@' ∈ l := by
  obtain ⟨_, rest, hdrop, _⟩ := emailCoreMatch_elim h
  have hsplit : l = l.takeWhile isLocalChar ++ ('@' :: rest) := by
    conv_lhs => rw [← List.takeWhile_append_dropWhile (p := isLocalChar) (l := l)]
    rw [hdrop]
  rw [hsplit]
  exact List.mem_append_right _ (List.mem_cons_self _ _)

theorem pyEmailMatch_at {s : String} (h : pyEmailMatch s = true) :
    '@' ∈ s.data := by
  rcases (Bool.or_eq_true _ _).mp h with h1 | h1
  · exact emailCoreMatch_at h1
  · rcases (Bool.and_eq_true _ _).mp h1 with ⟨_, h3⟩
    exact (List.dropLast_sublist s.data).mem (emailCoreMatch_at h3)

/-- A string headed by a non-local-part character never matches. -/
theorem emailCoreMatch_cons_not_local {c : Char} {l : List Char}
    (hc : isLocalChar c = false) : emailCoreMatch (c :: l) = false := by
  by_cases hat : c = '@'
  · subst hat
    simp [emailCoreMatch, List.dropWhile_cons, List.takeWhile_cons, hc]
  · unfold emailCoreMatch
    rw [List.dropWhile_cons, if_neg (by simp [hc])]
    split
    next heq => simp [hat] at heq
    next => rfl

theorem pyEmailMatch_leading_space (t : String) :
    pyEmailMatch (" " ++ t) = false := by
  have hdata : (" " ++ t).data = ' ' :: t.data := by rw [String.data_append]; rfl
  have hsp : isLocalChar ' ' = false := by decide
  unfold pyEmailMatch
  rw [hdata, emailCoreMatch_cons_not_local hsp, Bool.false_or]
  cases ht : t.data with
  | nil => simp
  | cons c l =>
    have hdl : (' ' :: c :: l).dropLast = ' ' :: (c :: l).dropLast :=
      List.dropLast_cons_of_ne_nil (by simp)
    rw [hdl, emailCoreMatch_cons_not_local hsp, Bool.and_false]

theorem pyEmailMatch_trailing_space (t : String) :
    pyEmailMatch (t ++ " ") = false := by
  have hdata : (t ++ " ").data = t.data ++ [' '] := by rw [String.data_append]
  have hlast : (t.data ++ [' ']).getLast? = some ' ' := List.getLast?_concat _
  have hcore : emailCoreMatch (t.data ++ [' ']) = false := by
    by_contra hx
    obtain ⟨c, hcl, hca⟩ := emailCoreMatch_getLast (Bool.of_not_eq_false hx)
    rw [hlast] at hcl
    injection hcl with hc
    rw [← hc] at hca
    exact absurd hca (by decide)
  unfold pyEmailMatch
  rw [hdata, hcore, hlast, Bool.false_or]
  simp

/-- C7 amended: the email normalizer never trims: sentinel values (null,
empty, 'invalid-email') and non-strings become absent; any other string is
accepted iff the untrimmed value matches the anchored local@domain.tld
pattern, in which case it is lowercased; in particular an otherwise valid
address with a leading or trailing space is rejected, not trimmed. -/
theorem email_normalizer_amended :
    cleanEmail PyVal.none = none ∧
    cleanEmail (PyVal.str "") = none ∧
    cleanEmail (PyVal.str "invalid-email") = none ∧
    (∀ n : Int, cleanEmail (PyVal.int n) = none) ∧
    (∀ s : String, s ≠ "" → s ≠ "invalid-email" →
      cleanEmail (PyVal.str s) = if pyEmailMatch s then some (pyLower s) else none) ∧
    (∀ t : String, cleanEmail (PyVal.str (" " ++ t)) = none) ∧
    (∀ t : String, cleanEmail (PyVal.str (t ++ " ")) = none) := by
  have hchar : ∀ s : String, s ≠ "" → s ≠ "invalid-email" →
      cleanEmail (PyVal.str s) = if pyEmailMatch s then some (pyLower s) else none := by
    intro s h1 h2
    unfold cleanEmail
    rw [if_neg (by simp [h1, h2])]
    by_cases hat : s.data.contains '@'
    · simp only [hat, Bool.not_true, Bool.false_eq_true, if_false]
    · have hm : pyEmailMatch s = false := by
        by_contra hx
        have hmem := pyEmailMatch_at (Bool.of_not_eq_false hx)
        have hc : s.data.contains '@' = true := List.elem_iff.mpr hmem
        exact hat hc
      simp only [hat, Bool.not_false, if_true, hm, Bool.false_eq_true, if_false]
  have hne_space_l : ∀ t : String, (" " ++ t) ≠ "" := by
    intro t h
    have h2 : (" " ++ t).data.head? = ("" : String).data.head? := by rw [h]
    rw [String.data_append, show (" " : String).data = [' '] from rfl,
      List.singleton_append, List.head?_cons] at h2
    exact absurd h2 (by decide)
  have hne_space_l2 : ∀ t : String, (" " ++ t) ≠ "invalid-email" := by
    intro t h
    have h2 : (" " ++ t).data.head? = ("invalid-email" : String).data.head? := by rw [h]
    rw [String.data_append, show (" " : String).data = [' '] from rfl,
      List.singleton_append, List.head?_cons] at h2
    exact absurd h2 (by decide)
  have hne_space_r : ∀ t : String, (t ++ " ") ≠ "" := by
    intro t h
    have h2 : (t ++ " ").data.getLast? = ("" : String).data.getLast? := by rw [h]
    rw [String.data_append, show (" " : String).data = [' '] from rfl,
      List.getLast?_concat] at h2
    exact absurd h2 (by decide)
  have hne_space_r2 : ∀ t : String, (t ++ " ") ≠ "invalid-email" := by
    intro t h
    have h2 : (t ++ " ").data.getLast? = ("invalid-email" : String).data.getLast? := by rw [h]
    rw [String.data_append, show (" " : String).data = [' '] from rfl,
      List.getLast?_concat] at h2
    exact absurd h2 (by decide)
  refine ⟨rfl, rfl, rfl, fun n => rfl, hchar, ?_, ?_⟩
  · intro t
    rw [hchar _ (hne_space_l t) (hne_space_l2 t), pyEmailMatch_leading_space, if_neg (by simp)]
  · intro t
    rw [hchar _ (hne_space_r t) (hne_space_r2 t), pyEmailMatch_trailing_space, if_neg (by simp)]

/-- C7 amended witness: concrete instances of the hypotheses-bearing
conjuncts. -/
theorem email_normalizer_amended_witness :
    cleanEmail (PyVal.str "A@B.co") = (if pyEmailMatch "A@B.co" then some (pyLower "A@B.co") else none) ∧
    cleanEmail (PyVal.str (" " ++ "x@y.co")) = none :=
  ⟨email_normalizer_amended.2.2.2.2.1 "A@B.co" (by decide) (by decide),
   email_normalizer_amended.2.2.2.2.2.1 "x@y.co"⟩

theorem issuesDelta_rfl (st : EtlState) (p : DataQualityIssue → Prop) :
    IssuesDelta st st p :=
  ⟨[], by simp, by simp⟩

theorem issuesDelta_trans {st1 st2 st3 : EtlState} {p : DataQualityIssue → Prop}
    (h1 : IssuesDelta st1 st2 p) (h2 : IssuesDelta st2 st3 p) :
    IssuesDelta st1 st3 p := by
  obtain ⟨d1, e1, f1⟩ := h1
  obtain ⟨d2, e2, f2⟩ := h2
  refine ⟨d1 ++ d2, by rw [e2, e1, List.append_assoc], ?_⟩
  intro i hi
  rcases List.mem_append.mp hi with h | h
  exacts [f1 i h, f2 i h]

theorem logQualityIssue_issues (env : Env) (st : EtlState) (iid : Uuid)
    (sev ty ds : String) (r f : Option String) (v : Option ProblemVal) :
    (logQualityIssue env st iid sev ty ds r f v).issues
      = st.issues ++ [⟨env.uuid st.uctr, some iid, sev, ty, ds, r, f, v⟩] := rfl

theorem issuesDelta_log {st0 st0' : EtlState} (env : Env) (iid : Uuid)
    (sev ty ds : String) (r f : Option String) (v : Option ProblemVal)
    (h : st0'.issues = st0.issues) :
    IssuesDelta st0 (logQualityIssue env st0' iid sev ty ds r f v)
      (fun _ => True) :=
  ⟨[⟨env.uuid st0'.uctr, some iid, sev, ty, ds, r, f, v⟩],
    by rw [logQualityIssue_issues, h], fun i _ => trivial⟩

theorem finishTask_issues (env : Env) (st : EtlState) (tid pid : Uuid)
    (pf : String) (rt : RawTask) :
    ((finishTask env st tid pid pf rt).2).issues = st.issues := by
  unfold finishTask
  cases rt.analytics <;> simp [mkCleanSocialAnalytics, freshUuid, freshNow]

/-- Under well-formed task keys one task-block iteration never raises,
and it appends only invalid_platform issues. -/
theorem processTask_ok (env : Env) (iid pid : Uuid) (st : EtlState)
    (rt : RawTask) (h : ∀ s, rt.task_id = some s → (pyUuidParse s).isSome) :
    ∃ ta st', processTask env iid pid st rt = .ok (ta, st') ∧
      IssuesDelta st st' (fun i => i.issue_type = "invalid_platform") := by
  cases hplat : rt.platform with
  | some p =>
    cases htid : rt.task_id with
    | some s =>
      cases hu : pyUuidParse s with
      | none => exact absurd (h s htid) (by simp [hu])
      | some tid =>
        refine ⟨(finishTask env st tid pid p rt).1, (finishTask env st tid pid p rt).2,
          by simp only [processTask, hplat, htid, hu], ?_⟩
        exact ⟨[], by rw [finishTask_issues]; simp, by simp⟩
    | none =>
      refine ⟨(finishTask env { st with uctr := st.uctr + 1 } (env.uuid st.uctr) pid p rt).1,
        (finishTask env { st with uctr := st.uctr + 1 } (env.uuid st.uctr) pid p rt).2,
        by simp only [processTask, hplat, htid, freshUuid], ?_⟩
      exact ⟨[], by rw [finishTask_issues]; simp, by simp⟩
  | none =>
    cases htid : rt.task_id with
    | some s =>
      cases hu : pyUuidParse s with
      | none => exact absurd (h s htid) (by simp [hu])
      | some tid =>
        refine ⟨(finishTask env (logQualityIssue env st iid "high" "invalid_platform"
            "Task platform was null or invalid, using fallback: Unknown"
            (some (uuidStr pid)) (some "platform")
            (some ProblemVal.originalUnavailable)) tid pid "Unknown" rt).1,
          (finishTask env (logQualityIssue env st iid "high" "invalid_platform"
            "Task platform was null or invalid, using fallback: Unknown"
            (some (uuidStr pid)) (some "platform")
            (some ProblemVal.originalUnavailable)) tid pid "Unknown" rt).2,
          by simp only [processTask, hplat, htid, hu], ?_⟩
        refine ⟨_, by rw [finishTask_issues, logQualityIssue_issues], by simp⟩
    | none =>
      refine ⟨(finishTask env { logQualityIssue env st iid "high" "invalid_platform"
            "Task platform was null or invalid, using fallback: Unknown"
            (some (uuidStr pid)) (some "platform")
            (some ProblemVal.originalUnavailable) with
              uctr := st.uctr + 2 }
          (env.uuid (st.uctr + 1)) pid "Unknown" rt).1,
        (finishTask env { logQualityIssue env st iid "high" "invalid_platform"
            "Task platform was null or invalid, using fallback: Unknown"
            (some (uuidStr pid)) (some "platform")
            (some ProblemVal.originalUnavailable) with
              uctr := st.uctr + 2 }
          (env.uuid (st.uctr + 1)) pid "Unknown" rt).2,
        by simp only [processTask, hplat, htid, freshUuid]; rfl, ?_⟩
      refine ⟨[⟨env.uuid st.uctr, some iid, "high", "invalid_platform",
          "Task platform was null or invalid, using fallback: Unknown",
          some (uuidStr pid), some "platform", some ProblemVal.originalUnavailable⟩],
        by rw [finishTask_issues]; simp [logQualityIssue_issues], by simp⟩

/-- Under well-formed task keys the task loop never raises; it emits one
clean task per raw task and appends only invalid_platform issues. -/
theorem processTasks_no_fail (env : Env) (iid pid : Uuid) :
    ∀ (tasks : List RawTask) (st : EtlState),
    (∀ rt ∈ tasks, ∀ s, rt.task_id = some s → (pyUuidParse s).isSome) →
    ∃ tts st', processTasks env iid pid st tasks = .ok (tts, st') ∧
      tts.length = tasks.length ∧
      IssuesDelta st st' (fun i => i.issue_type = "invalid_platform") := by
  intro tasks
  induction tasks with
  | nil =>
    intro st _
    exact ⟨[], st, rfl, rfl, issuesDelta_rfl st _⟩
  | cons rt rest ih =>
    intro st h
    obtain ⟨ta, st1, hta, hd1⟩ :=
      processTask_ok env iid pid st rt (h rt (List.mem_cons_self rt rest))
    obtain ⟨tts, st2, htts, hlen, hd2⟩ :=
      ih st1 (fun x hx => h x (List.mem_cons_of_mem rt hx))
    refine ⟨ta :: tts, st2, ?_, by simp [hlen], issuesDelta_trans hd1 hd2⟩
    simp only [processTasks, hta, htts]

theorem mkCleanSalesAttribution_state (env : Env) (st : EtlState)
    (pid : Uuid) (q : ℚ) :
    (mkCleanSalesAttribution env st pid q).2
      = { st with uctr := st.uctr + 1, tctr := st.tctr + 1 } := by
  unfold mkCleanSalesAttribution freshUuid freshNow
  by_cases h : q ≤ 0 <;> simp [h]

/-- C4: constructing a CleanSalesAttribution with a non-positive amount
fails with a validation error (never clamps); when the per-program block
of Transform meets such an amount it emits no sales record, logs exactly
one medium invalid_sales_amount issue carrying the original raw value,
and still emits the program together with every one of its tasks. -/
theorem sales_positive_amount_enforcement (env : Env) (iid pid uid : Uuid)
    (st : EtlState) (brand : String) (rp : RawProgram) (q : ℚ)
    (hq : rp.sales_attributed = some q) (hle : q ≤ 0)
    (htasks : ∀ rt ∈ rp.tasks, ∀ s, rt.task_id = some s → (pyUuidParse s).isSome) :
    (mkCleanSalesAttribution env st pid q).1 = .error "Amount must be positive" ∧
    ∃ tts st' d,
      finishProgram env iid st pid uid brand rp
        = .ok ((⟨pid, uid, brand, [], none, none⟩, tts, none), st') ∧
      tts.length = rp.tasks.length ∧
      st'.issues = st.issues ++
        ⟨env.uuid (st.uctr + 1), some iid, "medium", "invalid_sales_amount",
          "Failed to parse sales amount: Amount must be positive",
          some (uuidStr pid), some "sales_attributed",
          some (ProblemVal.rawSales q)⟩ :: d ∧
      ∀ i ∈ d, i.issue_type = "invalid_platform" := by
  have hmk : (mkCleanSalesAttribution env st pid q).1
      = .error "Amount must be positive" := by
    unfold mkCleanSalesAttribution freshUuid freshNow
    simp [hle]
  refine ⟨hmk, ?_⟩
  have hmkpair : mkCleanSalesAttribution env st pid q
      = (.error "Amount must be positive",
         { st with uctr := st.uctr + 1, tctr := st.tctr + 1 }) := by
    have := mkCleanSalesAttribution_state env st pid q
    rw [Prod.ext_iff]
    exact ⟨hmk, this⟩
  set stLog := logQualityIssue env { st with uctr := st.uctr + 1, tctr := st.tctr + 1 }
    iid "medium" "invalid_sales_amount"
    ("Failed to parse sales amount: " ++ "Amount must be positive")
    (some (uuidStr pid)) (some "sales_attributed")
    (some (ProblemVal.rawSales q)) with hstLog
  obtain ⟨tts, st', htts, hlen, d, hd, hdp⟩ :=
    processTasks_no_fail env iid pid rp.tasks stLog htasks
  refine ⟨tts, st', d, ?_, hlen, ?_, hdp⟩
  · simp only [finishProgram, hq, hmkpair, ← hstLog, htts]
  · rw [hd, hstLog, logQualityIssue_issues]
    have hdesc : ("Failed to parse sales amount: " ++ "Amount must be positive" : String)
        = "Failed to parse sales amount: Amount must be positive" := rfl
    rw [hdesc]
    simp

/-- C4 witness: a concrete program with sales amount -50 and one task. -/
theorem sales_positive_amount_enforcement_witness :
    (mkCleanSalesAttribution ⟨fun n => n, fun n => n⟩ {} 9 (-50)).1
      = .error "Amount must be positive" ∧
    ∃ tts st' d,
      finishProgram ⟨fun n => n, fun n => n⟩ 3 {} 9 4 "Acme"
          ⟨none, some "Acme", some (-50), [⟨none, some "TikTok", none, none, none⟩], none, none⟩
        = .ok ((⟨9, 4, "Acme", [], none, none⟩, tts, none), st') ∧
      tts.length = [(⟨none, some "TikTok", none, none, none⟩ : RawTask)].length ∧
      st'.issues = EtlState.issues {} ++
        ⟨(fun n => n : Nat → Uuid) (EtlState.uctr {} + 1), some 3, "medium", "invalid_sales_amount",
          "Failed to parse sales amount: Amount must be positive",
          some (uuidStr 9), some "sales_attributed",
          some (ProblemVal.rawSales (-50))⟩ :: d ∧
      ∀ i ∈ d, i.issue_type = "invalid_platform" :=
  sales_positive_amount_enforcement ⟨fun n => n, fun n => n⟩ 3 9 4 {} "Acme"
    ⟨none, some "Acme", some (-50), [⟨none, some "TikTok", none, none, none⟩], none, none⟩
    (-50) rfl (by norm_num) (by intro rt hrt s hs; simp at hrt; subst hrt; simp at hs)

theorem issuesDelta_mono {st st' : EtlState} {p q : DataQualityIssue → Prop}
    (h : IssuesDelta st st' p) (himp : ∀ i, p i → q i) : IssuesDelta st st' q := by
  obtain ⟨d, e, f⟩ := h
  exact ⟨d, e, fun i hi => himp i (f i hi)⟩

/-- Under well-formed task keys the tail of the per-program block always
succeeds (an invalid sales amount is caught locally), emitting the program
with one clean task per raw task and appending only invalid_platform or
invalid_sales_amount issues. -/
theorem finishProgram_ok (env : Env) (iid : Uuid) (st : EtlState)
    (pid uid : Uuid) (brand : String) (rp : RawProgram)
    (htasks : ∀ rt ∈ rp.tasks, ∀ s, rt.task_id = some s → (pyUuidParse s).isSome) :
    ∃ tts sales st',
      finishProgram env iid st pid uid brand rp
        = .ok ((⟨pid, uid, brand, [], none, none⟩, tts, sales), st') ∧
      tts.length = rp.tasks.length ∧
      IssuesDelta st st' (fun i =>
        i.issue_type = "invalid_platform" ∨ i.issue_type = "invalid_sales_amount") := by
  cases hq : rp.sales_attributed with
  | none =>
    obtain ⟨tts, st', htts, hlen, hd⟩ := processTasks_no_fail env iid pid rp.tasks st htasks
    refine ⟨tts, none, st', ?_, hlen, issuesDelta_mono hd (fun i hi => Or.inl hi)⟩
    simp only [finishProgram, hq, htts]
  | some q =>
    by_cases hle : q ≤ 0
    · have hmkpair : mkCleanSalesAttribution env st pid q
          = (.error "Amount must be positive",
             { st with uctr := st.uctr + 1, tctr := st.tctr + 1 }) := by
        rw [Prod.ext_iff]
        refine ⟨?_, mkCleanSalesAttribution_state env st pid q⟩
        unfold mkCleanSalesAttribution freshUuid freshNow
        simp [hle]
      set stLog := logQualityIssue env { st with uctr := st.uctr + 1, tctr := st.tctr + 1 }
        iid "medium" "invalid_sales_amount"
        ("Failed to parse sales amount: " ++ "Amount must be positive")
        (some (uuidStr pid)) (some "sales_attributed")
        (some (ProblemVal.rawSales q)) with hstLog
      obtain ⟨tts, st', htts, hlen, hd⟩ :=
        processTasks_no_fail env iid pid rp.tasks stLog htasks
      refine ⟨tts, none, st', ?_, hlen, ?_⟩
      · simp only [finishProgram, hq, hmkpair, ← hstLog, htts]
      · refine issuesDelta_trans ⟨_, by rw [hstLog, logQualityIssue_issues], ?_⟩
          (issuesDelta_mono hd (fun i hi => Or.inl hi))
        simp
    · have hmkpair : mkCleanSalesAttribution env st pid q
          = (.ok ⟨env.uuid st.uctr, pid, q, "USD", env.now st.tctr, []⟩,
             { st with uctr := st.uctr + 1, tctr := st.tctr + 1 }) := by
        rw [Prod.ext_iff]
        refine ⟨?_, mkCleanSalesAttribution_state env st pid q⟩
        unfold mkCleanSalesAttribution freshUuid freshNow
        simp [hle]
      obtain ⟨tts, st', htts, hlen, hd⟩ := processTasks_no_fail env iid pid rp.tasks
        { st with uctr := st.uctr + 1, tctr := st.tctr + 1 } htasks
      refine ⟨tts, some ⟨env.uuid st.uctr, pid, q, "USD", env.now st.tctr, []⟩, st',
        ?_, hlen, ?_⟩
      · simp only [finishProgram, hq, hmkpair, htts]
      · exact issuesDelta_trans ⟨[], by simp, by simp⟩
          (issuesDelta_mono hd (fun i hi => Or.inl hi))

theorem parseProgram_brand {jp : JsonProgram} {rp : RawProgram}
    (h : parseProgram jp = .ok rp) : rp.brand = cleanBrand jp.brand := by
  unfold parseProgram at h
  cases hc : coerceOptStr (cleanProgramId jp.program_id) with
  | error e => rw [hc] at h; exact absurd h (by simp [Bind.bind, Except.bind])
  | ok pid =>
    rw [hc] at h
    cases ht : jp.tasks.mapM parseTask with
    | error e =>
      rw [ht] at h
      exact absurd h (by simp [Bind.bind, Except.bind])
    | ok tasks =>
      rw [ht] at h
      simp [Bind.bind, Except.bind, pure, Except.pure] at h
      rw [← h]

/-- C9: a raw program whose brand is a numeric value is normalized to an
absent brand, and the per-program Transform block then emits a clean
program whose brand is exactly the sentinel "Unknown" while logging
exactly one medium-severity missing_brand issue (every other issue the
block logs has a different type). -/
theorem numeric_brand_fallback (env : Env) (iid uid : Uuid) (st : EtlState)
    (jp : JsonProgram) (rp : RawProgram) (m : Int)
    (hjb : jp.brand = PyVal.int m)
    (hparse : parseProgram jp = .ok rp)
    (hpid : ∀ s, rp.program_id = some s → (pyUuidParse s).isSome)
    (htasks : ∀ rt ∈ rp.tasks, ∀ s, rt.task_id = some s → (pyUuidParse s).isSome) :
    cleanBrand (PyVal.int m) = none ∧
    rp.brand = none ∧
    ∃ pid' tts sales st' d,
      processProgram env iid uid st rp
        = .ok ((⟨pid', uid, "Unknown", [], none, none⟩, tts, sales), st') ∧
      st'.issues = st.issues ++
        ⟨env.uuid st.uctr, some iid, "medium", "missing_brand",
          "Program brand was null, empty, or numeric value - using fallback: Unknown",
          some (uuidStr uid), some "brand", none⟩ :: d ∧
      ∀ i ∈ d, i.issue_type = "invalid_platform" ∨ i.issue_type = "invalid_sales_amount" := by
  have hrb : rp.brand = none := by
    rw [parseProgram_brand hparse, hjb]
    rfl
  refine ⟨rfl, hrb, ?_⟩
  set stB := logQualityIssue env st iid "medium" "missing_brand"
    "Program brand was null, empty, or numeric value - using fallback: Unknown"
    (some (uuidStr uid)) (some "brand") none with hstB
  have hcompose : ∀ st' : EtlState,
      IssuesDelta stB st' (fun i =>
        i.issue_type = "invalid_platform" ∨ i.issue_type = "invalid_sales_amount") →
      ∃ d, st'.issues = st.issues ++
        ⟨env.uuid st.uctr, some iid, "medium", "missing_brand",
          "Program brand was null, empty, or numeric value - using fallback: Unknown",
          some (uuidStr uid), some "brand", none⟩ :: d ∧
      ∀ i ∈ d, i.issue_type = "invalid_platform" ∨ i.issue_type = "invalid_sales_amount" := by
    intro st' hd
    obtain ⟨d, e, f⟩ := hd
    refine ⟨d, ?_, f⟩
    rw [e, hstB, logQualityIssue_issues]
    simp
  cases hip : rp.program_id with
  | some s =>
    obtain ⟨pid', hps⟩ := Option.isSome_iff_exists.mp (hpid s hip)
    obtain ⟨tts, sales, st', hfin, hlen, hd⟩ :=
      finishProgram_ok env iid stB pid' uid "Unknown" rp htasks
    obtain ⟨d, e, f⟩ := hcompose st' hd
    refine ⟨pid', tts, sales, st', d, ?_, e, f⟩
    simp only [processProgram, hrb, hip, hps, ← hstB, hfin]
  | none =>
    obtain ⟨tts, sales, st', hfin, hlen, hd⟩ :=
      finishProgram_ok env iid { stB with uctr := stB.uctr + 1 }
        (env.uuid stB.uctr) uid "Unknown" rp htasks
    obtain ⟨d, e, f⟩ := hcompose { stB with uctr := stB.uctr + 1 }
      ⟨[], by simp, by simp⟩
    obtain ⟨d2, e2, f2⟩ := hd
    refine ⟨env.uuid stB.uctr, tts, sales, st', d ++ d2, ?_, ?_, ?_⟩
    · simp only [processProgram, hrb, hip, freshUuid, ← hstB, hfin]
    · rw [e2, e]
      simp
    · intro i hi
      rcases List.mem_append.mp hi with h | h
      exacts [f i h, f2 i h]

/-- C9 witness: a concrete raw program whose brand is the number 42. -/
theorem numeric_brand_fallback_witness :
    cleanBrand (PyVal.int 42) = none ∧
    (⟨none, none, none, [], none, none⟩ : RawProgram).brand = none ∧
    ∃ pid' tts sales st' d,
      processProgram ⟨fun n => n, fun n => n⟩ 3 4 {}
          ⟨none, none, none, [], none, none⟩
        = .ok ((⟨pid', 4, "Unknown", [], none, none⟩, tts, sales), st') ∧
      st'.issues = EtlState.issues {} ++
        ⟨0, some 3, "medium", "missing_brand",
          "Program brand was null, empty, or numeric value - using fallback: Unknown",
          some (uuidStr 4), some "brand", none⟩ :: d ∧
      ∀ i ∈ d, i.issue_type = "invalid_platform" ∨ i.issue_type = "invalid_sales_amount" :=
  numeric_brand_fallback ⟨fun n => n, fun n => n⟩ 3 4 {}
    { brand := PyVal.int 42 } ⟨none, none, none, [], none, none⟩ 42
    rfl rfl (by simp) (by simp)

/-- One task-block iteration either succeeds or raises the uuid parse
error; state mutations made before the exception persist either way. -/
theorem processTask_cases (env : Env) (iid pid : Uuid) (st : EtlState)
    (rt : RawTask) :
    (∃ ta st', processTask env iid pid st rt = .ok (ta, st') ∧
       IssuesDelta st st' (fun _ => True)) ∨
    (∃ st', processTask env iid pid st rt
        = .error ("badly formed hexadecimal UUID string", st') ∧
       IssuesDelta st st' (fun _ => True)) := by
  cases hplat : rt.platform with
  | some p =>
    cases htid : rt.task_id with
    | some s =>
      cases hu : pyUuidParse s with
      | none =>
        have h : processTask env iid pid st rt
            = .error ("badly formed hexadecimal UUID string", st) := by
          simp only [processTask, hplat, htid, hu]
        exact Or.inr ⟨st, h, issuesDelta_rfl st _⟩
      | some tid =>
        have h : processTask env iid pid st rt
            = .ok ((finishTask env st tid pid p rt).1,
                   (finishTask env st tid pid p rt).2) := by
          simp only [processTask, hplat, htid, hu]
        exact Or.inl ⟨_, _, h, ⟨[], by rw [finishTask_issues]; simp, by simp⟩⟩
    | none =>
      have h : processTask env iid pid st rt
          = .ok ((finishTask env { st with uctr := st.uctr + 1 }
                (env.uuid st.uctr) pid p rt).1,
              (finishTask env { st with uctr := st.uctr + 1 }
                (env.uuid st.uctr) pid p rt).2) := by
        simp only [processTask, hplat, htid, freshUuid]
      exact Or.inl ⟨_, _, h, ⟨[], by rw [finishTask_issues]; simp, by simp⟩⟩
  | none =>
    cases htid : rt.task_id with
    | some s =>
      cases hu : pyUuidParse s with
      | none =>
        have h : processTask env iid pid st rt
            = .error ("badly formed hexadecimal UUID string",
                logQualityIssue env st iid "high" "invalid_platform"
                  "Task platform was null or invalid, using fallback: Unknown"
                  (some (uuidStr pid)) (some "platform")
                  (some ProblemVal.originalUnavailable)) := by
          simp only [processTask, hplat, htid, hu]
        exact Or.inr ⟨_, h,
          ⟨_, logQualityIssue_issues env st iid _ _ _ _ _ _, by simp⟩⟩
      | some tid =>
        have h : processTask env iid pid st rt
            = .ok ((finishTask env
                (logQualityIssue env st iid "high" "invalid_platform"
                  "Task platform was null or invalid, using fallback: Unknown"
                  (some (uuidStr pid)) (some "platform")
                  (some ProblemVal.originalUnavailable)) tid pid "Unknown" rt).1,
              (finishTask env
                (logQualityIssue env st iid "high" "invalid_platform"
                  "Task platform was null or invalid, using fallback: Unknown"
                  (some (uuidStr pid)) (some "platform")
                  (some ProblemVal.originalUnavailable)) tid pid "Unknown" rt).2) := by
          simp only [processTask, hplat, htid, hu]
        exact Or.inl ⟨_, _, h,
          ⟨_, by rw [finishTask_issues, logQualityIssue_issues], by simp⟩⟩
    | none =>
      have h : processTask env iid pid st rt
          = .ok ((finishTask env
              { logQualityIssue env st iid "high" "invalid_platform"
                  "Task platform was null or invalid, using fallback: Unknown"
                  (some (uuidStr pid)) (some "platform")
                  (some ProblemVal.originalUnavailable) with
                uctr := st.uctr + 2 }
              (env.uuid (st.uctr + 1)) pid "Unknown" rt).1,
            (finishTask env
              { logQualityIssue env st iid "high" "invalid_platform"
                  "Task platform was null or invalid, using fallback: Unknown"
                  (some (uuidStr pid)) (some "platform")
                  (some ProblemVal.originalUnavailable) with
                uctr := st.uctr + 2 }
              (env.uuid (st.uctr + 1)) pid "Unknown" rt).2) := by
        simp only [processTask, hplat, htid, freshUuid]
        rfl
      exact Or.inl ⟨_, _, h,
        ⟨_, by rw [finishTask_issues]; simp [logQualityIssue_issues]; rfl, by simp⟩⟩

/-- The task loop either succeeds or raises the uuid parse error. -/
theorem processTasks_cases (env : Env) (iid pid : Uuid) :
    ∀ (tasks : List RawTask) (st : EtlState),
    (∃ tts st', processTasks env iid pid st tasks = .ok (tts, st') ∧
       IssuesDelta st st' (fun _ => True)) ∨
    (∃ st', processTasks env iid pid st tasks
        = .error ("badly formed hexadecimal UUID string", st') ∧
       IssuesDelta st st' (fun _ => True)) := by
  intro tasks
  induction tasks with
  | nil => exact fun st => Or.inl ⟨[], st, rfl, issuesDelta_rfl st _⟩
  | cons rt rest ih =>
    intro st
    rcases processTask_cases env iid pid st rt with ⟨ta, st1, hta, hd1⟩ | ⟨st1, hta, hd1⟩
    · rcases ih st1 with ⟨tts, st2, htts, hd2⟩ | ⟨st2, htts, hd2⟩
      · refine Or.inl ⟨ta :: tts, st2, ?_, issuesDelta_trans hd1 hd2⟩
        simp only [processTasks, hta, htts]
      · refine Or.inr ⟨st2, ?_, issuesDelta_trans hd1 hd2⟩
        simp only [processTasks, hta, htts]
    · refine Or.inr ⟨st1, ?_, hd1⟩
      simp only [processTasks, hta]

/-- The tail of the per-program block either succeeds or raises the uuid
parse error of some task key. -/
theorem finishProgram_cases (env : Env) (iid : Uuid) (st0 : EtlState)
    (pid uid : Uuid) (brand : String) (rp : RawProgram) :
    (∃ pt st', finishProgram env iid st0 pid uid brand rp = .ok (pt, st') ∧
       IssuesDelta st0 st' (fun _ => True)) ∨
    (∃ st', finishProgram env iid st0 pid uid brand rp
        = .error ("badly formed hexadecimal UUID string", st') ∧
       IssuesDelta st0 st' (fun _ => True)) := by
  cases hq : rp.sales_attributed with
  | none =>
    rcases processTasks_cases env iid pid rp.tasks st0 with
      ⟨tts, st', htts, hd⟩ | ⟨st', htts, hd⟩
    · refine Or.inl ⟨(⟨pid, uid, brand, [], none, none⟩, tts, none), st', ?_, hd⟩
      simp only [finishProgram, hq, htts]
    · refine Or.inr ⟨st', ?_, hd⟩
      simp only [finishProgram, hq, htts]
  | some q =>
    by_cases hle : q ≤ 0
    · have hmkpair : mkCleanSalesAttribution env st0 pid q
          = (.error "Amount must be positive",
             { st0 with uctr := st0.uctr + 1, tctr := st0.tctr + 1 }) := by
        rw [Prod.ext_iff]
        refine ⟨?_, mkCleanSalesAttribution_state env st0 pid q⟩
        unfold mkCleanSalesAttribution freshUuid freshNow
        simp [hle]
      set stLog := logQualityIssue env
        { st0 with uctr := st0.uctr + 1, tctr := st0.tctr + 1 }
        iid "medium" "invalid_sales_amount"
        ("Failed to parse sales amount: " ++ "Amount must be positive")
        (some (uuidStr pid)) (some "sales_attributed")
        (some (ProblemVal.rawSales q)) with hstLog
      have hdLog : IssuesDelta st0 stLog (fun _ => True) :=
        ⟨_, by rw [hstLog, logQualityIssue_issues], by simp⟩
      rcases processTasks_cases env iid pid rp.tasks stLog with
        ⟨tts, st', htts, hd⟩ | ⟨st', htts, hd⟩
      · refine Or.inl ⟨(⟨pid, uid, brand, [], none, none⟩, tts, none), st', ?_,
          issuesDelta_trans hdLog hd⟩
        simp only [finishProgram, hq, hmkpair, ← hstLog, htts]
      · refine Or.inr ⟨st', ?_, issuesDelta_trans hdLog hd⟩
        simp only [finishProgram, hq, hmkpair, ← hstLog, htts]
    · have hmkpair : mkCleanSalesAttribution env st0 pid q
          = (.ok ⟨env.uuid st0.uctr, pid, q, "USD", env.now st0.tctr, []⟩,
             { st0 with uctr := st0.uctr + 1, tctr := st0.tctr + 1 }) := by
        rw [Prod.ext_iff]
        refine ⟨?_, mkCleanSalesAttribution_state env st0 pid q⟩
        unfold mkCleanSalesAttribution freshUuid freshNow
        simp [hle]
      have hdMk : IssuesDelta st0
          { st0 with uctr := st0.uctr + 1, tctr := st0.tctr + 1 }
          (fun _ => True) := ⟨[], by simp, by simp⟩
      rcases processTasks_cases env iid pid rp.tasks
        { st0 with uctr := st0.uctr + 1, tctr := st0.tctr + 1 } with
        ⟨tts, st', htts, hd⟩ | ⟨st', htts, hd⟩
      · refine Or.inl ⟨(⟨pid, uid, brand, [], none, none⟩, tts,
          some ⟨env.uuid st0.uctr, pid, q, "USD", env.now st0.tctr, []⟩), st', ?_,
          issuesDelta_trans hdMk hd⟩
        simp only [finishProgram, hq, hmkpair, htts]
      · refine Or.inr ⟨st', ?_, issuesDelta_trans hdMk hd⟩
        simp only [finishProgram, hq, hmkpair, htts]

/-- The per-program block either succeeds or raises the uuid parse error. -/
theorem processProgram_cases (env : Env) (iid uid : Uuid) (st : EtlState)
    (rp : RawProgram) :
    (∃ pt st', processProgram env iid uid st rp = .ok (pt, st') ∧
       IssuesDelta st st' (fun _ => True)) ∨
    (∃ st', processProgram env iid uid st rp
        = .error ("badly formed hexadecimal UUID string", st') ∧
       IssuesDelta st st' (fun _ => True)) := by
  cases hrb : rp.brand with
  | some b =>
    cases hip : rp.program_id with
    | some s =>
      cases hu : pyUuidParse s with
      | none =>
        have h : processProgram env iid uid st rp
            = .error ("badly formed hexadecimal UUID string", st) := by
          simp only [processProgram, hrb, hip, hu]
        exact Or.inr ⟨st, h, issuesDelta_rfl st _⟩
      | some pid =>
        rcases finishProgram_cases env iid st pid uid b rp with
          ⟨pt, st', hf, hd⟩ | ⟨st', hf, hd⟩
        · refine Or.inl ⟨pt, st', ?_, hd⟩
          simp only [processProgram, hrb, hip, hu]
          exact hf
        · refine Or.inr ⟨st', ?_, hd⟩
          simp only [processProgram, hrb, hip, hu]
          exact hf
    | none =>
      rcases finishProgram_cases env iid { st with uctr := st.uctr + 1 }
        (env.uuid st.uctr) uid b rp with ⟨pt, st', hf, hd⟩ | ⟨st', hf, hd⟩
      · refine Or.inl ⟨pt, st', ?_, issuesDelta_trans ⟨[], by simp, by simp⟩ hd⟩
        simp only [processProgram, hrb, hip, freshUuid]
        exact hf
      · refine Or.inr ⟨st', ?_, issuesDelta_trans ⟨[], by simp, by simp⟩ hd⟩
        simp only [processProgram, hrb, hip, freshUuid]
        exact hf
  | none =>
    set stB := logQualityIssue env st iid "medium" "missing_brand"
      "Program brand was null, empty, or numeric value - using fallback: Unknown"
      (some (uuidStr uid)) (some "brand") none with hstB
    have hdB : IssuesDelta st stB (fun _ => True) :=
      ⟨_, by rw [hstB, logQualityIssue_issues], by simp⟩
    cases hip : rp.program_id with
    | some s =>
      cases hu : pyUuidParse s with
      | none =>
        have h : processProgram env iid uid st rp
            = .error ("badly formed hexadecimal UUID string", stB) := by
          simp only [processProgram, hrb, hip, hu, ← hstB]
        exact Or.inr ⟨stB, h, hdB⟩
      | some pid =>
        rcases finishProgram_cases env iid stB pid uid "Unknown" rp with
          ⟨pt, st', hf, hd⟩ | ⟨st', hf, hd⟩
        · refine Or.inl ⟨pt, st', ?_, issuesDelta_trans hdB hd⟩
          simp only [processProgram, hrb, hip, hu, ← hstB]
          exact hf
        · refine Or.inr ⟨st', ?_, issuesDelta_trans hdB hd⟩
          simp only [processProgram, hrb, hip, hu, ← hstB]
          exact hf
    | none =>
      have hdB2 : IssuesDelta st { stB with uctr := stB.uctr + 1 } (fun _ => True) :=
        ⟨_, by rw [hstB, logQualityIssue_issues], by simp⟩
      rcases finishProgram_cases env iid { stB with uctr := stB.uctr + 1 }
        (env.uuid stB.uctr) uid "Unknown" rp with ⟨pt, st', hf, hd⟩ | ⟨st', hf, hd⟩
      · refine Or.inl ⟨pt, st', ?_, issuesDelta_trans hdB2 hd⟩
        simp only [processProgram, hrb, hip, freshUuid, ← hstB]
        exact hf
      · refine Or.inr ⟨st', ?_, issuesDelta_trans hdB2 hd⟩
        simp only [processProgram, hrb, hip, freshUuid, ← hstB]
        exact hf

/-- The program loop either succeeds or raises the uuid parse error. -/
theorem processPrograms_cases (env : Env) (iid uid : Uuid) :
    ∀ (programs : List RawProgram) (st : EtlState),
    (∃ pts st', processPrograms env iid uid st programs = .ok (pts, st') ∧
       IssuesDelta st st' (fun _ => True)) ∨
    (∃ st', processPrograms env iid uid st programs
        = .error ("badly formed hexadecimal UUID string", st') ∧
       IssuesDelta st st' (fun _ => True)) := by
  intro programs
  induction programs with
  | nil => exact fun st => Or.inl ⟨[], st, rfl, issuesDelta_rfl st _⟩
  | cons rp rest ih =>
    intro st
    rcases processProgram_cases env iid uid st rp with ⟨pt, st1, hpt, hd1⟩ | ⟨st1, hpt, hd1⟩
    · rcases ih st1 with ⟨pts, st2, hpts, hd2⟩ | ⟨st2, hpts, hd2⟩
      · refine Or.inl ⟨pt :: pts, st2, ?_, issuesDelta_trans hd1 hd2⟩
        simp only [processPrograms, hpt, hpts]
      · refine Or.inr ⟨st2, ?_, issuesDelta_trans hd1 hd2⟩
        simp only [processPrograms, hpt, hpts]
    · refine Or.inr ⟨st1, ?_, hd1⟩
      simp only [processPrograms, hpt]

/-- A present program key that uuid.UUID cannot parse always raises. -/
theorem processProgram_err_of_badkey (env : Env) (iid uid : Uuid)
    (st : EtlState) (rp : RawProgram) (s : String)
    (hip : rp.program_id = some s) (hu : pyUuidParse s = none) :
    ∃ st', processProgram env iid uid st rp
      = .error ("badly formed hexadecimal UUID string", st') := by
  cases hrb : rp.brand with
  | some b => exact ⟨st, by simp only [processProgram, hrb, hip, hu]⟩
  | none =>
    exact ⟨logQualityIssue env st iid "medium" "missing_brand"
        "Program brand was null, empty, or numeric value - using fallback: Unknown"
        (some (uuidStr uid)) (some "brand") none,
      by simp only [processProgram, hrb, hip, hu]⟩

/-- If any program of the record carries an unparsable key, the program
loop raises. -/
theorem processPrograms_err_of_mem (env : Env) (iid uid : Uuid) :
    ∀ (programs : List RawProgram) (st : EtlState) (rp : RawProgram) (s : String),
    rp ∈ programs → rp.program_id = some s → pyUuidParse s = none →
    ∃ st', processPrograms env iid uid st programs
      = .error ("badly formed hexadecimal UUID string", st') := by
  intro programs
  induction programs with
  | nil => intro st rp s h; simp at h
  | cons hd tl ih =>
    intro st rp s hmem hip hu
    rcases processProgram_cases env iid uid st hd with ⟨pt, st1, hok, _⟩ | ⟨st1, herr, _⟩
    · have hrt : rp ∈ tl := by
        rcases List.mem_cons.mp hmem with he | ht
        · subst he
          obtain ⟨st'', herr2⟩ := processProgram_err_of_badkey env iid uid st rp s hip hu
          rw [hok] at herr2
          exact absurd herr2 (by simp)
        · exact ht
      obtain ⟨st', herr2⟩ := ih st1 rp s hrt hip hu
      exact ⟨st', by simp only [processPrograms, hok, herr2]⟩
    · exact ⟨st1, by simp only [processPrograms, herr]⟩

theorem cleanUserId_isSome {v : PyVal} {s : String} (h : cleanUserId v = some s) :
    (pyUuidParse s).isSome := by
  cases v with
  | str t =>
    simp only [cleanUserId] at h
    by_cases ht : t = ""
    · simp [ht] at h
    · rw [if_neg ht] at h
      by_cases hu : (pyUuidParse t).isSome
      · rw [if_pos hu] at h
        injection h with h2
        subst h2
        exact hu
      · simp [hu] at h
  | none => simp [cleanUserId] at h
  | int n => simp [cleanUserId] at h
  | real q => simp [cleanUserId] at h

theorem parseUser_fields {j : JsonUser} {ru : RawAdvocateUser}
    (h : parseUser j = .ok ru) :
    ru.user_id = cleanUserId j.user_id ∧ ru.email = cleanEmail j.email := by
  unfold parseUser at h
  cases hm : j.advocacy_programs.mapM parseProgram with
  | error e =>
    rw [hm] at h
    exact absurd h (by simp [Bind.bind, Except.bind])
  | ok programs =>
    rw [hm] at h
    simp [Bind.bind, Except.bind, pure, Except.pure] at h
    rw [← h]
    exact ⟨rfl, rfl⟩

/-- Under a well-formed (normalizer-validated) raw user key the user-id
expression never raises. -/
theorem userIdStep_ok (env : Env) (st : EtlState) (ru : RawAdvocateUser)
    (huid : ∀ t, ru.user_id = some t → (pyUuidParse t).isSome) :
    ∃ uid st', userIdStep env st ru = .ok (uid, st') := by
  cases hui : ru.user_id with
  | some t =>
    obtain ⟨v, hv⟩ := Option.isSome_iff_exists.mp (huid t hui)
    exact ⟨v, st, by simp only [userIdStep, hui, hv]⟩
  | none =>
    exact ⟨env.uuid st.uctr, { st with uctr := st.uctr + 1 },
      by simp only [userIdStep, hui, freshUuid]⟩

/-- A record whose raw parse passed but which carries an unparsable
program key makes the record body raise. -/
theorem processParsed_err (env : Env) (iid : Uuid) (st : EtlState)
    (ru : RawAdvocateUser) (rp : RawProgram) (s : String)
    (huid : ∀ t, ru.user_id = some t → (pyUuidParse t).isSome)
    (hmem : rp ∈ ru.advocacy_programs) (hip : rp.program_id = some s)
    (hu : pyUuidParse s = none) :
    ∃ st', processParsed env iid st ru
      = .error ("badly formed hexadecimal UUID string", st') := by
  obtain ⟨uid, st1, hui⟩ :=
    userIdStep_ok env (resolveAccount env iid st ru).2 ru huid
  obtain ⟨st', herr⟩ := processPrograms_err_of_mem env iid uid
    ru.advocacy_programs (logUserIssues env iid st1 ru uid) rp s hmem hip hu
  exact ⟨st', by simp only [processParsed, hui, herr]⟩

/-- C6 amended: only the user-key normalizer validates format (empty or
non-uuid-parsable keys become absent, valid keys pass through); the
program- and task-key normalizers map only the empty string to absent and
pass every other value through unvalidated; consequently a record carrying
a present program key that is not a parsable uuid is not transformed into
a clean entity: uuid.UUID raises inside Transform and the whole record is
skipped with one critical transformation_error issue carrying the raw
payload. -/
theorem identifier_normalizer_amended (env : Env) (iid : Uuid) (st : EtlState) :
    (∀ s : String, cleanUserId (PyVal.str s)
        = if s ≠ "" ∧ (pyUuidParse s).isSome then some s else none) ∧
    (∀ s : String, cleanProgramId (PyVal.str s)
        = if s = "" then PyVal.none else PyVal.str s) ∧
    (∀ s : String, cleanTaskId (PyVal.str s)
        = if s = "" then PyVal.none else PyVal.str s) ∧
    (∀ (j : JsonUser) (ru : RawAdvocateUser) (rp : RawProgram) (s : String),
      parseUser j = .ok ru →
      rp ∈ ru.advocacy_programs → rp.program_id = some s → pyUuidParse s = none →
      (processRecord env iid st j).1 = none ∧
      ∃ st'' u, (processRecord env iid st j).2.issues = st''.issues ++
          [⟨u, some iid, "critical", "transformation_error",
            "Failed to transform user record: "
              ++ "badly formed hexadecimal UUID string",
            none, none, some (ProblemVal.rawData j)⟩] ∧
        IssuesDelta st st'' (fun _ => True)) := by
  refine ⟨?_, ?_, ?_, ?_⟩
  · intro s
    by_cases h1 : s = ""
    · simp [cleanUserId, h1]
    · by_cases h2 : (pyUuidParse s).isSome
      · simp [cleanUserId, h1, h2]
      · simp [cleanUserId, h1, h2]
  · intro s
    by_cases h1 : s = "" <;> simp [cleanProgramId, h1]
  · intro s
    by_cases h1 : s = "" <;> simp [cleanTaskId, h1]
  · intro j ru rp s hparse hmem hip hu
    have huid : ∀ t, ru.user_id = some t → (pyUuidParse t).isSome := by
      intro t ht
      exact cleanUserId_isSome ((parseUser_fields hparse).1 ▸ ht)
    obtain ⟨stE, herr⟩ := processParsed_err env iid st ru rp s huid hmem hip hu
    have hrec : processRecord env iid st j
        = (none, logQualityIssue env stE iid "critical" "transformation_error"
            ("Failed to transform user record: "
              ++ "badly formed hexadecimal UUID string") none none
            (some (ProblemVal.rawData j))) := by
      simp only [processRecord, hparse, herr]
    have hdelta : IssuesDelta st stE (fun _ => True) := by
      have hui2 : ∃ uid st1, userIdStep env (resolveAccount env iid st ru).2 ru
          = .ok (uid, st1) := userIdStep_ok env _ ru huid
      obtain ⟨uid, st1, hui⟩ := hui2
      rcases processPrograms_cases env iid uid ru.advocacy_programs
          (logUserIssues env iid st1 ru uid) with ⟨pts, stX, hok, _⟩ | ⟨stX, herr2, hdX⟩
      · exfalso
        have hok2 : processParsed env iid st ru
            = .ok ((⟨uid, (resolveAccount env iid st ru).1.account_id, ru.name,
                ru.instagram_handle, ru.tiktok_handle, ru.joined_at, []⟩, pts,
                (resolveAccount env iid st ru).1), stX) := by
          simp only [processParsed, hui, hok]
        rw [hok2] at herr
        exact absurd herr (by simp)
      · have hE : processParsed env iid st ru
            = .error ("badly formed hexadecimal UUID string", stX) := by
          simp only [processParsed, hui, herr2]
        rw [hE] at herr
        have hstE : stX = stE := by
          injection herr with h2
          exact congrArg Prod.snd h2
        subst hstE
        -- delta from st to stE through account resolution, user id, logs
        have d1 : IssuesDelta st (resolveAccount env iid st ru).2 (fun _ => True) := by
          unfold resolveAccount
          cases hga : getOrCreateAdvocateAccount env st ru.email with
          | mk a0 stG =>
            have hGd : IssuesDelta st stG (fun _ => True) := by
              cases he : ru.email with
              | none =>
                simp only [getOrCreateAdvocateAccount, he] at hga
                injection hga with h1 h2
                rw [← h2]
                exact issuesDelta_rfl st _
              | some e =>
                by_cases h0 : e = ""
                · simp only [getOrCreateAdvocateAccount, he, if_pos h0] at hga
                  injection hga with h1 h2
                  rw [← h2]
                  exact issuesDelta_rfl st _
                · cases hl : cacheLookup st.accounts (pyLower e) with
                  | some a =>
                    simp only [getOrCreateAdvocateAccount, he, if_neg h0, hl] at hga
                    injection hga with h1 h2
                    rw [← h2]
                    exact issuesDelta_rfl st _
                  | none =>
                    simp only [getOrCreateAdvocateAccount, he, if_neg h0, hl,
                      freshUuid] at hga
                    injection hga with h1 h2
                    rw [← h2]
                    exact ⟨[], by simp, by simp⟩
            cases a0 with
            | some a => exact hGd
            | none =>
              refine issuesDelta_trans hGd (issuesDelta_log env iid _ _ _ _ _ _ ?_)
              simp [freshUuid]
        have d2 : IssuesDelta (resolveAccount env iid st ru).2 st1 (fun _ => True) := by
          cases hur : ru.user_id with
          | some t =>
            obtain ⟨v, hv⟩ := Option.isSome_iff_exists.mp (huid t hur)
            simp only [userIdStep, hur, hv] at hui
            injection hui with h2
            have h3 : (resolveAccount env iid st ru).2 = st1 := congrArg Prod.snd h2
            exact h3 ▸ issuesDelta_rfl _ _
          | none =>
            simp only [userIdStep, hur, freshUuid] at hui
            injection hui with h2
            have h3 : { (resolveAccount env iid st ru).2 with
                uctr := (resolveAccount env iid st ru).2.uctr + 1 } = st1 :=
              congrArg Prod.snd h2
            exact h3 ▸ ⟨[], by simp, by simp⟩
        have d3 : IssuesDelta st1 (logUserIssues env iid st1 ru uid) (fun _ => True) := by
          by_cases h1 : ru.user_id = none <;> by_cases h2 : ru.name = none <;>
            by_cases h3 : ru.email = none <;>
            simp only [logUserIssues, h1, h2, h3, if_true, if_false] <;>
            first
              | exact issuesDelta_trans (issuesDelta_trans
                  (issuesDelta_log env iid _ _ _ _ _ _ rfl)
                  (issuesDelta_log env iid _ _ _ _ _ _ rfl))
                  (issuesDelta_log env iid _ _ _ _ _ _ rfl)
              | exact issuesDelta_trans (issuesDelta_log env iid _ _ _ _ _ _ rfl)
                  (issuesDelta_log env iid _ _ _ _ _ _ rfl)
              | exact issuesDelta_log env iid _ _ _ _ _ _ rfl
              | exact issuesDelta_rfl _ _
        exact issuesDelta_trans d1 (issuesDelta_trans d2 (issuesDelta_trans d3 hdX))
    rw [hrec]
    exact ⟨rfl, stE, env.uuid stE.uctr,
      logQualityIssue_issues env stE iid _ _ _ _ _ _, hdelta⟩

/-- C6 amended witness: the record with the unparsable program key
"not-a-uuid" is skipped with a critical transformation_error. -/
theorem identifier_normalizer_amended_witness :
    cleanUserId (PyVal.str "abc")
      = (if "abc" ≠ "" ∧ (pyUuidParse "abc").isSome then some "abc" else none) ∧
    ((processRecord c6env 7 {} c6j).1 = none ∧
     ∃ st'' u, (processRecord c6env 7 {} c6j).2.issues = st''.issues ++
         [⟨u, some 7, "critical", "transformation_error",
           "Failed to transform user record: "
             ++ "badly formed hexadecimal UUID string",
           none, none, some (ProblemVal.rawData c6j)⟩] ∧
       IssuesDelta {} st'' (fun _ => True)) :=
  ⟨(identifier_normalizer_amended c6env 7 {}).1 "abc",
   (identifier_normalizer_amended c6env 7 {}).2.2.2 c6j c6ru c6rp "not-a-uuid"
     rfl (by decide) rfl (by decide)⟩

theorem counterNonNeg_floor (c : Option Int) :
    counterNonNeg (floorCounter c) = true := by
  cases c with
  | none => rfl
  | some n =>
    simp only [floorCounter, counterNonNeg, decide_eq_true_eq]
    split <;> omega

theorem mkCleanSocialAnalytics_nonneg (env : Env) (st : EtlState) (tid : Uuid)
    (ra : RawSocialAnalytics) :
    analyticsNonNeg (mkCleanSocialAnalytics env st tid ra).1 = true := by
  simp [mkCleanSocialAnalytics, freshUuid, freshNow, analyticsNonNeg,
    counterNonNeg_floor]

theorem finishTask_nonneg (env : Env) (st : EtlState) (tid pid : Uuid)
    (p : String) (rt : RawTask) (a : CleanSocialAnalytics)
    (h : (finishTask env st tid pid p rt).1.2 = some a) :
    analyticsNonNeg a = true := by
  unfold finishTask at h
  cases hra : rt.analytics with
  | none => rw [hra] at h; simp at h
  | some ra =>
    rw [hra] at h
    simp only [mkCleanSocialAnalytics, freshUuid, freshNow,
      Option.some.injEq] at h
    rw [← h]
    exact mkCleanSocialAnalytics_nonneg env st tid ra

theorem processTask_nonneg (env : Env) (iid pid : Uuid) (st : EtlState)
    (rt : RawTask) (tt : TaskTuple) (st' : EtlState)
    (h : processTask env iid pid st rt = .ok (tt, st'))
    (a : CleanSocialAnalytics) (ha : tt.2 = some a) :
    analyticsNonNeg a = true := by
  cases hplat : rt.platform with
  | some p =>
    cases htid : rt.task_id with
    | some s =>
      cases hu : pyUuidParse s with
      | none =>
        simp only [processTask, hplat, htid, hu] at h
        exact Except.noConfusion h
      | some tid =>
        simp only [processTask, hplat, htid, hu, Except.ok.injEq] at h
        have h3 := congrArg (fun q : TaskTuple × EtlState => q.1.2) h
        simp only at h3
        exact finishTask_nonneg _ _ _ _ _ _ a (h3.trans ha)
    | none =>
      simp only [processTask, hplat, htid, freshUuid, Except.ok.injEq] at h
      have h3 := congrArg (fun q : TaskTuple × EtlState => q.1.2) h
      simp only at h3
      exact finishTask_nonneg _ _ _ _ _ _ a (h3.trans ha)
  | none =>
    cases htid : rt.task_id with
    | some s =>
      cases hu : pyUuidParse s with
      | none =>
        simp only [processTask, hplat, htid, hu] at h
        exact Except.noConfusion h
      | some tid =>
        simp only [processTask, hplat, htid, hu, Except.ok.injEq] at h
        have h3 := congrArg (fun q : TaskTuple × EtlState => q.1.2) h
        simp only at h3
        exact finishTask_nonneg _ _ _ _ _ _ a (h3.trans ha)
    | none =>
      simp only [processTask, hplat, htid, freshUuid, Except.ok.injEq] at h
      have h3 := congrArg (fun q : TaskTuple × EtlState => q.1.2) h
      simp only at h3
      exact finishTask_nonneg _ _ _ _ _ _ a (h3.trans ha)

theorem processTasks_nonneg (env : Env) (iid pid : Uuid) :
    ∀ (tasks : List RawTask) (st : EtlState) (tts : List TaskTuple)
      (st' : EtlState),
    processTasks env iid pid st tasks = .ok (tts, st') →
    ∀ tt ∈ tts, ∀ a, tt.2 = some a → analyticsNonNeg a = true := by
  intro tasks
  induction tasks with
  | nil =>
    intro st tts st' h tt htt a ha
    simp only [processTasks, Except.ok.injEq, Prod.mk.injEq] at h
    rw [← h.1] at htt
    simp at htt
  | cons rt rest ih =>
    intro st tts st' h tt htt a ha
    unfold processTasks at h
    cases hpt : processTask env iid pid st rt with
    | error e => rw [hpt] at h; simp at h
    | ok p =>
      obtain ⟨ta, st1⟩ := p
      rw [hpt] at h
      simp only at h
      cases hrest : processTasks env iid pid st1 rest with
      | error e => rw [hrest] at h; simp at h
      | ok q =>
        obtain ⟨tts1, st2⟩ := q
        rw [hrest] at h
        simp only [Except.ok.injEq, Prod.mk.injEq] at h
        rw [← h.1] at htt
        rcases List.mem_cons.mp htt with heq | hmem
        · exact processTask_nonneg env iid pid st rt ta st1 hpt a (heq ▸ ha)
        · exact ih st1 tts1 st2 hrest tt hmem a ha

theorem finishProgram_nonneg (env : Env) (iid : Uuid) (st : EtlState)
    (pid uid : Uuid) (brand : String) (rp : RawProgram)
    (pt : ProgramTuple) (st' : EtlState)
    (h : finishProgram env iid st pid uid brand rp = .ok (pt, st')) :
    ∀ tt ∈ pt.2.1, ∀ a, tt.2 = some a → analyticsNonNeg a = true := by
  cases hsa : rp.sales_attributed with
  | none =>
    simp only [finishProgram, hsa] at h
    cases hpt : processTasks env iid pid st rp.tasks with
    | error e => rw [hpt] at h; simp at h
    | ok q =>
      obtain ⟨tasks, stq⟩ := q
      rw [hpt] at h
      simp only [Except.ok.injEq, Prod.mk.injEq] at h
      intro tt htt a ha
      have h21 : pt.2.1 = tasks := by rw [← h.1]
      exact processTasks_nonneg env iid pid rp.tasks st tasks stq hpt tt
        (h21 ▸ htt) a ha
  | some q0 =>
    rcases hmk : mkCleanSalesAttribution env st pid q0 with ⟨er, st2⟩
    cases er with
    | ok sa =>
      simp only [finishProgram, hsa, hmk] at h
      cases hpt : processTasks env iid pid st2 rp.tasks with
      | error e => rw [hpt] at h; simp at h
      | ok q =>
        obtain ⟨tasks, stq⟩ := q
        rw [hpt] at h
        simp only [Except.ok.injEq, Prod.mk.injEq] at h
        intro tt htt a ha
        have h21 : pt.2.1 = tasks := by rw [← h.1]
        exact processTasks_nonneg env iid pid rp.tasks st2 tasks stq hpt tt
          (h21 ▸ htt) a ha
    | error e =>
      simp only [finishProgram, hsa, hmk] at h
      set stL := logQualityIssue env st2 iid "medium" "invalid_sales_amount"
        ("Failed to parse sales amount: " ++ e) (some (uuidStr pid))
        (some "sales_attributed") (some (ProblemVal.rawSales q0)) with hstL
      cases hpt : processTasks env iid pid stL rp.tasks with
      | error e2 => rw [hpt] at h; simp at h
      | ok q =>
        obtain ⟨tasks, stq⟩ := q
        rw [hpt] at h
        simp only [Except.ok.injEq, Prod.mk.injEq] at h
        intro tt htt a ha
        have h21 : pt.2.1 = tasks := by rw [← h.1]
        exact processTasks_nonneg env iid pid rp.tasks stL tasks stq hpt tt
          (h21 ▸ htt) a ha

theorem processProgram_nonneg (env : Env) (iid uid : Uuid) (st : EtlState)
    (rp : RawProgram) (pt : ProgramTuple) (st' : EtlState)
    (h : processProgram env iid uid st rp = .ok (pt, st')) :
    ∀ tt ∈ pt.2.1, ∀ a, tt.2 = some a → analyticsNonNeg a = true := by
  cases hb : rp.brand with
  | some b =>
    cases hk : rp.program_id with
    | some s =>
      cases hu : pyUuidParse s with
      | none =>
        simp only [processProgram, hb, hk, hu] at h
        exact Except.noConfusion h
      | some pid =>
        simp only [processProgram, hb, hk, hu] at h
        exact finishProgram_nonneg env iid st pid uid b rp pt st' h
    | none =>
      simp only [processProgram, hb, hk, freshUuid] at h
      exact finishProgram_nonneg env iid _ _ uid b rp pt st' h
  | none =>
    set stB := logQualityIssue env st iid "medium" "missing_brand"
      "Program brand was null, empty, or numeric value - using fallback: Unknown"
      (some (uuidStr uid)) (some "brand") none with hstB
    cases hk : rp.program_id with
    | some s =>
      cases hu : pyUuidParse s with
      | none =>
        simp only [processProgram, hb, hk, hu, ← hstB] at h
        exact Except.noConfusion h
      | some pid =>
        simp only [processProgram, hb, hk, hu, ← hstB] at h
        exact finishProgram_nonneg env iid stB pid uid "Unknown" rp pt st' h
    | none =>
      simp only [processProgram, hb, hk, freshUuid, ← hstB] at h
      exact finishProgram_nonneg env iid _ _ uid "Unknown" rp pt st' h

theorem processPrograms_nonneg (env : Env) (iid uid : Uuid) :
    ∀ (progs : List RawProgram) (st : EtlState) (pts : List ProgramTuple)
      (st' : EtlState),
    processPrograms env iid uid st progs = .ok (pts, st') →
    ∀ pt ∈ pts, ∀ tt ∈ pt.2.1, ∀ a, tt.2 = some a →
      analyticsNonNeg a = true := by
  intro progs
  induction progs with
  | nil =>
    intro st pts st' h pt hpt tt htt a ha
    simp only [processPrograms, Except.ok.injEq, Prod.mk.injEq] at h
    rw [← h.1] at hpt
    simp at hpt
  | cons rp rest ih =>
    intro st pts st' h pt hpt tt htt a ha
    unfold processPrograms at h
    cases hp1 : processProgram env iid uid st rp with
    | error e => rw [hp1] at h; simp at h
    | ok p =>
      obtain ⟨pt1, st1⟩ := p
      rw [hp1] at h
      simp only at h
      cases hrest : processPrograms env iid uid st1 rest with
      | error e => rw [hrest] at h; simp at h
      | ok q =>
        obtain ⟨pts1, st2⟩ := q
        rw [hrest] at h
        simp only [Except.ok.injEq, Prod.mk.injEq] at h
        rw [← h.1] at hpt
        rcases List.mem_cons.mp hpt with heq | hmem
        · exact processProgram_nonneg env iid uid st rp pt1 st1 hp1 tt
            (heq ▸ htt) a ha
        · exact ih st1 pts1 st2 hrest pt hmem tt htt a ha

theorem processParsed_nonneg (env : Env) (iid : Uuid) (st : EtlState)
    (ru : RawAdvocateUser) (t : CleanTuple) (st' : EtlState)
    (h : processParsed env iid st ru = .ok (t, st')) :
    ∀ pt ∈ t.2.1, ∀ tt ∈ pt.2.1, ∀ a, tt.2 = some a →
      analyticsNonNeg a = true := by
  simp only [processParsed] at h
  cases huid : userIdStep env (resolveAccount env iid st ru).2 ru with
  | error e => rw [huid] at h; simp at h
  | ok p =>
    obtain ⟨uid, st1⟩ := p
    rw [huid] at h
    simp only at h
    cases hpp : processPrograms env iid uid (logUserIssues env iid st1 ru uid)
        ru.advocacy_programs with
    | error e => rw [hpp] at h; simp at h
    | ok q =>
      obtain ⟨programs, st2⟩ := q
      rw [hpp] at h
      simp only [Except.ok.injEq, Prod.mk.injEq] at h
      intro pt hpt tt htt a ha
      have h21 : t.2.1 = programs := by rw [← h.1]
      exact processPrograms_nonneg env iid uid ru.advocacy_programs
        (logUserIssues env iid st1 ru uid) programs st2 hpp pt
        (h21 ▸ hpt) tt htt a ha

theorem processRecord_nonneg (env : Env) (iid : Uuid) (st : EtlState)
    (j : JsonUser) (t : CleanTuple) (st' : EtlState)
    (h : processRecord env iid st j = (some t, st')) :
    ∀ pt ∈ t.2.1, ∀ tt ∈ pt.2.1, ∀ a, tt.2 = some a →
      analyticsNonNeg a = true := by
  unfold processRecord at h
  cases hpu : parseUser j with
  | error e => rw [hpu] at h; simp at h
  | ok ru =>
    rw [hpu] at h
    simp only at h
    cases hpp : processParsed env iid st ru with
    | error e =>
      obtain ⟨e0, st0⟩ := e
      rw [hpp] at h
      simp at h
    | ok p =>
      obtain ⟨t0, st0⟩ := p
      rw [hpp] at h
      simp only [Prod.mk.injEq, Option.some.injEq] at h
      exact h.1 ▸ processParsed_nonneg env iid st ru t0 st0 hpp

theorem transformLoop_nonneg (env : Env) (iid : Uuid) :
    ∀ (input : List JsonUser) (st : EtlState) (t : CleanTuple),
    t ∈ (transformLoop env iid st input).1 →
    ∀ pt ∈ t.2.1, ∀ tt ∈ pt.2.1, ∀ a, tt.2 = some a →
      analyticsNonNeg a = true := by
  intro input
  induction input with
  | nil =>
    intro st t ht
    simp [transformLoop] at ht
  | cons j rest ih =>
    intro st t ht
    unfold transformLoop at ht
    cases hpr : processRecord env iid st j with
    | mk ot st1 =>
      rw [hpr] at ht
      cases ot with
      | some t0 =>
        simp only at ht
        rcases List.mem_cons.mp ht with heq | hmem
        · exact heq ▸ processRecord_nonneg env iid st j t0 st1 hpr
        · exact ih st1 t hmem
      | none =>
        simp only at ht
        exact ih st1 t ht

/-- C8: the non-negativity invariant.  Every CleanSocialAnalytics record
carried by the output of transform_user_data has each of likes, comments,
shares, reach and impressions absent or non-negative, although the
raw-model field validators pass negative likes, comments and shares values
through without flooring (the flooring happens in validate_non_negative of
the clean model, inside Transform). -/
theorem analytics_nonnegativity_invariant (env : Env) (input : List JsonUser)
    (t : CleanTuple) (ht : t ∈ (runTransform env input).2.1)
    (pt : ProgramTuple) (hpt : pt ∈ t.2.1)
    (tt : TaskTuple) (htt : tt ∈ pt.2.1)
    (a : CleanSocialAnalytics) (ha : tt.2 = some a) :
    analyticsNonNeg a = true ∧
      parseAnalytics
          { likes := PyVal.int (-7), comments := PyVal.int (-2),
            shares := PyVal.int (-3) } =
        Except.ok ⟨some (-7), some (-2), some (-3), none, none, none⟩ := by
  refine ⟨?_, rfl⟩
  have ht2 : t ∈ (transformLoop env (env.uuid 0) { uctr := 1 } input).1 := by
    simpa only [runTransform, freshUuid] using ht
  exact transformLoop_nonneg env (env.uuid 0) input { uctr := 1 } t ht2 pt hpt
    tt htt a ha

theorem analytics_nonnegativity_invariant_witness :
    analyticsNonNeg c8a = true ∧
      parseAnalytics
          { likes := PyVal.int (-7), comments := PyVal.int (-2),
            shares := PyVal.int (-3) } =
        Except.ok ⟨some (-7), some (-2), some (-3), none, none, none⟩ :=
  analytics_nonnegativity_invariant c8env [c8j] c8t (by decide) c8pt (by decide)
    c8tt (by decide) c8a rfl

theorem logQualityIssue_accounts (env : Env) (st : EtlState) (iid : Uuid)
    (sev ty d : String) (rid fld : Option String) (v : Option ProblemVal) :
    (logQualityIssue env st iid sev ty d rid fld v).accounts = st.accounts := by
  simp [logQualityIssue, freshUuid]

theorem finishTask_proj (env : Env) (st : EtlState) (tid pid : Uuid)
    (p : String) (rt : RawTask) :
    projTask (finishTask env st tid pid p rt).1
        = (p, rt.post_url, rt.posted_at, rt.analytics.map obsRawAnalytics) ∧
      (finishTask env st tid pid p rt).2.accounts = st.accounts := by
  cases hra : rt.analytics <;>
    simp [finishTask, hra, mkCleanSocialAnalytics, freshUuid, freshNow,
      projTask, projAnalytics, obsRawAnalytics]

theorem processTask_proj (env : Env) (iid pid : Uuid) (st : EtlState)
    (rt : RawTask) :
    (badKeyO rt.task_id = true →
      ∃ e st2, processTask env iid pid st rt = .error (e, st2) ∧
        st2.accounts = st.accounts) ∧
    (badKeyO rt.task_id = false →
      ∃ tt st2, processTask env iid pid st rt = .ok (tt, st2) ∧
        projTask tt = obsTaskP rt ∧ st2.accounts = st.accounts) := by
  cases hplat : rt.platform with
  | some p =>
    cases htid : rt.task_id with
    | some s =>
      cases hu : pyUuidParse s with
      | none =>
        refine ⟨fun _ => ⟨"badly formed hexadecimal UUID string", st,
          by simp only [processTask, hplat, htid, hu], rfl⟩, fun hk => ?_⟩
        simp [badKeyO, htid, hu] at hk
      | some tid =>
        refine ⟨fun hk => by simp [badKeyO, htid, hu] at hk, fun _ => ?_⟩
        have hft := finishTask_proj env st tid pid p rt
        exact ⟨(finishTask env st tid pid p rt).1, (finishTask env st tid pid p rt).2,
          by simp only [processTask, hplat, htid, hu],
          by simp [hft.1, obsTaskP, hplat], hft.2⟩
    | none =>
      refine ⟨fun hk => by simp [badKeyO, htid] at hk, fun _ => ?_⟩
      have hft := finishTask_proj env { st with uctr := st.uctr + 1 }
        (env.uuid st.uctr) pid p rt
      exact ⟨(finishTask env { st with uctr := st.uctr + 1 }
          (env.uuid st.uctr) pid p rt).1,
        (finishTask env { st with uctr := st.uctr + 1 }
          (env.uuid st.uctr) pid p rt).2,
        by simp only [processTask, hplat, htid, freshUuid],
        by simp [hft.1, obsTaskP, hplat], hft.2⟩
  | none =>
    cases htid : rt.task_id with
    | some s =>
      cases hu : pyUuidParse s with
      | none =>
        refine ⟨fun _ => ⟨"badly formed hexadecimal UUID string",
          logQualityIssue env st iid "high" "invalid_platform"
            "Task platform was null or invalid, using fallback: Unknown"
            (some (uuidStr pid)) (some "platform")
            (some ProblemVal.originalUnavailable),
          by simp only [processTask, hplat, htid, hu],
          logQualityIssue_accounts env st iid _ _ _ _ _ _⟩, fun hk => ?_⟩
        simp [badKeyO, htid, hu] at hk
      | some tid =>
        refine ⟨fun hk => by simp [badKeyO, htid, hu] at hk, fun _ => ?_⟩
        set stL := logQualityIssue env st iid "high" "invalid_platform"
          "Task platform was null or invalid, using fallback: Unknown"
          (some (uuidStr pid)) (some "platform")
          (some ProblemVal.originalUnavailable) with hstL
        have hft := finishTask_proj env stL tid pid "Unknown" rt
        refine ⟨(finishTask env stL tid pid "Unknown" rt).1,
          (finishTask env stL tid pid "Unknown" rt).2,
          by simp only [processTask, hplat, htid, hu, ← hstL],
          by simp [hft.1, obsTaskP, hplat], ?_⟩
        rw [hft.2, hstL]
        exact logQualityIssue_accounts env st iid _ _ _ _ _ _
    | none =>
      refine ⟨fun hk => by simp [badKeyO, htid] at hk, fun _ => ?_⟩
      set stL := logQualityIssue env st iid "high" "invalid_platform"
        "Task platform was null or invalid, using fallback: Unknown"
        (some (uuidStr pid)) (some "platform")
        (some ProblemVal.originalUnavailable) with hstL
      have hft := finishTask_proj env { stL with uctr := stL.uctr + 1 }
        (env.uuid stL.uctr) pid "Unknown" rt
      refine ⟨(finishTask env { stL with uctr := stL.uctr + 1 }
          (env.uuid stL.uctr) pid "Unknown" rt).1,
        (finishTask env { stL with uctr := stL.uctr + 1 }
          (env.uuid stL.uctr) pid "Unknown" rt).2,
        by simp only [processTask, hplat, htid, freshUuid, ← hstL],
        by simp [hft.1, obsTaskP, hplat], ?_⟩
      rw [hft.2]
      show stL.accounts = st.accounts
      rw [hstL]
      exact logQualityIssue_accounts env st iid _ _ _ _ _ _

theorem processTasks_proj (env : Env) (iid pid : Uuid) :
    ∀ (tasks : List RawTask) (st : EtlState),
    (tasks.any (fun rt => badKeyO rt.task_id) = true →
      ∃ e st2, processTasks env iid pid st tasks = .error (e, st2) ∧
        st2.accounts = st.accounts) ∧
    (tasks.any (fun rt => badKeyO rt.task_id) = false →
      ∃ tts st2, processTasks env iid pid st tasks = .ok (tts, st2) ∧
        tts.map projTask = tasks.map obsTaskP ∧ st2.accounts = st.accounts) := by
  intro tasks
  induction tasks with
  | nil =>
    intro st
    exact ⟨fun hk => by simp at hk, fun _ => ⟨[], st, rfl, rfl, rfl⟩⟩
  | cons rt rest ih =>
    intro st
    constructor
    · intro hk
      rcases hb : badKeyO rt.task_id with _ | _
      · rw [List.any_cons, hb, Bool.false_or] at hk
        obtain ⟨tt, st1, h1, hp1, ha1⟩ := (processTask_proj env iid pid st rt).2 hb
        obtain ⟨e, st2, h2, ha2⟩ := (ih st1).1 hk
        exact ⟨e, st2, by simp only [processTasks, h1, h2], ha2.trans ha1⟩
      · obtain ⟨e, st1, h1, ha1⟩ := (processTask_proj env iid pid st rt).1 hb
        exact ⟨e, st1, by simp only [processTasks, h1], ha1⟩
    · intro hk
      rw [List.any_cons, Bool.or_eq_false_iff] at hk
      obtain ⟨tt, st1, h1, hp1, ha1⟩ := (processTask_proj env iid pid st rt).2 hk.1
      obtain ⟨tts, st2, h2, hp2, ha2⟩ := (ih st1).2 hk.2
      exact ⟨tt :: tts, st2, by simp only [processTasks, h1, h2],
        by simp [hp1, hp2], ha2.trans ha1⟩

theorem mkCleanSalesAttribution_proj (env : Env) (st : EtlState)
    (pid : Uuid) (q : ℚ) :
    (mkCleanSalesAttribution env st pid q).1.toOption.map projSales
        = obsSalesP q := by
  by_cases hq : q ≤ 0 <;>
    simp [mkCleanSalesAttribution, freshUuid, freshNow, hq, projSales,
      obsSalesP, Except.isOk, Except.toOption]

theorem finishProgram_proj (env : Env) (iid : Uuid) (st : EtlState)
    (pid uid : Uuid) (brand : String) (rp : RawProgram) :
    (rp.tasks.any (fun rt => badKeyO rt.task_id) = true →
      ∃ e st2, finishProgram env iid st pid uid brand rp = .error (e, st2) ∧
        st2.accounts = st.accounts) ∧
    (rp.tasks.any (fun rt => badKeyO rt.task_id) = false →
      ∃ pt st2, finishProgram env iid st pid uid brand rp = .ok (pt, st2) ∧
        projProgram pt = (brand, rp.tasks.map obsTaskP,
          rp.sales_attributed.bind obsSalesP) ∧
        st2.accounts = st.accounts) := by
  cases hsa : rp.sales_attributed with
  | none =>
    constructor
    · intro hk
      obtain ⟨e, st2, h2, ha2⟩ := (processTasks_proj env iid pid rp.tasks st).1 hk
      exact ⟨e, st2, by simp only [finishProgram, hsa, h2], ha2⟩
    · intro hk
      obtain ⟨tts, st2, h2, hp2, ha2⟩ :=
        (processTasks_proj env iid pid rp.tasks st).2 hk
      exact ⟨(⟨pid, uid, brand, [], none, none⟩, tts, none), st2,
        by simp only [finishProgram, hsa, h2],
        by simp [projProgram, hp2, hsa], ha2⟩
  | some q =>
    by_cases hq : q ≤ 0
    · set stS := logQualityIssue env
        { st with uctr := st.uctr + 1, tctr := st.tctr + 1 } iid "medium"
        "invalid_sales_amount"
        ("Failed to parse sales amount: " ++ "Amount must be positive")
        (some (uuidStr pid)) (some "sales_attributed")
        (some (ProblemVal.rawSales q)) with hstS
      have hsS : stS.accounts = st.accounts := by
        rw [hstS]; exact logQualityIssue_accounts env _ iid _ _ _ _ _ _
      have hred : ∀ r : Except (String × EtlState) (ProgramTuple × EtlState),
          (match processTasks env iid pid stS rp.tasks with
            | .error e => .error e
            | .ok (tasks, st') =>
              .ok (((⟨pid, uid, brand, [], none, none⟩ : CleanProgram), tasks,
                (none : Option CleanSalesAttribution)), st')) = r →
          finishProgram env iid st pid uid brand rp = r := by
        intro r hr
        rw [← hr]
        simp only [finishProgram, hsa, mkCleanSalesAttribution, freshUuid,
          freshNow, if_pos hq, ← hstS]
      constructor
      · intro hk
        obtain ⟨e, st2, h2, ha2⟩ := (processTasks_proj env iid pid rp.tasks stS).1 hk
        exact ⟨e, st2, hred _ (by rw [h2]), ha2.trans hsS⟩
      · intro hk
        obtain ⟨tts, st2, h2, hp2, ha2⟩ :=
          (processTasks_proj env iid pid rp.tasks stS).2 hk
        exact ⟨(⟨pid, uid, brand, [], none, none⟩, tts, none), st2,
          hred _ (by rw [h2]), by simp [projProgram, hp2, hsa, obsSalesP, hq],
          ha2.trans hsS⟩
    · set st2m := { st with uctr := st.uctr + 1, tctr := st.tctr + 1 }
        with hst2m
      have hs2 : st2m.accounts = st.accounts := by rw [hst2m]
      set sa := (⟨env.uuid st.uctr, pid, q, "USD", env.now st.tctr, []⟩ :
        CleanSalesAttribution) with hsadef
      have hred : ∀ r : Except (String × EtlState) (ProgramTuple × EtlState),
          (match processTasks env iid pid st2m rp.tasks with
            | .error e => .error e
            | .ok (tasks, st') =>
              .ok (((⟨pid, uid, brand, [], none, none⟩ : CleanProgram), tasks,
                some sa), st')) = r →
          finishProgram env iid st pid uid brand rp = r := by
        intro r hr
        rw [← hr]
        simp only [finishProgram, hsa, mkCleanSalesAttribution, freshUuid,
          freshNow, if_neg hq, ← hst2m, ← hsadef]
      constructor
      · intro hk
        obtain ⟨e, st2, h2, ha2⟩ :=
          (processTasks_proj env iid pid rp.tasks st2m).1 hk
        exact ⟨e, st2, hred _ (by rw [h2]), ha2.trans hs2⟩
      · intro hk
        obtain ⟨tts, st2, h2, hp2, ha2⟩ :=
          (processTasks_proj env iid pid rp.tasks st2m).2 hk
        refine ⟨(⟨pid, uid, brand, [], none, none⟩, tts, some sa), st2,
          hred _ (by rw [h2]), ?_, ha2.trans hs2⟩
        simp [projProgram, hp2, hsa, obsSalesP, hq, hsadef, projSales]

theorem processProgram_proj (env : Env) (iid uid : Uuid) (st : EtlState)
    (rp : RawProgram) :
    (progFails rp = true →
      ∃ e st2, processProgram env iid uid st rp = .error (e, st2) ∧
        st2.accounts = st.accounts) ∧
    (progFails rp = false →
      ∃ pt st2, processProgram env iid uid st rp = .ok (pt, st2) ∧
        projProgram pt = obsProgramP rp ∧ st2.accounts = st.accounts) := by
  cases hb : rp.brand with
  | some b =>
    cases hk : rp.program_id with
    | some s =>
      cases hu : pyUuidParse s with
      | none =>
        refine ⟨fun _ => ⟨"badly formed hexadecimal UUID string", st,
          by simp only [processProgram, hb, hk, hu], rfl⟩, fun hf => ?_⟩
        simp [progFails, badKeyO, hk, hu] at hf
      | some pid =>
        have hkey : badKeyO rp.program_id = false := by simp [badKeyO, hk, hu]
        constructor
        · intro hf
          rw [progFails, hkey, Bool.false_or] at hf
          obtain ⟨e, st2, h2, ha2⟩ :=
            (finishProgram_proj env iid st pid uid b rp).1 hf
          exact ⟨e, st2, by simp only [processProgram, hb, hk, hu, h2], ha2⟩
        · intro hf
          rw [progFails, hkey, Bool.false_or] at hf
          obtain ⟨pt, st2, h2, hp2, ha2⟩ :=
            (finishProgram_proj env iid st pid uid b rp).2 hf
          exact ⟨pt, st2, by simp only [processProgram, hb, hk, hu, h2],
            by simp [hp2, obsProgramP, hb], ha2⟩
    | none =>
      have hkey : badKeyO rp.program_id = false := by simp [badKeyO, hk]
      constructor
      · intro hf
        rw [progFails, hkey, Bool.false_or] at hf
        obtain ⟨e, st2, h2, ha2⟩ := (finishProgram_proj env iid
          { st with uctr := st.uctr + 1 } (env.uuid st.uctr) uid b rp).1 hf
        exact ⟨e, st2, by simp only [processProgram, hb, hk, freshUuid, h2], ha2⟩
      · intro hf
        rw [progFails, hkey, Bool.false_or] at hf
        obtain ⟨pt, st2, h2, hp2, ha2⟩ := (finishProgram_proj env iid
          { st with uctr := st.uctr + 1 } (env.uuid st.uctr) uid b rp).2 hf
        exact ⟨pt, st2, by simp only [processProgram, hb, hk, freshUuid, h2],
          by simp [hp2, obsProgramP, hb], ha2⟩
  | none =>
    set stB := logQualityIssue env st iid "medium" "missing_brand"
      "Program brand was null, empty, or numeric value - using fallback: Unknown"
      (some (uuidStr uid)) (some "brand") none with hstB
    have hsB : stB.accounts = st.accounts := by
      rw [hstB]; exact logQualityIssue_accounts env st iid _ _ _ _ _ _
    cases hk : rp.program_id with
    | some s =>
      cases hu : pyUuidParse s with
      | none =>
        refine ⟨fun _ => ⟨"badly formed hexadecimal UUID string", stB,
          by simp only [processProgram, hb, hk, hu, ← hstB], hsB⟩, fun hf => ?_⟩
        simp [progFails, badKeyO, hk, hu] at hf
      | some pid =>
        have hkey : badKeyO rp.program_id = false := by simp [badKeyO, hk, hu]
        constructor
        · intro hf
          rw [progFails, hkey, Bool.false_or] at hf
          obtain ⟨e, st2, h2, ha2⟩ :=
            (finishProgram_proj env iid stB pid uid "Unknown" rp).1 hf
          exact ⟨e, st2, by simp only [processProgram, hb, hk, hu, ← hstB, h2],
            ha2.trans hsB⟩
        · intro hf
          rw [progFails, hkey, Bool.false_or] at hf
          obtain ⟨pt, st2, h2, hp2, ha2⟩ :=
            (finishProgram_proj env iid stB pid uid "Unknown" rp).2 hf
          exact ⟨pt, st2, by simp only [processProgram, hb, hk, hu, ← hstB, h2],
            by simp [hp2, obsProgramP, hb], ha2.trans hsB⟩
    | none =>
      have hkey : badKeyO rp.program_id = false := by simp [badKeyO, hk]
      constructor
      · intro hf
        rw [progFails, hkey, Bool.false_or] at hf
        obtain ⟨e, st2, h2, ha2⟩ := (finishProgram_proj env iid
          { stB with uctr := stB.uctr + 1 } (env.uuid stB.uctr) uid
          "Unknown" rp).1 hf
        refine ⟨e, st2,
          by simp only [processProgram, hb, hk, freshUuid, ← hstB, h2], ?_⟩
        rw [ha2]
        show stB.accounts = st.accounts
        exact hsB
      · intro hf
        rw [progFails, hkey, Bool.false_or] at hf
        obtain ⟨pt, st2, h2, hp2, ha2⟩ := (finishProgram_proj env iid
          { stB with uctr := stB.uctr + 1 } (env.uuid stB.uctr) uid
          "Unknown" rp).2 hf
        refine ⟨pt, st2,
          by simp only [processProgram, hb, hk, freshUuid, ← hstB, h2],
          by simp [hp2, obsProgramP, hb], ?_⟩
        rw [ha2]
        show stB.accounts = st.accounts
        exact hsB

theorem processPrograms_proj (env : Env) (iid uid : Uuid) :
    ∀ (progs : List RawProgram) (st : EtlState),
    (progs.any progFails = true →
      ∃ e st2, processPrograms env iid uid st progs = .error (e, st2) ∧
        st2.accounts = st.accounts) ∧
    (progs.any progFails = false →
      ∃ pts st2, processPrograms env iid uid st progs = .ok (pts, st2) ∧
        pts.map projProgram = progs.map obsProgramP ∧
        st2.accounts = st.accounts) := by
  intro progs
  induction progs with
  | nil =>
    intro st
    exact ⟨fun hk => by simp at hk, fun _ => ⟨[], st, rfl, rfl, rfl⟩⟩
  | cons rp rest ih =>
    intro st
    constructor
    · intro hk
      rcases hbf : progFails rp with _ | _
      · rw [List.any_cons, hbf, Bool.false_or] at hk
        obtain ⟨pt, st1, h1, hp1, ha1⟩ := (processProgram_proj env iid uid st rp).2 hbf
        obtain ⟨e, st2, h2, ha2⟩ := (ih st1).1 hk
        exact ⟨e, st2, by simp only [processPrograms, h1, h2], ha2.trans ha1⟩
      · obtain ⟨e, st1, h1, ha1⟩ := (processProgram_proj env iid uid st rp).1 hbf
        exact ⟨e, st1, by simp only [processPrograms, h1], ha1⟩
    · intro hk
      rw [List.any_cons, Bool.or_eq_false_iff] at hk
      obtain ⟨pt, st1, h1, hp1, ha1⟩ := (processProgram_proj env iid uid st rp).2 hk.1
      obtain ⟨pts, st2, h2, hp2, ha2⟩ := (ih st1).2 hk.2
      exact ⟨pt :: pts, st2, by simp only [processPrograms, h1, h2],
        by simp [hp1, hp2], ha2.trans ha1⟩

theorem cacheInv_of_accounts_eq {st st' : EtlState}
    (h : st'.accounts = st.accounts) (hinv : cacheInv st) : cacheInv st' := by
  intro p hp
  exact hinv p (h ▸ hp)

theorem isPlaceholderEmail_mk (m : String) :
    isPlaceholderEmail ("noemail_" ++ m ++ "@placeholder.local") = true := by
  rw [isPlaceholderEmail, Bool.and_eq_true, List.isPrefixOf_iff_prefix,
    List.isSuffixOf_iff_suffix]
  constructor
  · rw [String.data_append, String.data_append, List.append_assoc]
    exact List.prefix_append _ _
  · rw [String.data_append]
    exact List.suffix_append _ _

theorem cacheLookup_email {cache : List (String × CleanAdvocateAccount)}
    {e : String} {a : CleanAdvocateAccount}
    (hinv : ∀ p ∈ cache, (Prod.snd p).email = p.1)
    (h : cacheLookup cache e = some a) : a.email = e := by
  unfold cacheLookup at h
  cases hf : cache.find? (fun p => p.1 = e) with
  | none => rw [hf] at h; simp at h
  | some p =>
    rw [hf] at h
    simp only [Option.map_some'] at h
    have hmem := List.mem_of_find?_eq_some hf
    have hpred := List.find?_some hf
    have he : p.1 = e := by simpa using hpred
    have ha : p.2 = a := Option.some.inj h
    rw [← ha, hinv p hmem, he]

theorem resolveAccount_placeholder (env : Env) (iid : Uuid) (st : EtlState)
    (ru : RawAdvocateUser)
    (hg : getOrCreateAdvocateAccount env st ru.email = (none, st))
    (hinv : cacheInv st) :
    maskEmail (resolveAccount env iid st ru).1.email = none ∧
    cacheInv (resolveAccount env iid st ru).2 := by
  have hml : maskEmail ("noemail_" ++ uuidStr (env.uuid st.uctr)
      ++ "@placeholder.local") = none := by
    rw [maskEmail, if_pos (isPlaceholderEmail_mk (uuidStr (env.uuid st.uctr)))]
  constructor
  · have h1 : (resolveAccount env iid st ru).1.email
        = "noemail_" ++ uuidStr (env.uuid st.uctr) ++ "@placeholder.local" := by
      simp only [resolveAccount, hg, freshUuid]
    rw [h1, hml]
  · have h2 : (resolveAccount env iid st ru).2.accounts
        = ("noemail_" ++ uuidStr (env.uuid st.uctr) ++ "@placeholder.local",
            (⟨env.uuid (st.uctr + 1),
              "noemail_" ++ uuidStr (env.uuid st.uctr) ++ "@placeholder.local",
              []⟩ : CleanAdvocateAccount)) :: st.accounts := by
      simp only [resolveAccount, hg, freshUuid, logQualityIssue_accounts]
    intro p hp
    rw [h2] at hp
    rcases List.mem_cons.mp hp with rfl | hmem
    · rfl
    · exact hinv p hmem

theorem resolveAccount_proj (env : Env) (iid : Uuid) (st : EtlState)
    (ru : RawAdvocateUser) (hinv : cacheInv st) :
    maskEmail (resolveAccount env iid st ru).1.email = emailObs ru.email ∧
    cacheInv (resolveAccount env iid st ru).2 := by
  cases he : ru.email with
  | none =>
    have hg : getOrCreateAdvocateAccount env st ru.email = (none, st) := by
      rw [he]; rfl
    obtain ⟨h1, h2⟩ := resolveAccount_placeholder env iid st ru hg hinv
    exact ⟨h1.trans rfl, h2⟩
  | some e =>
    by_cases he0 : e = ""
    · have hg : getOrCreateAdvocateAccount env st ru.email = (none, st) := by
        rw [he, he0]; rfl
      obtain ⟨h1, h2⟩ := resolveAccount_placeholder env iid st ru hg hinv
      refine ⟨h1.trans ?_, h2⟩
      rw [emailObs, he0, if_pos rfl]
    · cases hc : cacheLookup st.accounts (pyLower e) with
      | some a =>
        have hg : getOrCreateAdvocateAccount env st ru.email = (some a, st) := by
          simp only [getOrCreateAdvocateAccount, he, hc, if_neg he0]
        have hr : resolveAccount env iid st ru = (a, st) := by
          simp only [resolveAccount, hg]
        rw [hr]
        refine ⟨?_, hinv⟩
        rw [cacheLookup_email hinv hc, emailObs, if_neg he0]
      | none =>
        have hg : getOrCreateAdvocateAccount env st ru.email
            = (some (⟨env.uuid st.uctr, pyLower e, []⟩ : CleanAdvocateAccount),
              { st with
                  uctr := st.uctr + 1
                  accounts := (pyLower e,
                    (⟨env.uuid st.uctr, pyLower e, []⟩ :
                      CleanAdvocateAccount)) :: st.accounts
                  accountsCreated := st.accountsCreated + 1 }) := by
          simp only [getOrCreateAdvocateAccount, he, hc, if_neg he0, freshUuid]
        have hr : resolveAccount env iid st ru
            = ((⟨env.uuid st.uctr, pyLower e, []⟩ : CleanAdvocateAccount),
              { st with
                  uctr := st.uctr + 1
                  accounts := (pyLower e,
                    (⟨env.uuid st.uctr, pyLower e, []⟩ :
                      CleanAdvocateAccount)) :: st.accounts
                  accountsCreated := st.accountsCreated + 1 }) := by
          simp only [resolveAccount, hg]
        rw [hr]
        constructor
        · rw [emailObs, if_neg he0]
        · intro p hp
          rcases List.mem_cons.mp hp with rfl | hmem
          · rfl
          · exact hinv p hmem

theorem userIdStep_proj (env : Env) (st : EtlState) (ru : RawAdvocateUser) :
    (badKeyO ru.user_id = true →
      ∃ e, userIdStep env st ru = .error (e, st)) ∧
    (badKeyO ru.user_id = false →
      ∃ uid st2, userIdStep env st ru = .ok (uid, st2) ∧
        st2.accounts = st.accounts) := by
  cases hk : ru.user_id with
  | none =>
    exact ⟨fun hb => by simp [badKeyO, hk] at hb,
      fun _ => ⟨env.uuid st.uctr, { st with uctr := st.uctr + 1 },
        by simp only [userIdStep, hk, freshUuid], rfl⟩⟩
  | some s =>
    cases hu : pyUuidParse s with
    | none =>
      refine ⟨fun _ => ⟨"badly formed hexadecimal UUID string",
        by simp only [userIdStep, hk, hu]⟩, fun hb => ?_⟩
      simp [badKeyO, hk, hu] at hb
    | some v =>
      refine ⟨fun hb => by simp [badKeyO, hk, hu] at hb,
        fun _ => ⟨v, st, by simp only [userIdStep, hk, hu], rfl⟩⟩

theorem logUserIssues_accounts (env : Env) (iid : Uuid) (st : EtlState)
    (ru : RawAdvocateUser) (uid : Uuid) :
    (logUserIssues env iid st ru uid).accounts = st.accounts := by
  unfold logUserIssues
  by_cases h1 : ru.user_id = none <;> by_cases h2 : ru.name = none <;>
    by_cases h3 : ru.email = none <;>
    simp [h1, h2, h3, logQualityIssue, freshUuid]

theorem processParsed_proj (env : Env) (iid : Uuid) (st : EtlState)
    (ru : RawAdvocateUser) (hinv : cacheInv st) :
    (ruFails ru = true →
      ∃ e st2, processParsed env iid st ru = .error (e, st2) ∧ cacheInv st2) ∧
    (ruFails ru = false →
      ∃ t st2, processParsed env iid st ru = .ok (t, st2) ∧
        projTuple t = obsUserP ru ∧ cacheInv st2) := by
  obtain ⟨hm, hinvA⟩ := resolveAccount_proj env iid st ru hinv
  rcases hbu : badKeyO ru.user_id with _ | _
  · obtain ⟨uid, st1, hok, hacc1⟩ :=
      (userIdStep_proj env (resolveAccount env iid st ru).2 ru).2 hbu
    have hinv1 : cacheInv st1 := cacheInv_of_accounts_eq hacc1 hinvA
    have hinvL : cacheInv (logUserIssues env iid st1 ru uid) :=
      cacheInv_of_accounts_eq (logUserIssues_accounts env iid st1 ru uid) hinv1
    constructor
    · intro hf
      rw [ruFails, hbu, Bool.false_or] at hf
      obtain ⟨e, st2, herr, hacc2⟩ := (processPrograms_proj env iid uid
        ru.advocacy_programs (logUserIssues env iid st1 ru uid)).1 hf
      exact ⟨e, st2, by simp only [processParsed, hok, herr],
        cacheInv_of_accounts_eq hacc2 hinvL⟩
    · intro hf
      rw [ruFails, hbu, Bool.false_or] at hf
      obtain ⟨pts, st2, hokp, hproj, hacc2⟩ := (processPrograms_proj env iid uid
        ru.advocacy_programs (logUserIssues env iid st1 ru uid)).2 hf
      refine ⟨(⟨uid, (resolveAccount env iid st ru).1.account_id, ru.name,
          ru.instagram_handle, ru.tiktok_handle, ru.joined_at, []⟩, pts,
          (resolveAccount env iid st ru).1), st2,
        by simp only [processParsed, hok, hokp], ?_,
        cacheInv_of_accounts_eq hacc2 hinvL⟩
      rw [projTuple, obsUserP]
      simp only [projUser, hproj, hm]
  · obtain ⟨e, herr⟩ :=
      (userIdStep_proj env (resolveAccount env iid st ru).2 ru).1 hbu
    constructor
    · intro _
      exact ⟨e, (resolveAccount env iid st ru).2,
        by simp only [processParsed, herr], hinvA⟩
    · intro hf
      rw [ruFails, hbu] at hf
      simp at hf

theorem processRecord_proj (env : Env) (iid : Uuid) (st : EtlState)
    (j : JsonUser) (hinv : cacheInv st) :
    (processRecord env iid st j).1.map projTuple = obsRecord j ∧
    cacheInv (processRecord env iid st j).2 := by
  cases hpu : parseUser j with
  | error e =>
    constructor
    · simp [processRecord, hpu, obsRecord]
    · exact cacheInv_of_accounts_eq
        (by simp only [processRecord, hpu, logQualityIssue_accounts]) hinv
  | ok ru =>
    rcases hrf : ruFails ru with _ | _
    · obtain ⟨t, st2, hok, hpj, hinv2⟩ :=
        (processParsed_proj env iid st ru hinv).2 hrf
      constructor
      · simp [processRecord, hpu, hok, obsRecord, hrf, hpj]
      · have : (processRecord env iid st j).2 = st2 := by
          simp only [processRecord, hpu, hok]
        exact this ▸ hinv2
    · obtain ⟨e, st2, herr, hinv2⟩ :=
        (processParsed_proj env iid st ru hinv).1 hrf
      constructor
      · simp [processRecord, hpu, herr, obsRecord, hrf]
      · exact cacheInv_of_accounts_eq
          (by simp only [processRecord, hpu, herr, logQualityIssue_accounts])
          hinv2

theorem transformLoop_proj (env : Env) (iid : Uuid) :
    ∀ (input : List JsonUser) (st : EtlState), cacheInv st →
    (transformLoop env iid st input).1.map projTuple
      = input.filterMap obsRecord := by
  intro input
  induction input with
  | nil => intro st _; simp [transformLoop]
  | cons j rest ih =>
    intro st hinv
    obtain ⟨h1, h2⟩ := processRecord_proj env iid st j hinv
    cases hpr : processRecord env iid st j with
    | mk ot st1 =>
      rw [hpr] at h1 h2
      cases ot with
      | some t =>
        have h1x : obsRecord j = some (projTuple t) := by rw [← h1]; rfl
        simp only [transformLoop, hpr, List.map_cons, List.filterMap_cons, h1x,
          ih st1 h2]
      | none =>
        have h1x : obsRecord j = none := by rw [← h1]; rfl
        simp only [transformLoop, hpr, List.filterMap_cons, h1x]
        exact ih st1 h2

theorem runTransform_proj (env : Env) (input : List JsonUser) :
    (runTransform env input).2.1.map projTuple = input.filterMap obsRecord := by
  have h := transformLoop_proj env (env.uuid 0) input
    { uctr := 1 } (fun p hp => absurd hp (List.not_mem_nil p))
  simpa only [runTransform, freshUuid] using h

/-- C3 counterexample: two executions of transform_user_data on the same
raw input and the same uuid4 supply, differing only in the datetime.now()
supply, disagree on the measured_at timestamp of the emitted analytics
record.  measured_at is a non-identity field (a timestamp, not a generated
key), so the outputs do not agree on every non-identity field as claimed:
CleanSocialAnalytics.measured_at and CleanSalesAttribution.attributed_at
default to datetime.now() at construction time. -/
theorem transform_determinism_counterexample :
    c3env1.uuid = c3env2.uuid ∧
    (runTransform c3env1 [c3j]).2.1.map
        (fun t => t.2.1.map (fun pt => pt.2.1.map
          (fun tt => tt.2.map (fun a => a.measured_at))))
      ≠ (runTransform c3env2 [c3j]).2.1.map
        (fun t => t.2.1.map (fun pt => pt.2.1.map
          (fun tt => tt.2.map (fun a => a.measured_at)))) :=
  ⟨rfl, by decide⟩

/-- C3 amended: transform_user_data is deterministic on every non-identity,
non-timestamp field.  For a fixed raw input batch, two executions under
arbitrary uuid4 and datetime.now() supplies agree record by record on all
names, emails (with the uuid4-derived placeholder addresses masked),
brands, platforms, URLs, amounts, currencies and floored counters; only
the generated identity keys, the construction-time timestamps measured_at
and attributed_at, and the embedded uuid of placeholder emails may
differ. -/
theorem transform_determinism_amended (env1 env2 : Env)
    (input : List JsonUser) :
    (runTransform env1 input).2.1.map projTuple
      = (runTransform env2 input).2.1.map projTuple :=
  (runTransform_proj env1 input).trans (runTransform_proj env2 input).symm

theorem exbind_ok {α β : Type} (a : α) (f : α → Except Unit β) :
    ((Except.ok a : Except Unit α) >>= f) = f a := rfl

theorem exbind_err {α β : Type} (e : Unit) (f : α → Except Unit β) :
    ((Except.error e : Except Unit α) >>= f) = Except.error e := rfl

theorem execStep_pure {die : Nat → Bool} {f : DB → DB} {ls ls' : LoadSt}
    (h : execStep die f ls = .ok ls') :
    execStep (fun _ => false) f ls = .ok ls' := by
  unfold execStep at h ⊢
  cases hd : die ls.k with
  | true => rw [hd] at h; simp at h
  | false => rw [hd] at h; simpa using h

theorem execAccount_pure {die : Nat → Bool} {a : CleanAdvocateAccount}
    {ls ls' : LoadSt} (h : execAccount die a ls = .ok ls') :
    execAccount (fun _ => false) a ls = .ok ls' := by
  unfold execAccount at h ⊢
  cases hd : die ls.k with
  | true => rw [hd] at h; simp at h
  | false => rw [hd] at h; simpa using h

theorem loadAccounts_pure {die : Nat → Bool} :
    ∀ {l : List CleanTuple} {ls ls' : LoadSt},
    loadAccounts die ls l = .ok ls' →
    loadAccounts (fun _ => false) ls l = .ok ls' := by
  intro l
  induction l with
  | nil => intro ls ls' h; exact h
  | cons t rest ih =>
    intro ls ls' h
    unfold loadAccounts at h ⊢
    by_cases hm : t.2.2.email ∈ ls.processed
    · rw [if_pos hm] at h ⊢
      exact ih h
    · rw [if_neg hm] at h ⊢
      cases he : execAccount die t.2.2 ls with
      | error e => rw [he] at h; simp at h
      | ok ls1 =>
        rw [he] at h
        rw [execAccount_pure he]
        exact ih h

theorem loadAnalyticsStep_pure {die : Nat → Bool}
    {oa : Option CleanSocialAnalytics} {ls ls' : LoadSt}
    (h : loadAnalyticsStep die ls oa = .ok ls') :
    loadAnalyticsStep (fun _ => false) ls oa = .ok ls' := by
  cases oa with
  | none => exact h
  | some an =>
    have h2 : execStep die (fun db => upsertAnalytics db an) ls = .ok ls' := h
    exact execStep_pure h2

theorem loadTask_pure {die : Nat → Bool} {tt : TaskTuple} {ls ls' : LoadSt}
    (h : loadTask die ls tt = .ok ls') :
    loadTask (fun _ => false) ls tt = .ok ls' := by
  unfold loadTask at h ⊢
  cases he : execStep die (fun db => upsertTask db tt.1) ls with
  | error e => rw [he] at h; simp at h
  | ok ls1 =>
    rw [he] at h
    rw [execStep_pure he]
    exact loadAnalyticsStep_pure h

theorem loadTasks_pure {die : Nat → Bool} :
    ∀ {l : List TaskTuple} {ls ls' : LoadSt},
    loadTasks die ls l = .ok ls' →
    loadTasks (fun _ => false) ls l = .ok ls' := by
  intro l
  induction l with
  | nil => intro ls ls' h; exact h
  | cons tt rest ih =>
    intro ls ls' h
    unfold loadTasks at h ⊢
    cases he : loadTask die ls tt with
    | error e => rw [he] at h; simp at h
    | ok ls1 =>
      rw [he] at h
      rw [loadTask_pure he]
      exact ih h

theorem loadSalesStep_pure {die : Nat → Bool}
    {os : Option CleanSalesAttribution} {ls ls' : LoadSt}
    (h : loadSalesStep die ls os = .ok ls') :
    loadSalesStep (fun _ => false) ls os = .ok ls' := by
  cases os with
  | none => exact h
  | some s =>
    have h2 : execStep die (fun db => upsertSales db s) ls = .ok ls' := h
    exact execStep_pure h2

theorem loadProgram_pure {die : Nat → Bool} {pt : ProgramTuple}
    {ls ls' : LoadSt} (h : loadProgram die ls pt = .ok ls') :
    loadProgram (fun _ => false) ls pt = .ok ls' := by
  unfold loadProgram at h ⊢
  cases he : execStep die (fun db => upsertProgram db pt.1) ls with
  | error e => rw [he] at h; simp at h
  | ok ls1 =>
    rw [he] at h
    rw [execStep_pure he]
    simp only at h ⊢
    cases hs : loadSalesStep die ls1 pt.2.2 with
    | error e => rw [hs] at h; simp at h
    | ok ls2 =>
      rw [hs] at h
      rw [loadSalesStep_pure hs]
      exact loadTasks_pure h

theorem loadPrograms_pure {die : Nat → Bool} :
    ∀ {l : List ProgramTuple} {ls ls' : LoadSt},
    loadPrograms die ls l = .ok ls' →
    loadPrograms (fun _ => false) ls l = .ok ls' := by
  intro l
  induction l with
  | nil => intro ls ls' h; exact h
  | cons pt rest ih =>
    intro ls ls' h
    unfold loadPrograms at h ⊢
    cases he : loadProgram die ls pt with
    | error e => rw [he] at h; simp at h
    | ok ls1 =>
      rw [he] at h
      rw [loadProgram_pure he]
      exact ih h

theorem loadUser_pure {die : Nat → Bool} {t : CleanTuple} {ls ls' : LoadSt}
    (h : loadUser die ls t = .ok ls') :
    loadUser (fun _ => false) ls t = .ok ls' := by
  unfold loadUser at h ⊢
  cases hm : mapLookup ls.emailMap t.2.2.email with
  | none => rw [hm] at h; simp at h
  | some aid =>
    rw [hm] at h
    simp only at h ⊢
    cases he : execStep die (fun db => upsertUser db t.1 aid) ls with
    | error e => rw [he] at h; simp at h
    | ok ls1 =>
      rw [he] at h
      rw [execStep_pure he]
      exact loadPrograms_pure h

theorem loadUsers_pure {die : Nat → Bool} :
    ∀ {l : List CleanTuple} {ls ls' : LoadSt},
    loadUsers die ls l = .ok ls' →
    loadUsers (fun _ => false) ls l = .ok ls' := by
  intro l
  induction l with
  | nil => intro ls ls' h; exact h
  | cons t rest ih =>
    intro ls ls' h
    unfold loadUsers at h ⊢
    cases he : loadUser die ls t with
    | error e => rw [he] at h; simp at h
    | ok ls1 =>
      rw [he] at h
      rw [loadUser_pure he]
      exact ih h

theorem loadIssues_pure {die : Nat → Bool} :
    ∀ {l : List DataQualityIssue} {ls ls' : LoadSt},
    loadIssues die ls l = .ok ls' →
    loadIssues (fun _ => false) ls l = .ok ls' := by
  intro l
  induction l with
  | nil => intro ls ls' h; exact h
  | cons i rest ih =>
    intro ls ls' h
    unfold loadIssues at h ⊢
    cases he : execStep die (fun db => insertIssue db i) ls with
    | error e => rw [he] at h; simp at h
    | ok ls1 =>
      rw [he] at h
      rw [execStep_pure he]
      exact ih h

theorem loadBody_pure {die : Nat → Bool} {db : DB} {clean : List CleanTuple}
    {issues : List DataQualityIssue} {iid : Uuid} {ls' : LoadSt}
    (h : loadBody die db clean issues iid = .ok ls') :
    loadBody (fun _ => false) db clean issues iid = .ok ls' := by
  unfold loadBody at h ⊢
  cases h1 : execStep die id { pending := db } with
  | error e =>
    rw [h1] at h
    simp only [exbind_err] at h
    exact Except.noConfusion h
  | ok ls1 =>
    rw [h1] at h
    rw [execStep_pure h1]
    simp only [exbind_ok] at h ⊢
    cases h2 : execStep die (fun d => insertImport d iid) ls1 with
    | error e =>
      rw [h2] at h
      simp only [exbind_err] at h
      exact Except.noConfusion h
    | ok ls2 =>
      rw [h2] at h
      rw [execStep_pure h2]
      simp only [exbind_ok] at h ⊢
      cases h3 : loadAccounts die ls2 clean with
      | error e =>
        rw [h3] at h
        simp only [exbind_err] at h
        exact Except.noConfusion h
      | ok ls3 =>
        rw [h3] at h
        rw [loadAccounts_pure h3]
        simp only [exbind_ok] at h ⊢
        cases h4 : loadUsers die ls3 clean with
        | error e =>
          rw [h4] at h
          simp only [exbind_err] at h
          exact Except.noConfusion h
        | ok ls4 =>
          rw [h4] at h
          rw [loadUsers_pure h4]
          simp only [exbind_ok] at h ⊢
          cases h5 : loadIssues die ls4 issues with
          | error e =>
            rw [h5] at h
            simp only [exbind_err] at h
            exact Except.noConfusion h
          | ok ls5 =>
            rw [h5] at h
            rw [loadIssues_pure h5]
            simp only [exbind_ok] at h ⊢
            exact execStep_pure h

/-- C1: atomicity of load_to_database.  For every failure pattern of the
statement oracle, either some statement (or the final commit) raises, in
which case the call reports the propagated exception and the durable
database is exactly the pre-call database (the whole transaction is rolled
back, no partial write is observable), or nothing raises, in which case the
call reports success and the durable database is the one produced by the
failure-free run: raw-import metadata, accounts, users, programs, sales,
tasks, analytics and quality issues all commit together or not at all. -/
theorem load_to_database_atomicity (die : Nat → Bool) (db : DB)
    (clean : List CleanTuple) (issues : List DataQualityIssue) (iid : Uuid) :
    loadToDatabase die db clean issues iid = (true, db) ∨
      (loadToDatabase die db clean issues iid
          = loadToDatabase (fun _ => false) db clean issues iid ∧
        (loadToDatabase die db clean issues iid).1 = false) := by
  cases hb : loadBody die db clean issues iid with
  | error e =>
    left
    simp only [loadToDatabase, hb]
  | ok ls =>
    cases hd : die ls.k with
    | true =>
      left
      simp [loadToDatabase, hb, hd]
    | false =>
      right
      have hp := loadBody_pure hb
      constructor
      · simp [loadToDatabase, hb, hp, hd]
      · simp [loadToDatabase, hb, hd]

theorem find?_append_some {α : Type} {p : α → Bool} {l₁ l₂ : List α} {x : α}
    (h : l₁.find? p = some x) : (l₁ ++ l₂).find? p = some x := by
  induction l₁ with
  | nil => simp [List.find?] at h
  | cons a l ih =>
    rw [List.cons_append]
    rw [List.find?_cons] at h ⊢
    cases hp : p a with
    | true => rw [hp] at h; simpa using h
    | false => rw [hp] at h; exact ih h

theorem find?_append_none {α : Type} {p : α → Bool} {l₁ l₂ : List α}
    (h : l₁.find? p = none) : (l₁ ++ l₂).find? p = l₂.find? p := by
  induction l₁ with
  | nil => rfl
  | cons a l ih =>
    rw [List.find?_cons] at h
    cases hp : p a with
    | true => rw [hp] at h; simp at h
    | false =>
      rw [hp] at h
      rw [List.cons_append, List.find?_cons]
      simp only [hp]
      exact ih h

theorem insertImport_accounts (db : DB) (iid : Uuid) :
    (insertImport db iid).accounts = db.accounts := by
  unfold insertImport; split <;> rfl

theorem upsertUser_accounts (db : DB) (u : CleanAdvocateUser) (aid : Uuid) :
    (upsertUser db u aid).accounts = db.accounts := by
  unfold upsertUser; split <;> rfl

theorem upsertProgram_accounts (db : DB) (p : CleanProgram) :
    (upsertProgram db p).accounts = db.accounts := by
  unfold upsertProgram; split <;> rfl

theorem upsertSales_accounts (db : DB) (s : CleanSalesAttribution) :
    (upsertSales db s).accounts = db.accounts := by
  unfold upsertSales; split <;> rfl

theorem upsertTask_accounts (db : DB) (t : CleanTask) :
    (upsertTask db t).accounts = db.accounts := by
  unfold upsertTask; split <;> rfl

theorem upsertAnalytics_accounts (db : DB) (a : CleanSocialAnalytics) :
    (upsertAnalytics db a).accounts = db.accounts := by
  unfold upsertAnalytics; split <;> rfl

theorem insertIssue_accounts (db : DB) (i : DataQualityIssue) :
    (insertIssue db i).accounts = db.accounts := rfl

theorem updateImportCompleted_accounts (db : DB) (iid : Uuid) (n : Nat) :
    (updateImportCompleted db iid n).accounts = db.accounts := rfl

theorem execStep_false (f : DB → DB) (ls : LoadSt) :
    execStep (fun _ => false) f ls
      = .ok { ls with pending := f ls.pending, k := ls.k + 1 } := rfl

theorem execAccount_false (a : CleanAdvocateAccount) (ls : LoadSt) :
    execAccount (fun _ => false) a ls = .ok { ls with
      pending := (upsertAccount ls.pending a).1
      k := ls.k + 1
      emailMap := ls.emailMap ++ [(a.email, (upsertAccount ls.pending a).2)]
      processed := ls.processed ++ [a.email]
      accUpserts := ls.accUpserts + 1 } := rfl

theorem upsertAccount_spec (db : DB) (a : CleanAdvocateAccount)
    (hnd : (db.accounts.map (fun r => r.email)).Nodup) :
    accountIdOf (upsertAccount db a).1 a.email = some (upsertAccount db a).2 ∧
    (∀ e aid, accountIdOf db e = some aid →
      accountIdOf (upsertAccount db a).1 e = some aid) ∧
    ((upsertAccount db a).1.accounts.map (fun r => r.email)).Nodup := by
  cases hf : db.accounts.find? (fun r => r.email = a.email) with
  | some r =>
    have hall : ∀ e, accountIdOf (upsertAccount db a).1 e = accountIdOf db e := by
      intro e
      have hres : (upsertAccount db a).1.accounts = db.accounts.map
          (fun x => if x.email = a.email then { x with metadata := a.metadata }
            else x) := by
        simp only [upsertAccount, hf]
      rw [accountIdOf, accountIdOf, hres, List.find?_map]
      have hcomp : ((fun r : AccountRow => decide (r.email = e)) ∘
          (fun x : AccountRow => if x.email = a.email then
            { x with metadata := a.metadata } else x))
          = (fun r : AccountRow => decide (r.email = e)) := by
        funext x
        by_cases hx : x.email = a.email <;> simp [hx]
      rw [hcomp]
      cases hg : db.accounts.find? (fun r => decide (r.email = e)) with
      | none => simp
      | some r2 =>
        by_cases hx : r2.email = a.email <;> simp [hx]
    have hmap : (upsertAccount db a).1.accounts.map (fun r => r.email)
        = db.accounts.map (fun r => r.email) := by
      have hres : (upsertAccount db a).1.accounts = db.accounts.map
          (fun x => if x.email = a.email then { x with metadata := a.metadata }
            else x) := by
        simp only [upsertAccount, hf]
      rw [hres, List.map_map]
      congr 1
      funext x
      by_cases hx : x.email = a.email <;> simp [hx]
    refine ⟨?_, fun e aid h => by rw [hall]; exact h, by rw [hmap]; exact hnd⟩
    rw [hall]
    have h2 : (upsertAccount db a).2 = r.account_id := by
      simp only [upsertAccount, hf]
    rw [h2, accountIdOf, hf]
    rfl
  | none =>
    have hres : (upsertAccount db a).1.accounts
        = db.accounts ++ [⟨a.account_id, a.email, a.metadata⟩] := by
      simp only [upsertAccount, hf]
    have h2 : (upsertAccount db a).2 = a.account_id := by
      simp only [upsertAccount, hf]
    refine ⟨?_, ?_, ?_⟩
    · rw [accountIdOf, hres, find?_append_none hf, h2]
      simp [List.find?_cons]
    · intro e aid h
      rw [accountIdOf] at h ⊢
      rw [hres]
      cases hg : db.accounts.find? (fun r => r.email = e) with
      | none => rw [hg] at h; simp at h
      | some r2 =>
        rw [hg] at h
        rw [find?_append_some hg]
        exact h
    · rw [hres, List.map_append]
      have hnotin : a.email ∉ db.accounts.map (fun r => r.email) := by
        intro hmem
        obtain ⟨r2, hr2, he2⟩ := List.mem_map.mp hmem
        have := List.find?_eq_none.mp hf r2 hr2
        simp [he2] at this
      simp only [List.map_cons, List.map_nil]
      rw [List.nodup_append]
      refine ⟨hnd, List.nodup_singleton _, ?_⟩
      intro x hx hx2
      rw [List.mem_singleton] at hx2
      exact hnotin (hx2 ▸ hx)

theorem mapLookup_accountIdOf {m : List (String × Uuid)} {db : DB} {e : String}
    (hall : ∀ p ∈ m, accountIdOf db p.1 = some p.2)
    (hmem : e ∈ m.map Prod.fst) :
    mapLookup m e = accountIdOf db e := by
  unfold mapLookup
  cases hf : m.find? (fun p => p.1 = e) with
  | none =>
    obtain ⟨p0, hp0, he0⟩ := List.mem_map.mp hmem
    have := List.find?_eq_none.mp hf p0 hp0
    simp [he0] at this
  | some p0 =>
    have hmem0 := List.mem_of_find?_eq_some hf
    have hpred := List.find?_some hf
    have he0 : p0.1 = e := by simpa using hpred
    rw [← he0, hall p0 hmem0]
    rfl

theorem loadAccounts_spec :
    ∀ (l : List CleanTuple) (ls : LoadSt),
    (ls.pending.accounts.map (fun r => r.email)).Nodup →
    (∀ p ∈ ls.emailMap, accountIdOf ls.pending p.1 = some p.2) →
    ls.processed = ls.emailMap.map Prod.fst →
    ls.processed.Nodup →
    ∃ ls', loadAccounts (fun _ => false) ls l = .ok ls' ∧
      (ls'.pending.accounts.map (fun r => r.email)).Nodup ∧
      (∀ p ∈ ls'.emailMap, accountIdOf ls'.pending p.1 = some p.2) ∧
      ls'.processed = ls'.emailMap.map Prod.fst ∧
      ls'.processed.Nodup ∧
      (∀ e aid, accountIdOf ls.pending e = some aid →
        accountIdOf ls'.pending e = some aid) ∧
      (∀ e, e ∈ ls'.processed ↔
        (e ∈ ls.processed ∨ e ∈ l.map (fun t => t.2.2.email))) ∧
      ls'.accUpserts + ls.processed.length
        = ls.accUpserts + ls'.processed.length ∧
      ls'.userWrites = ls.userWrites := by
  intro l
  induction l with
  | nil =>
    intro ls h1 h2 h3 h4
    exact ⟨ls, rfl, h1, h2, h3, h4, fun e aid h => h, fun e => by simp, rfl, rfl⟩
  | cons t rest ih =>
    intro ls h1 h2 h3 h4
    by_cases hm : t.2.2.email ∈ ls.processed
    · obtain ⟨ls', hrun, g1, g2, g3, g4, g5, g6, g7, g8⟩ := ih ls h1 h2 h3 h4
      refine ⟨ls', ?_, g1, g2, g3, g4, g5, ?_, g7, g8⟩
      · rw [loadAccounts, if_pos hm]
        exact hrun
      · intro e
        rw [g6 e, List.map_cons, List.mem_cons]
        constructor
        · rintro (h | h)
          · exact Or.inl h
          · exact Or.inr (Or.inr h)
        · rintro (h | h | h)
          · exact Or.inl h
          · exact Or.inl (h ▸ hm)
          · exact Or.inr h
    · obtain ⟨hid, hext, hnd2⟩ := upsertAccount_spec ls.pending t.2.2 h1
      set ls1 : LoadSt := { ls with
        pending := (upsertAccount ls.pending t.2.2).1
        k := ls.k + 1
        emailMap := ls.emailMap ++ [(t.2.2.email,
          (upsertAccount ls.pending t.2.2).2)]
        processed := ls.processed ++ [t.2.2.email]
        accUpserts := ls.accUpserts + 1 } with hls1
      have i2 : ∀ p ∈ ls1.emailMap, accountIdOf ls1.pending p.1 = some p.2 := by
        intro p hp
        rw [hls1] at hp
        simp only [List.mem_append, List.mem_singleton] at hp
        rcases hp with hp | hp
        · exact hext p.1 p.2 (h2 p hp)
        · rw [hp]
          exact hid
      have i3 : ls1.processed = ls1.emailMap.map Prod.fst := by
        rw [hls1]
        simp only [List.map_append, List.map_cons, List.map_nil]
        rw [← h3]
      have i4 : ls1.processed.Nodup := by
        rw [hls1]
        simp only []
        rw [List.nodup_append]
        refine ⟨h4, List.nodup_singleton _, ?_⟩
        intro x hx hx2
        rw [List.mem_singleton] at hx2
        exact hm (hx2 ▸ hx)
      obtain ⟨ls', hrun, g1, g2, g3, g4, g5, g6, g7, g8⟩ := ih ls1 hnd2 i2 i3 i4
      refine ⟨ls', ?_, g1, g2, g3, g4, ?_, ?_, ?_, g8⟩
      · rw [loadAccounts, if_neg hm, execAccount_false]
        exact hrun
      · intro e aid h
        exact g5 e aid (hext e aid h)
      · intro e
        rw [g6 e, List.map_cons, List.mem_cons]
        have hpr : e ∈ ls1.processed ↔ e ∈ ls.processed ∨ e = t.2.2.email := by
          rw [hls1]
          simp
        rw [hpr]
        constructor
        · rintro ((h | h) | h)
          · exact Or.inl h
          · exact Or.inr (Or.inl h)
          · exact Or.inr (Or.inr h)
        · rintro (h | h | h)
          · exact Or.inl (Or.inl h)
          · exact Or.inl (Or.inr h)
          · exact Or.inr h
      · have hlen : ls1.processed.length = ls.processed.length + 1 := by
          rw [hls1]; simp
        have hacc : ls1.accUpserts = ls.accUpserts + 1 := by rw [hls1]
        omega

theorem loadFrame_rfl (ls : LoadSt) : LoadFrame ls ls :=
  ⟨rfl, rfl, rfl, rfl, rfl⟩

theorem loadFrame_trans {ls1 ls2 ls3 : LoadSt}
    (h1 : LoadFrame ls1 ls2) (h2 : LoadFrame ls2 ls3) : LoadFrame ls1 ls3 :=
  ⟨h2.1.trans h1.1, h2.2.1.trans h1.2.1, h2.2.2.1.trans h1.2.2.1,
    h2.2.2.2.1.trans h1.2.2.2.1, h2.2.2.2.2.trans h1.2.2.2.2⟩

theorem execStep_frame (f : DB → DB) (ls : LoadSt)
    (hf : ∀ d : DB, (f d).accounts = d.accounts) :
    ∃ ls', execStep (fun _ => false) f ls = .ok ls' ∧ LoadFrame ls ls' :=
  ⟨_, execStep_false f ls, ⟨hf ls.pending, rfl, rfl, rfl, rfl⟩⟩

theorem loadAnalyticsStep_frame (ls : LoadSt)
    (oa : Option CleanSocialAnalytics) :
    ∃ ls', loadAnalyticsStep (fun _ => false) ls oa = .ok ls' ∧
      LoadFrame ls ls' := by
  cases oa with
  | none => exact ⟨ls, rfl, loadFrame_rfl ls⟩
  | some an =>
    exact execStep_frame _ ls (fun d => upsertAnalytics_accounts d an)

theorem loadTask_frame (ls : LoadSt) (tt : TaskTuple) :
    ∃ ls', loadTask (fun _ => false) ls tt = .ok ls' ∧ LoadFrame ls ls' := by
  obtain ⟨ls1, h1, f1⟩ :=
    execStep_frame (fun db => upsertTask db tt.1) ls
      (fun d => upsertTask_accounts d tt.1)
  obtain ⟨ls2, h2, f2⟩ := loadAnalyticsStep_frame ls1 tt.2
  exact ⟨ls2, by rw [loadTask, h1]; exact h2, loadFrame_trans f1 f2⟩

theorem loadTasks_frame :
    ∀ (l : List TaskTuple) (ls : LoadSt),
    ∃ ls', loadTasks (fun _ => false) ls l = .ok ls' ∧ LoadFrame ls ls' := by
  intro l
  induction l with
  | nil => intro ls; exact ⟨ls, rfl, loadFrame_rfl ls⟩
  | cons tt rest ih =>
    intro ls
    obtain ⟨ls1, h1, f1⟩ := loadTask_frame ls tt
    obtain ⟨ls2, h2, f2⟩ := ih ls1
    exact ⟨ls2, by rw [loadTasks, h1]; exact h2, loadFrame_trans f1 f2⟩

theorem loadSalesStep_frame (ls : LoadSt)
    (os : Option CleanSalesAttribution) :
    ∃ ls', loadSalesStep (fun _ => false) ls os = .ok ls' ∧
      LoadFrame ls ls' := by
  cases os with
  | none => exact ⟨ls, rfl, loadFrame_rfl ls⟩
  | some sa =>
    exact execStep_frame _ ls (fun d => upsertSales_accounts d sa)

theorem loadProgram_frame (ls : LoadSt) (pt : ProgramTuple) :
    ∃ ls', loadProgram (fun _ => false) ls pt = .ok ls' ∧ LoadFrame ls ls' := by
  obtain ⟨ls1, h1, f1⟩ :=
    execStep_frame (fun db => upsertProgram db pt.1) ls
      (fun d => upsertProgram_accounts d pt.1)
  obtain ⟨ls2, h2, f2⟩ := loadSalesStep_frame ls1 pt.2.2
  obtain ⟨ls3, h3, f3⟩ := loadTasks_frame pt.2.1 ls2
  exact ⟨ls3, by rw [loadProgram, h1]; simp only; rw [h2]; exact h3,
    loadFrame_trans f1 (loadFrame_trans f2 f3)⟩

theorem loadPrograms_frame :
    ∀ (l : List ProgramTuple) (ls : LoadSt),
    ∃ ls', loadPrograms (fun _ => false) ls l = .ok ls' ∧ LoadFrame ls ls' := by
  intro l
  induction l with
  | nil => intro ls; exact ⟨ls, rfl, loadFrame_rfl ls⟩
  | cons pt rest ih =>
    intro ls
    obtain ⟨ls1, h1, f1⟩ := loadProgram_frame ls pt
    obtain ⟨ls2, h2, f2⟩ := ih ls1
    exact ⟨ls2, by rw [loadPrograms, h1]; exact h2, loadFrame_trans f1 f2⟩

theorem loadIssues_frame :
    ∀ (l : List DataQualityIssue) (ls : LoadSt),
    ∃ ls', loadIssues (fun _ => false) ls l = .ok ls' ∧ LoadFrame ls ls' := by
  intro l
  induction l with
  | nil => intro ls; exact ⟨ls, rfl, loadFrame_rfl ls⟩
  | cons i rest ih =>
    intro ls
    obtain ⟨ls1, h1, f1⟩ :=
      execStep_frame (fun db => insertIssue db i) ls
        (fun d => insertIssue_accounts d i)
    obtain ⟨ls2, h2, f2⟩ := ih ls1
    exact ⟨ls2, by rw [loadIssues, h1]; exact h2, loadFrame_trans f1 f2⟩

theorem loadUsers_spec :
    ∀ (l : List CleanTuple) (ls : LoadSt),
    (∀ t ∈ l, (mapLookup ls.emailMap t.2.2.email).isSome = true) →
    ∃ ls', loadUsers (fun _ => false) ls l = .ok ls' ∧
      ls'.pending.accounts = ls.pending.accounts ∧
      ls'.emailMap = ls.emailMap ∧
      ls'.processed = ls.processed ∧
      ls'.accUpserts = ls.accUpserts ∧
      ls'.userWrites = ls.userWrites ++ l.map (fun t =>
        (t.1.user_id, t.2.2.email,
          (mapLookup ls.emailMap t.2.2.email).getD 0)) := by
  intro l
  induction l with
  | nil =>
    intro ls _
    exact ⟨ls, rfl, rfl, rfl, rfl, rfl, by simp⟩
  | cons t rest ih =>
    intro ls hall
    have hs := hall t (List.mem_cons_self t rest)
    cases hm : mapLookup ls.emailMap t.2.2.email with
    | none => rw [hm] at hs; simp at hs
    | some aid =>
      obtain ⟨ls1, h1, f1⟩ :=
        execStep_frame (fun db => upsertUser db t.1 aid) ls
          (fun d => upsertUser_accounts d t.1 aid)
      set ls1w : LoadSt := { ls1 with
        userWrites := ls1.userWrites ++ [(t.1.user_id, t.2.2.email, aid)] }
        with hls1w
      obtain ⟨ls2, h2, f2⟩ := loadPrograms_frame t.2.1 ls1w
      have hw1 : ls1w.emailMap = ls.emailMap := by rw [hls1w]; exact f1.2.1
      obtain ⟨ls3, h3, g1, g2, g3, g4, g5⟩ := ih ls2 (by
        intro x hx
        rw [f2.2.1, hw1]
        exact hall x (List.mem_cons_of_mem t hx))
      refine ⟨ls3, ?_, ?_, ?_, ?_, ?_, ?_⟩
      · rw [loadUsers, loadUser, hm]
        simp only
        rw [h1]
        simp only
        rw [← hls1w, h2]
        exact h3
      · rw [g1, f2.1, hls1w]
        exact f1.1
      · rw [g2, f2.2.1, hw1]
      · rw [g3, f2.2.2.1, hls1w]
        exact f1.2.2.1
      · rw [g4, f2.2.2.2.1, hls1w]
        exact f1.2.2.2.1
      · have hw2 : ls2.emailMap = ls.emailMap := f2.2.1.trans hw1
        have huw : ls1w.userWrites
            = ls.userWrites ++ [(t.1.user_id, t.2.2.email, aid)] := by
          show ls1.userWrites ++ [(t.1.user_id, t.2.2.email, aid)]
              = ls.userWrites ++ [(t.1.user_id, t.2.2.email, aid)]
          rw [f1.2.2.2.2]
        rw [g5, hw2, f2.2.2.2.2, huw, List.append_assoc]
        simp [hm]

theorem accountIdOf_congr {db1 db2 : DB} (h : db1.accounts = db2.accounts)
    (e : String) : accountIdOf db1 e = accountIdOf db2 e := by
  rw [accountIdOf, accountIdOf, h]

theorem find?_key_self {l : List AccountRow}
    (hnd : (l.map (fun r => r.email)).Nodup) {r : AccountRow} (hr : r ∈ l) :
    l.find? (fun x => x.email = r.email) = some r := by
  induction l with
  | nil => simp at hr
  | cons a l ih =>
    rw [List.map_cons, List.nodup_cons] at hnd
    rcases List.mem_cons.mp hr with rfl | hmem
    · rw [List.find?_cons]
      simp
    · rw [List.find?_cons]
      have hne : decide (a.email = r.email) = false := by
        simp only [decide_eq_false_iff_not]
        intro he
        exact hnd.1 (he ▸ List.mem_map_of_mem (fun x => x.email) hmem)
      rw [hne]
      exact ih hnd.2 hmem

theorem accountIdOf_self {db : DB}
    (hnd : (db.accounts.map (fun r => r.email)).Nodup)
    {r : AccountRow} (hr : r ∈ db.accounts) :
    accountIdOf db r.email = some r.account_id := by
  rw [accountIdOf, find?_key_self hnd hr]
  rfl

/-- C2: account remapping in load_to_database.  On a database whose unique
email constraint holds, the failure-free load executes exactly one account
upsert per distinct account email of the batch (the processed set is
duplicate-free and holds exactly the batch emails, and the number of
account upserts equals its size); every advocate-user row is written with
the storage-assigned account id fetched for its email — the id stored in
the accounts table after load, not the locally generated tuple id — so all
participants sharing one email receive the identical stored account id,
and a pre-existing account row keeps its storage id, which is therefore
the id every user with that email references. -/
theorem load_account_remapping (db : DB) (clean : List CleanTuple)
    (issues : List DataQualityIssue) (iid : Uuid)
    (hnd : (db.accounts.map (fun r => r.email)).Nodup) :
    ∃ ls, loadTrace db clean issues iid = .ok ls ∧
      ls.accUpserts = ls.processed.length ∧
      ls.processed.Nodup ∧
      (∀ e, e ∈ ls.processed ↔ e ∈ clean.map (fun t => t.2.2.email)) ∧
      (∀ t ∈ clean, (accountIdOf ls.pending t.2.2.email).isSome = true) ∧
      ls.userWrites = clean.map (fun t => (t.1.user_id, t.2.2.email,
        (accountIdOf ls.pending t.2.2.email).getD 0)) ∧
      (∀ r ∈ db.accounts, accountIdOf ls.pending r.email = some r.account_id)
    := by
  obtain ⟨ls1, h1, f1⟩ :=
    execStep_frame id { pending := db } (fun d => rfl)
  obtain ⟨ls2, h2, f2⟩ :=
    execStep_frame (fun d => insertImport d iid) ls1
      (fun d => insertImport_accounts d iid)
  have a2 : ls2.pending.accounts = db.accounts := by
    rw [f2.1]; exact f1.1
  have e2 : ls2.emailMap = ([] : List (String × Uuid)) := f2.2.1.trans f1.2.1
  have p2 : ls2.processed = ([] : List String) := f2.2.2.1.trans f1.2.2.1
  have u2 : ls2.accUpserts = 0 := f2.2.2.2.1.trans f1.2.2.2.1
  have w2 : ls2.userWrites = ([] : List (Uuid × String × Uuid)) :=
    f2.2.2.2.2.trans f1.2.2.2.2
  obtain ⟨ls3, hrun3, G1, G2, G3, G4, G5, G6, G7, G8⟩ :=
    loadAccounts_spec clean ls2 (by rw [a2]; exact hnd)
      (by rw [e2]; intro p hp; simp at hp)
      (by rw [p2, e2]; rfl) (by rw [p2]; exact List.nodup_nil)
  have hmany : ∀ t ∈ clean,
      (mapLookup ls3.emailMap t.2.2.email).isSome = true := by
    intro t ht
    have hmem : t.2.2.email ∈ ls3.processed := by
      rw [G6]
      exact Or.inr (List.mem_map_of_mem (fun t => t.2.2.email) ht)
    rw [G3] at hmem
    rw [mapLookup_accountIdOf G2 hmem]
    obtain ⟨p0, hp0, he0⟩ := List.mem_map.mp hmem
    rw [← he0, G2 p0 hp0]
    rfl
  obtain ⟨ls4, hrun4, H1, H2, H3, H4, H5⟩ := loadUsers_spec clean ls3 hmany
  obtain ⟨ls5, hrun5, F5⟩ := loadIssues_frame issues ls4
  obtain ⟨ls6, hrun6, F6⟩ :=
    execStep_frame (fun d => updateImportCompleted d iid clean.length) ls5
      (fun d => updateImportCompleted_accounts d iid clean.length)
  have hacc63 : ls6.pending.accounts = ls3.pending.accounts := by
    rw [F6.1, F5.1, H1]
  have hid63 : ∀ e, accountIdOf ls6.pending e = accountIdOf ls3.pending e :=
    accountIdOf_congr hacc63
  have hpr63 : ls6.processed = ls3.processed := by
    rw [F6.2.2.1, F5.2.2.1, H3]
  have hup63 : ls6.accUpserts = ls3.accUpserts := by
    rw [F6.2.2.2.1, F5.2.2.2.1, H4]
  have hmapall : ∀ t ∈ clean,
      mapLookup ls3.emailMap t.2.2.email
        = accountIdOf ls6.pending t.2.2.email := by
    intro t ht
    have hmem : t.2.2.email ∈ ls3.processed := by
      rw [G6]
      exact Or.inr (List.mem_map_of_mem (fun t => t.2.2.email) ht)
    rw [G3] at hmem
    rw [mapLookup_accountIdOf G2 hmem, hid63]
  refine ⟨ls6, ?_, ?_, ?_, ?_, ?_, ?_, ?_⟩
  · unfold loadTrace loadBody
    rw [h1]
    simp only [exbind_ok]
    rw [h2]
    simp only [exbind_ok]
    rw [hrun3]
    simp only [exbind_ok]
    rw [hrun4]
    simp only [exbind_ok]
    rw [hrun5]
    simp only [exbind_ok]
    exact hrun6
  · rw [hup63, hpr63]
    rw [p2, u2] at G7
    simpa using G7
  · rw [hpr63]
    exact G4
  · intro e
    rw [hpr63, G6 e, p2]
    simp
  · intro t ht
    rw [← hmapall t ht]
    exact hmany t ht
  · have hw6 : ls6.userWrites = ls4.userWrites := by
      rw [F6.2.2.2.2, F5.2.2.2.2]
    rw [hw6, H5, G8, w2, List.nil_append]
    exact List.map_congr_left (fun t ht => by rw [hmapall t ht])
  · intro r hr
    rw [hid63]
    apply G5
    rw [accountIdOf_congr a2]
    exact accountIdOf_self hnd hr

theorem load_account_remapping_witness :
    ∃ ls, loadTrace c2db [c2t1, c2t2] [] 9 = .ok ls ∧
      ls.accUpserts = ls.processed.length ∧
      ls.processed.Nodup ∧
      (∀ e, e ∈ ls.processed ↔
        e ∈ [c2t1, c2t2].map (fun t => t.2.2.email)) ∧
      (∀ t ∈ [c2t1, c2t2],
        (accountIdOf ls.pending t.2.2.email).isSome = true) ∧
      ls.userWrites = [c2t1, c2t2].map (fun t => (t.1.user_id, t.2.2.email,
        (accountIdOf ls.pending t.2.2.email).getD 0)) ∧
      (∀ r ∈ c2db.accounts,
        accountIdOf ls.pending r.email = some r.account_id) :=
  load_account_remapping c2db [c2t1, c2t2] [] 9 (by decide)

end Theorems

end AdvocacyEtl
